import Mathlib

/-!
# Buffer-object manager and device page-table engine of SeeleBSD/sys

A shallow embedding of

* `dev/pci/drm/drm_gem_shmem_helper.c` (the shmem GEM buffer-object manager), and
* `dev/pci/drm/io-pgtable-arm.c` (the page-table engine, in the form that is compiled:
  the bodies under `#ifdef notyet` are not part of the program),

followed by theorems about them.

Conventions.

* Pointers are `Option`s (`none` is `NULL`); a `struct vm_page *` is the number of its
  physical frame.
* Every call into the allocator or another kernel service whose outcome the caller
  cannot predict takes that outcome as an explicit argument (an "environment").
* `drm_WARN_ON` / `drm_WARN_ON_ONCE` print a warning and evaluate to their condition
  (the source uses them as `if (drm_WARN_ON_ONCE(..)) return;`); a function that
  contains one returns, next to its result, whether the warning fired.
* Addresses and sizes (`vaddr_t`, `paddr_t`, `size_t`, `vsize_t`) are 64-bit: every
  arithmetic operation on them that can leave the range is reduced modulo `2^64`. The
  two use counts of a buffer object are `unsigned int`: an increment is reduced modulo
  `2^32`. Loops whose termination depends on that arithmetic take fuel and return
  `none` when it runs out.
-/

namespace DrmCore

/-! ## Constants -/

/-- Errno `EIO` (sys/errno.h). -/
def EIO : Int := 5
/-- Errno `ENOMEM` (sys/errno.h). -/
def ENOMEM : Int := 12
/-- Errno `EEXIST` (sys/errno.h). -/
def EEXIST : Int := 17
/-- Errno `EINVAL` (sys/errno.h). -/
def EINVAL : Int := 22

/-- The MMU page size. `drm_gem_shmem_get_pages` takes four pages for every 16 KiB
granule (`pages[i * 4 + j]`, `(i * 4 + j) * PAGE_SIZE`), so a page is 4 KiB. -/
def PAGE_SIZE : Nat := 4096
/-- The shift of `PAGE_SIZE`. -/
def PAGE_SHIFT : Nat := 12
/-- The constant `PAGE_SIZE_4K` of io-pgtable-arm.c. -/
def PAGE_SIZE_4K : Nat := 4 * 1024
/-- The constant `PAGE_SIZE_16K` of io-pgtable-arm.c. -/
def PAGE_SIZE_16K : Nat := 16 * 1024

/-- Reduction of an address or size to 64 bits. -/
def w64 (x : Nat) : Nat := x % 2 ^ 64

/-- Reduction of an `unsigned int` to 32 bits. -/
def u32 (x : Nat) : Nat := x % 2 ^ 32

/-- The largest `unsigned int`. -/
def UINT_MAX : Nat := 2 ^ 32 - 1

/-! ## Buffer objects (drm_gem_shmem_helper.c) -/

/-- One entry of a scatter-gather list, as `sg_set_page` fills it. -/
structure scatterlist where
  page : Nat
  length : Nat
  offset : Nat
deriving DecidableEq, Repr

/-- A `struct sg_table`: `sgl` holds the entries set so far, `nents` the counter the
code increments, `orig_nents` the number of entries `sg_alloc_table` was asked for. The
two counters are `unsigned int`. -/
structure sg_table where
  sgl : List scatterlist
  nents : Nat
  orig_nents : Nat
deriving DecidableEq, Repr

/-- Modelled from the spec: `struct drm_gem_shmem_object` and its `struct drm_gem_object`
base are declared in headers that are not under src. The fields are the ones the
functions of drm_gem_shmem_helper.c read and write. The two use counts are
`unsigned int` (`drm_gem_shmem_print_info` prints them with `%u`): their values are
below `2^32` and `++` wraps around; `size` is a `size_t`.

* `size` is `base.size`, `import_attach` whether `base.import_attach` is set,
  `dma_buf_size` the size of the imported dma-buf;
* `pages` is the page array (the frames stored so far), `sgt` the scatter-gather table,
  `vaddr` the kernel virtual address of the CPU mapping;
* `uobj` lists the `(offset, frame)` pairs that `uvm_pageinsert` put into `base.uobj`;
* `mmap_offset` tells whether the fake mmap offset exists. -/
structure drm_gem_shmem_object where
  size : Nat
  import_attach : Bool
  dma_buf_size : Nat
  pages_use_count : Nat
  vmap_use_count : Nat
  madv : Int
  pages : Option (List Nat)
  sgt : Option sg_table
  vaddr : Option Nat
  map_wc : Bool
  uobj : List (Nat × Nat)
  mmap_offset : Bool
deriving DecidableEq, Repr

/-- Modelled from the spec: `round_up` is a macro of a header that is not under src;
the spec says the size is "rounded up to the device's mapping granule". -/
def round_up (x y : Nat) : Nat := (x + y - 1) / y * y

/-- Outcomes of the services `__drm_gem_shmem_create` calls: the allocation of the
object (the driver's `gem_create_object` hook or `kzalloc`; `some e` is the error it
fails with), `drm_gem_object_init` and `drm_gem_create_mmap_offset` (their return
values). -/
structure create_env where
  alloc_err : Option Int
  object_init_ret : Int
  mmap_offset_ret : Int
deriving DecidableEq, Repr

/-- The function `__drm_gem_shmem_create`: `size = round_up(size, 0x4000)` is computed
in `size_t`, so a request above `2^64 - 16384` wraps to 0; the object comes zero-filled
from `kzalloc`; `drm_gem_object_init` / `drm_gem_private_object_init` (not under src)
record the size. An error is returned as `Except.error` (the `ERR_PTR`). -/
def __drm_gem_shmem_create (env : create_env) (size : Nat) (priv : Bool) :
    Except Int drm_gem_shmem_object :=
  let size := w64 (round_up size 0x4000)
  match env.alloc_err with
  | some e => Except.error e
  | none =>
    let ret := if priv then 0 else env.object_init_ret
    if ret ≠ 0 then Except.error ret
    else
      let ret := env.mmap_offset_ret
      if ret ≠ 0 then Except.error ret
      else Except.ok
        { size := size, import_attach := false, dma_buf_size := 0,
          pages_use_count := 0, vmap_use_count := 0, madv := 0,
          pages := none, sgt := none, vaddr := none, map_wc := false,
          uobj := [], mmap_offset := true }

/-- The function `drm_gem_shmem_create`. -/
def drm_gem_shmem_create (env : create_env) (size : Nat) : Except Int drm_gem_shmem_object :=
  __drm_gem_shmem_create env size false

/-- Outcomes of the allocators `drm_gem_shmem_get_pages` calls: whether `mallocarray`
(the page array), `malloc` (the `struct sg_table`) and `sg_alloc_table` succeed, and
what `uvm_pglistalloc` delivers (`none` for an error, else the frames of the page list
in order). -/
structure get_pages_env where
  mallocarray_ok : Bool
  malloc_st_ok : Bool
  sg_alloc_table_ok : Bool
  uvm_pglistalloc : Option (List Nat)
deriving DecidableEq, Repr

/-- The local variables of the loop of `drm_gem_shmem_get_pages`: the page list `plist`,
the page array `pages`, the pages inserted into `obj->uobj`, the scatter-gather entries
set so far and `st->nents`. -/
structure fill_state where
  plist : List Nat
  pages : List Nat
  uobj : List (Nat × Nat)
  sgl : List scatterlist
  nents : Nat
deriving DecidableEq, Repr

/-- The function `uvm_pagelookup` on the pages inserted so far. -/
def uvm_pagelookup (uobj : List (Nat × Nat)) (offset : Nat) : Option Nat :=
  (uobj.find? (fun e => e.1 = offset)).map (fun e => e.2)

/-- The `for (j = 0; j < 4; j++)` loop of `drm_gem_shmem_get_pages` for granule `i`,
started at `j = 4 - n`: it takes the first page of the list (`false` when the list is
empty: `goto fail_unwire`), gives it the offset `(i * 4 + j) * PAGE_SIZE`, inserts it
into the object unless a page is there already, and stores it as `pages[i * 4 + j]`
(which is the next free slot of the array). -/
def get_pages_granule (i : Nat) : Nat → fill_state → Bool × fill_state
  | 0, st => (true, st)
  | n + 1, st =>
    match st.plist with
    | [] => (false, st)
    | page :: rest =>
      let offset := (i * 4 + (4 - (n + 1))) * PAGE_SIZE
      let uobj := if uvm_pagelookup st.uobj offset = none
        then st.uobj ++ [(offset, page)] else st.uobj
      get_pages_granule i n { st with plist := rest, uobj := uobj, pages := st.pages ++ [page] }

/-- The `while (i < npages)` loop of `drm_gem_shmem_get_pages` (`fuel` bounds the
number of iterations; the caller passes `npages`): four pages per granule, then
`sg_set_page(sg, pages[i * 4], 16 * 1024, 0)` and `st->nents++`, which is an increment
of an `unsigned int`. -/
def get_pages_fill (npages : Nat) : Nat → Nat → fill_state → Bool × fill_state
  | 0, _, st => (true, st)
  | fuel + 1, i, st =>
    if i < npages then
      let r := get_pages_granule i 4 st
      if r.1 then
        get_pages_fill npages fuel (i + 1)
          { r.2 with
            sgl := r.2.sgl ++ [{ page := r.2.pages.getD (i * 4) 0, length := 16 * 1024, offset := 0 }],
            nents := u32 (r.2.nents + 1) }
      else (false, r.2)
    else (true, st)

/-- What `drm_gem_shmem_get_pages` returns: the return value, the object afterwards and
the frames the call gave back to the page source with `uvm_pglistfree`. -/
structure get_pages_result where
  ret : Int
  shmem : drm_gem_shmem_object
  freed : List Nat
deriving DecidableEq, Repr

/-- The function `drm_gem_shmem_get_pages`. In `if (shmem->pages_use_count++ > 0)` the
`unsigned int` count is compared and then incremented modulo `2^32`; on the other
branch it was 0 and is 1 until the function sets it. -/
def drm_gem_shmem_get_pages (env : get_pages_env) (shmem : drm_gem_shmem_object) :
    get_pages_result :=
  let npages := shmem.size >>> 14
  if shmem.pages_use_count > 0 then
    { ret := 0, shmem := { shmem with pages_use_count := u32 (shmem.pages_use_count + 1) },
      freed := [] }
  else if ¬ env.mallocarray_ok then
    { ret := - ENOMEM, shmem := { shmem with pages_use_count := 0 }, freed := [] }
  else if ¬ env.malloc_st_ok then
    { ret := - ENOMEM, shmem := { shmem with pages_use_count := 0 }, freed := [] }
  else if ¬ env.sg_alloc_table_ok then
    { ret := - ENOMEM, shmem := { shmem with pages_use_count := 0 }, freed := [] }
  else
    match env.uvm_pglistalloc with
    | none => { ret := - ENOMEM, shmem := { shmem with pages_use_count := 0 }, freed := [] }
    | some plist =>
      -- `uvm_obj_init` starts `obj->uobj` afresh
      let r := get_pages_fill npages npages 0
        { plist := plist, pages := [], uobj := [], sgl := [], nents := 0 }
      if r.1 then
        { ret := 0,
          shmem := { shmem with
            pages_use_count := 1,
            uobj := r.2.uobj,
            sgt := some { sgl := r.2.sgl, nents := r.2.nents, orig_nents := u32 npages },
            pages := some r.2.pages },
          freed := [] }
      else
        { ret := - ENOMEM,
          shmem := { shmem with pages_use_count := 0, uobj := r.2.uobj },
          freed := r.2.plist }

/-- The function `drm_gem_shmem_put_pages`; the first component tells whether
`drm_WARN_ON_ONCE(!shmem->pages_use_count)` fired. `drm_gem_put_pages` (not under src)
gives the frames of the page array back. -/
def drm_gem_shmem_put_pages (shmem : drm_gem_shmem_object) : Bool × drm_gem_shmem_object :=
  if shmem.pages_use_count = 0 then (true, shmem)
  else if shmem.pages_use_count - 1 > 0 then
    (false, { shmem with pages_use_count := shmem.pages_use_count - 1 })
  else
    (false, { shmem with pages_use_count := shmem.pages_use_count - 1, pages := none })

/-- The function `drm_gem_shmem_pin_locked`. -/
def drm_gem_shmem_pin_locked (env : get_pages_env) (shmem : drm_gem_shmem_object) :
    get_pages_result :=
  drm_gem_shmem_get_pages env shmem

/-- The function `drm_gem_shmem_unpin_locked`. -/
def drm_gem_shmem_unpin_locked (shmem : drm_gem_shmem_object) : Bool × drm_gem_shmem_object :=
  drm_gem_shmem_put_pages shmem

/-- The function `drm_gem_shmem_pin`: `lock_ret` is what `dma_resv_lock_interruptible`
returns. The result is (whether `drm_WARN_ON(obj->import_attach)` fired, the return
value, the object). -/
def drm_gem_shmem_pin (lock_ret : Int) (env : get_pages_env) (shmem : drm_gem_shmem_object) :
    Bool × Int × drm_gem_shmem_object :=
  if lock_ret ≠ 0 then (shmem.import_attach, lock_ret, shmem)
  else
    let r := drm_gem_shmem_pin_locked env shmem
    (shmem.import_attach, r.ret, r.shmem)

/-- The function `drm_gem_shmem_unpin`: the result is (whether a warning fired, the object). -/
def drm_gem_shmem_unpin (shmem : drm_gem_shmem_object) : Bool × drm_gem_shmem_object :=
  let r := drm_gem_shmem_unpin_locked shmem
  (shmem.import_attach || r.1, r.2)

/-- A pointer made from an address: address 0 is `NULL`. -/
def ptr_of (addr : Nat) : Option Nat := if addr = 0 then none else some addr

/-- Outcomes of the services `dma_buf_vmap` calls: what `uvm_pglistalloc` delivers and
the address `km_alloc` returns. -/
structure dma_buf_env where
  uvm_pglistalloc : Option (List Nat)
  km_alloc : Nat
deriving DecidableEq, Repr

/-- What `dma_buf_vmap` returns: the return value, the `iosys_map` afterwards, the
frames it obtained with `uvm_pglistalloc` and holds at return (neither it nor
`dma_buf_vunmap` gives them back), and the frames it gave back with `uvm_pglistfree`. -/
structure dma_buf_vmap_result where
  ret : Int
  map : Option Nat
  held : List Nat
  freed : List Nat
deriving DecidableEq, Repr

/-- The loop `for (size_t i = 0; i < npages; i++)` of `dma_buf_vmap`, with `n`
iterations to go: it takes the first page of the list (`false` when the list is empty:
`goto err_unmap`), enters it into the kernel map with `pmap_kenter_pa` and removes it
from the list. The result is (whether the loop ended well, the frames entered, the
rest of the list). -/
def dma_buf_vmap_loop : Nat → List Nat → List Nat → Bool × List Nat × List Nat
  | 0, plist, entered => (true, entered, plist)
  | _ + 1, [], entered => (false, entered, [])
  | n + 1, page :: rest, entered => dma_buf_vmap_loop n rest (entered ++ [page])

/-- The function `dma_buf_vmap`: returns `-ENOMEM` when the page list cannot be
allocated or runs out before `npages` pages were entered, else sets the mapping's
address and returns 0. The page list is a local variable: the frames entered, and
those left on the list when the function returns 0, are given back nowhere; at
`err_unmap`, `uvm_pglistfree(&plist)` gives back the rest of the list. -/
def dma_buf_vmap (env : dma_buf_env) (size : Nat) (map : Option Nat) : dma_buf_vmap_result :=
  let npages := size >>> PAGE_SHIFT
  match env.uvm_pglistalloc with
  | none => { ret := - ENOMEM, map := map, held := [], freed := [] }
  | some plist =>
    let r := dma_buf_vmap_loop npages plist []
    if r.1 then { ret := 0, map := ptr_of env.km_alloc, held := r.2.1 ++ r.2.2, freed := [] }
    else { ret := - ENOMEM, map := map, held := r.2.1, freed := r.2.2 }

/-- The function `dma_buf_vunmap`: `-EINVAL` for a mapping without address, else the
mapping is removed and the `iosys_map` cleared. -/
def dma_buf_vunmap (map : Option Nat) : Int × Option Nat :=
  match map with
  | none => (- EINVAL, map)
  | some _ => (0, none)

/-- Outcomes of the services `drm_gem_shmem_vmap` calls: those of
`drm_gem_shmem_get_pages`, the address `vmap()` returns (`none` is `NULL`), and those of
`dma_buf_vmap`. -/
structure vmap_env where
  get_pages : get_pages_env
  vmap : Option Nat
  dma_buf : dma_buf_env
deriving DecidableEq, Repr

/-- What `drm_gem_shmem_vmap` returns: the return value, the caller's `iosys_map`
afterwards, the object afterwards, whether a warning fired, and the frames that
`dma_buf_vmap` obtained for the call and holds. -/
structure vmap_result where
  ret : Int
  map : Option Nat
  shmem : drm_gem_shmem_object
  warned : Bool
  held : List Nat
deriving DecidableEq, Repr

/-- The function `drm_gem_shmem_vmap`. In `if (shmem->vmap_use_count++ > 0)` the
`unsigned int` count is compared and then incremented modulo `2^32`. -/
def drm_gem_shmem_vmap (env : vmap_env) (shmem : drm_gem_shmem_object) (map : Option Nat) :
    vmap_result :=
  if shmem.import_attach then
    let r := dma_buf_vmap env.dma_buf shmem.dma_buf_size map
    if r.ret = 0 then
      { ret := - EIO, map := (dma_buf_vunmap r.map).2, shmem := shmem, warned := false,
        held := r.held }
    else
      -- err_put_pages (nothing to put for an imported object), err_zero_use
      { ret := r.ret, map := r.map, shmem := { shmem with vmap_use_count := 0 },
        warned := false, held := r.held }
  else if shmem.vmap_use_count > 0 then
    { ret := 0, map := shmem.vaddr,
      shmem := { shmem with vmap_use_count := u32 (shmem.vmap_use_count + 1) },
      warned := false, held := [] }
  else
    let r := drm_gem_shmem_get_pages env.get_pages
      { shmem with vmap_use_count := u32 (shmem.vmap_use_count + 1) }
    if r.ret ≠ 0 then
      -- err_zero_use
      { ret := r.ret, map := map, shmem := { r.shmem with vmap_use_count := 0 },
        warned := false, held := [] }
    else
      match env.vmap with
      | none =>
        -- err_put_pages, err_zero_use
        let p := drm_gem_shmem_put_pages { r.shmem with vaddr := none }
        { ret := - ENOMEM, map := map, shmem := { p.2 with vmap_use_count := 0 },
          warned := p.1, held := [] }
      | some vaddr =>
        { ret := 0, map := some vaddr, shmem := { r.shmem with vaddr := some vaddr },
          warned := false, held := [] }

/-- The function `drm_gem_shmem_vunmap`: the result is (whether a warning fired, the
caller's `iosys_map` afterwards, the object afterwards). -/
def drm_gem_shmem_vunmap (shmem : drm_gem_shmem_object) (map : Option Nat) :
    Bool × Option Nat × drm_gem_shmem_object :=
  if shmem.import_attach then
    (false, (dma_buf_vunmap map).2, { shmem with vaddr := none })
  else if shmem.vmap_use_count = 0 then (true, map, shmem)
  else if shmem.vmap_use_count - 1 > 0 then
    (false, map, { shmem with vmap_use_count := shmem.vmap_use_count - 1 })
  else
    let p := drm_gem_shmem_put_pages { shmem with vmap_use_count := shmem.vmap_use_count - 1 }
    (p.1, map, { p.2 with vaddr := none })

/-- The function `drm_gem_shmem_madvise`: the result is (return value, the object
afterwards). -/
def drm_gem_shmem_madvise (shmem : drm_gem_shmem_object) (madv : Int) :
    Int × drm_gem_shmem_object :=
  let shmem := if shmem.madv ≥ 0 then { shmem with madv := madv } else shmem
  let madv := shmem.madv
  (if madv ≥ 0 then 1 else 0, shmem)

/-- Modelled from the spec: `drm_gem_shmem_is_purgeable` is an inline function of a
header that is not under src. The spec gives the precondition of purge as "object is
purgeable (`reclaim_state ≠ Normal`) and currently unpinned/unmapped". -/
def drm_gem_shmem_is_purgeable (shmem : drm_gem_shmem_object) : Bool :=
  decide (shmem.madv ≠ 0) && decide (shmem.pages_use_count = 0)
    && decide (shmem.vmap_use_count = 0)

/-- The function `drm_gem_shmem_purge`: `sg_free_table(shmem->sgt)` dereferences the
table, so there is no result (`none`) for an object without one. Otherwise the result
is (whether a warning fired, the object afterwards):
`drm_WARN_ON(!drm_gem_shmem_is_purgeable(shmem))` only warns, then the table is freed,
the pages are put, `madv` becomes -1 and the mmap offset is freed. -/
def drm_gem_shmem_purge (shmem : drm_gem_shmem_object) : Option (Bool × drm_gem_shmem_object) :=
  match shmem.sgt with
  | none => none
  | some _ =>
    let p := drm_gem_shmem_put_pages { shmem with sgt := none }
    some (!drm_gem_shmem_is_purgeable shmem || p.1, { p.2 with madv := -1, mmap_offset := false })

/-! ### Sequences of operations -/

/-- A call of one of the manager's operations, with the outcomes of the services it
uses. -/
inductive shmem_op where
  | get_pages (env : get_pages_env)
  | put_pages
  | pin (lock_ret : Int) (env : get_pages_env)
  | unpin
  | vmap (env : vmap_env)
  | vunmap
  | madvise (madv : Int)
  | purge
deriving DecidableEq, Repr

/-- The object after one call (`none` when the call has no result). -/
def shmem_op.apply (shmem : drm_gem_shmem_object) : shmem_op → Option drm_gem_shmem_object
  | .get_pages env => some (drm_gem_shmem_get_pages env shmem).shmem
  | .put_pages => some (drm_gem_shmem_put_pages shmem).2
  | .pin lock_ret env => some (drm_gem_shmem_pin lock_ret env shmem).2.2
  | .unpin => some (drm_gem_shmem_unpin shmem).2
  | .vmap env => some (drm_gem_shmem_vmap env shmem none).shmem
  | .vunmap => some (drm_gem_shmem_vunmap shmem none).2.2
  | .madvise madv => some (drm_gem_shmem_madvise shmem madv).2
  | .purge => (drm_gem_shmem_purge shmem).map (fun r => r.2)

/-- The object after a sequence of calls. -/
def shmem_run : List shmem_op → drm_gem_shmem_object → Option drm_gem_shmem_object
  | [], shmem => some shmem
  | op :: ops, shmem =>
    match op.apply shmem with
    | none => none
    | some shmem1 => shmem_run ops shmem1

/-- Whether a call leaves the use counts within the range of `unsigned int`, on the
object it is made on: the calls that increment a use count (`get_pages` and `pin`:
`pages_use_count`; `vmap`: `vmap_use_count` and, through `get_pages`, `pages_use_count`)
are made while that count is below `UINT_MAX`. -/
def shmem_op.no_overflow (shmem : drm_gem_shmem_object) : shmem_op → Bool
  | .get_pages _ => decide (shmem.pages_use_count < UINT_MAX)
  | .pin _ _ => decide (shmem.pages_use_count < UINT_MAX)
  | .vmap _ =>
    decide (shmem.vmap_use_count < UINT_MAX) && decide (shmem.pages_use_count < UINT_MAX)
  | _ => true

/-- The object after a sequence of calls none of which takes a use count beyond
`UINT_MAX` (`none` when one does, or has no result). -/
def shmem_run_no_overflow :
    List shmem_op → drm_gem_shmem_object → Option drm_gem_shmem_object
  | [], shmem => some shmem
  | op :: ops, shmem =>
    if op.no_overflow shmem then
      match op.apply shmem with
      | none => none
      | some shmem1 => shmem_run_no_overflow ops shmem1
    else none

/-- One call made by a caller that keeps the contract, on an object on which `pins`
pins taken by `get_pages` / `pin` are outstanding: `put_pages` / `unpin` gives back one
of these pins (there must be one), purge is called only when its precondition holds.
The result is the object and the outstanding pins afterwards; `none` when the call
breaks the contract or has no result. -/
def shmem_op.apply_checked (shmem : drm_gem_shmem_object) (pins : Nat) :
    shmem_op → Option (drm_gem_shmem_object × Nat)
  | .get_pages env =>
    let r := drm_gem_shmem_get_pages env shmem
    some (r.shmem, if r.ret = 0 then pins + 1 else pins)
  | .put_pages =>
    if pins = 0 then none else some ((drm_gem_shmem_put_pages shmem).2, pins - 1)
  | .pin lock_ret env =>
    let r := drm_gem_shmem_pin lock_ret env shmem
    some (r.2.2, if r.2.1 = 0 then pins + 1 else pins)
  | .unpin =>
    if pins = 0 then none else some ((drm_gem_shmem_unpin shmem).2, pins - 1)
  | .vmap env => some ((drm_gem_shmem_vmap env shmem none).shmem, pins)
  | .vunmap => some ((drm_gem_shmem_vunmap shmem none).2.2, pins)
  | .madvise madv => some ((drm_gem_shmem_madvise shmem madv).2, pins)
  | .purge =>
    if drm_gem_shmem_is_purgeable shmem then
      (drm_gem_shmem_purge shmem).map (fun r => (r.2, pins))
    else none

/-- A sequence of calls made by callers that keep the contract and take no use count
beyond `UINT_MAX`. -/
def shmem_run_checked :
    List shmem_op → drm_gem_shmem_object × Nat → Option (drm_gem_shmem_object × Nat)
  | [], st => some st
  | op :: ops, st =>
    if op.no_overflow st.1 then
      match op.apply_checked st.1 st.2 with
      | none => none
      | some st1 => shmem_run_checked ops st1
    else none

/-- The calls that pin or unpin: `get_pages`, `put_pages`, `pin`, `unpin`. -/
def shmem_op.is_pin_op : shmem_op → Bool
  | .get_pages _ => true
  | .put_pages => true
  | .pin _ _ => true
  | .unpin => true
  | _ => false

/-- The object after `n` calls of `drm_gem_shmem_put_pages`. -/
def put_pages_n : Nat → drm_gem_shmem_object → drm_gem_shmem_object
  | 0, shmem => shmem
  | n + 1, shmem => put_pages_n n (drm_gem_shmem_put_pages shmem).2

/-- The object after one call of `drm_gem_shmem_get_pages` per element of the list, all
of which return 0 (`none` as soon as a call fails). -/
def get_pages_all : List get_pages_env → drm_gem_shmem_object → Option drm_gem_shmem_object
  | [], shmem => some shmem
  | env :: envs, shmem =>
    let r := drm_gem_shmem_get_pages env shmem
    if r.ret = 0 then get_pages_all envs r.shmem else none

/-! ### Faults, mmap and the scatter-gather accessors -/

/-- Modelled from the spec: `VM_FAULT_SIGBUS` is a constant of a header that is not
under src; it is the fault result that "signals an access violation to the caller",
different from 0. -/
def VM_FAULT_SIGBUS : Nat := 2

/-- The function `drm_gem_shmem_fault` as compiled (the `#else` branch, for a kernel
that is not `__linux__`): `vm_fault_t ret = 0; return ret;`. The fault, given here by
the object and the byte offset of the faulting address, is not looked at. -/
def drm_gem_shmem_fault (_shmem : drm_gem_shmem_object) (_offset : Nat) : Nat := 0

/-- The variant of `drm_gem_shmem_fault` under `#ifdef __linux__`, which is not
compiled: `VM_FAULT_SIGBUS` when the page offset is not below `size >> PAGE_SHIFT`, the
page array is absent or `madv < 0`; else what `vmf_insert_pfn` returns (`insert_ret`). -/
def drm_gem_shmem_fault_linux (insert_ret : Nat) (shmem : drm_gem_shmem_object)
    (offset : Nat) : Nat :=
  let num_pages := shmem.size >>> PAGE_SHIFT
  let page_offset := offset >>> PAGE_SHIFT
  if page_offset ≥ num_pages ∨ shmem.pages = none ∨ shmem.madv < 0 then VM_FAULT_SIGBUS
  else insert_ret

/-- The function `drm_gem_shmem_prime_import_sg_table`: a private object of the rounded
size of the dma-buf, with the exporter's table as `sgt`. (The caller, which is not
under src, then sets `import_attach`.) -/
def drm_gem_shmem_prime_import_sg_table (env : create_env) (dmabuf_size : Nat)
    (sgt : sg_table) : Except Int drm_gem_shmem_object :=
  let size := w64 (round_up dmabuf_size 0x4000)
  match __drm_gem_shmem_create env size true with
  | Except.error e => Except.error e
  | Except.ok shmem => Except.ok { shmem with sgt := some sgt }

/-- Whether a call keeps the contract around purging, on the object it is made on:
`madvise` does not ask for Purged itself, purge is called only when its precondition
holds, and pages are not acquired (`get_pages`, `pin`, `vmap`) for a Purged object. -/
def shmem_op.keeps_purge_contract (shmem : drm_gem_shmem_object) : shmem_op → Bool
  | .get_pages _ => decide (0 ≤ shmem.madv)
  | .pin _ _ => decide (0 ≤ shmem.madv)
  | .vmap _ => decide (0 ≤ shmem.madv)
  | .madvise madv => decide (0 ≤ madv)
  | .purge => drm_gem_shmem_is_purgeable shmem
  | _ => true

/-- The object after a sequence of calls each of which keeps the contract around
purging (`none` when one does not, or has no result). -/
def shmem_run_purge_contract :
    List shmem_op → drm_gem_shmem_object → Option drm_gem_shmem_object
  | [], shmem => some shmem
  | op :: ops, shmem =>
    if op.keeps_purge_contract shmem then
      match op.apply shmem with
      | none => none
      | some shmem1 => shmem_run_purge_contract ops shmem1
    else none

/-! ## The page-table engine (io-pgtable-arm.c) -/

/-- Modelled from the spec: `trunc_page` is a macro of a header that is not under src;
the spec says "all addresses are truncated to page granularity before any lookup". -/
def trunc_page (x : Nat) : Nat := x / PAGE_SIZE * PAGE_SIZE

/-- Modelled from the spec: the kernel pmap (`pmap_kernel()` with `pmap_enter`,
`pmap_extract`, `pmap_kremove`), on which the compiled bodies of `__arm_lpae_map`,
`__arm_lpae_unmap` and `arm_lpae_iova_to_phys` work, is not under src. It is the
translation state of the spec at page granularity: `tr vpn` is the physical frame the
virtual page `vpn` translates to, `none` when the page is unmapped. -/
structure pmap where
  tr : Nat → Option Nat

/-- The pmap without any translation. -/
def pmap_empty : pmap := { tr := fun _ => none }

/-- Modelled from the spec: `pmap_enter` (not under src) with `PMAP_CANFAIL`. When the
pmap cannot get memory (`fail`) it returns `ENOMEM` (12) and changes nothing; otherwise it
makes the page of `va` translate to the frame of `pa`, replacing what was there, and
returns 0. The protection and the flags do not change which frame a page translates
to and are left out. -/
def pmap_enter (fail : Bool) (pm : pmap) (va pa : Nat) : Nat × pmap :=
  if fail then (12, pm)
  else
    (0, { tr := fun vpn => if vpn = va / PAGE_SIZE then some (pa / PAGE_SIZE) else pm.tr vpn })

/-- Modelled from the spec: `pmap_extract` (not under src): the physical address `va`
translates to, "the leaf's physical base plus iova's offset within that block";
`none` when it returns false. -/
def pmap_extract (pm : pmap) (va : Nat) : Option Nat :=
  (pm.tr (va / PAGE_SIZE)).map (fun frame => frame * PAGE_SIZE + va % PAGE_SIZE)

/-- The translation of one page removed. -/
def pmap_kremove_pg (pm : pmap) (va : Nat) : pmap :=
  { tr := fun vpn => if vpn = va / PAGE_SIZE then none else pm.tr vpn }

/-- The loop of `pmap_kremove` over `n` pages from `va`. -/
def pmap_kremove_loop : Nat → Nat → pmap → pmap
  | 0, _, pm => pm
  | n + 1, va, pm => pmap_kremove_loop n (w64 (va + PAGE_SIZE)) (pmap_kremove_pg pm va)

/-- Modelled from the spec: `pmap_kremove` (not under src) removes the translations of
the `len >> PAGE_SHIFT` pages from `va` on. -/
def pmap_kremove (pm : pmap) (va len : Nat) : pmap :=
  pmap_kremove_loop (len >>> PAGE_SHIFT) va pm

/-- The inner loop of `__arm_lpae_map`,
`for (size_t offset = 0; offset < size; offset += PAGE_SIZE)`, which enters
`curr_vaddr + offset*PAGE_SIZE -> curr_paddr + offset*PAGE_SIZE`. `fails k` tells
whether the `k`-th call of `pmap_enter` fails. The result is (error, number of
`pmap_enter` calls made so far, pmap). -/
def arm_lpae_map_inner (fails : Nat → Bool) (size curr_vaddr curr_paddr : Nat) :
    Nat → Nat → Nat → pmap → Option (Nat × Nat × pmap)
  | 0, _, _, _ => none
  | fuel + 1, offset, k, pm =>
    if offset < size then
      let r := pmap_enter (fails k) pm (w64 (curr_vaddr + w64 (offset * PAGE_SIZE)))
        (w64 (curr_paddr + w64 (offset * PAGE_SIZE)))
      if r.1 ≠ 0 then some (r.1, k + 1, r.2)
      else arm_lpae_map_inner fails size curr_vaddr curr_paddr fuel (w64 (offset + PAGE_SIZE))
        (k + 1) r.2
    else some (0, k, pm)

/-- The outer loop of `__arm_lpae_map`,
`for (offset = 0; offset < size*pgcount; offset += size)`, with `total = size*pgcount`
and `iova`, `paddr` already truncated. The result is (error, `*mapped`, pmap). -/
def arm_lpae_map_outer (fails : Nat → Bool) (fuel0 : Nat) (iova paddr size total : Nat) :
    Nat → Nat → Nat → Nat → pmap → Option (Nat × Nat × pmap)
  | 0, _, _, _, _ => none
  | fuel + 1, offset, mapped, k, pm =>
    if offset < total then
      match arm_lpae_map_inner fails size (w64 (iova + offset)) (w64 (paddr + offset))
        fuel0 0 k pm with
      | none => none
      | some r =>
        if r.1 ≠ 0 then some (r.1, mapped, r.2.2)
        else arm_lpae_map_outer fails fuel0 iova paddr size total fuel (w64 (offset + size))
          (w64 (mapped + size)) r.2.1 r.2.2
    else some (0, mapped, pm)

/-- The function `__arm_lpae_map` as compiled (the body after `return 0;` is under
`#ifdef notyet`). `mapped` is the value of `*mapped` at entry; the result is (return
value, `*mapped`, pmap), `none` when `fuel` iterations do not finish a loop. -/
def __arm_lpae_map (fails : Nat → Bool) (fuel : Nat) (pm : pmap)
    (iova paddr size pgcount mapped : Nat) : Option (Nat × Nat × pmap) :=
  let iova := trunc_page iova
  let paddr := trunc_page paddr
  arm_lpae_map_outer fails fuel iova paddr size (w64 (size * pgcount)) fuel 0 mapped 0 pm

/-- The function `arm_lpae_map_pages`: `*mapped = 0`, then `__arm_lpae_map` from the
start level. -/
def arm_lpae_map_pages (fails : Nat → Bool) (fuel : Nat) (pm : pmap)
    (iova paddr pgsize pgcount : Nat) : Option (Nat × Nat × pmap) :=
  __arm_lpae_map fails fuel pm iova paddr pgsize pgcount 0

/-- The loop of `__arm_lpae_unmap`,
`for (offset = 0; offset < size*pgcount; offset += size) pmap_kremove(iova + offset, size)`. -/
def arm_lpae_unmap_loop (iova size total : Nat) : Nat → Nat → pmap → Option pmap
  | 0, _, _ => none
  | fuel + 1, offset, pm =>
    if offset < total then
      arm_lpae_unmap_loop iova size total fuel (w64 (offset + size))
        (pmap_kremove pm (w64 (iova + offset)) size)
    else some pm

/-- The function `__arm_lpae_unmap` as compiled: the result is (return value
`size*pgcount`, pmap), `none` when `fuel` iterations do not finish the loop. -/
def __arm_lpae_unmap (fuel : Nat) (pm : pmap) (iova size pgcount : Nat) : Option (Nat × pmap) :=
  let iova := trunc_page iova
  (arm_lpae_unmap_loop iova size (w64 (size * pgcount)) fuel 0 pm).map
    (fun pm1 => (w64 (size * pgcount), pm1))

/-- The function `arm_lpae_unmap_pages` (`iaext` is computed and not used). -/
def arm_lpae_unmap_pages (fuel : Nat) (pm : pmap) (iova pgsize pgcount : Nat) :
    Option (Nat × pmap) :=
  __arm_lpae_unmap fuel pm iova pgsize pgcount

/-- The function `arm_lpae_iova_to_phys` as compiled: the physical address, or
`(paddr_t)-1` for an address without translation. -/
def arm_lpae_iova_to_phys (pm : pmap) (iova : Nat) : Nat :=
  match pmap_extract pm iova with
  | some phys => phys
  | none => 2 ^ 64 - 1

/-! ### Allocation and release of a page table (io-pgtable.c, io-pgtable-arm.c) -/

/-- The constant `MAX_IAS` of io-pgtable-arm.c. -/
def MAX_IAS : Nat := 48
/-- The constant `MAX_OAS` of io-pgtable-arm.c. -/
def MAX_OAS : Nat := 48
/-- The constant `SUPPORTED_PAGE_SIZES` of io-pgtable-arm.c. -/
def SUPPORTED_PAGE_SIZES : Nat := PAGE_SIZE_4K ||| PAGE_SIZE_16K
/-- The constant `IO_PGTABLE_NUM_FMTS` of io-pgtable.c. -/
def IO_PGTABLE_NUM_FMTS : Nat := 1
/-- The format `APPLE_UAT`, declared in a header that is not under src: it indexes
`io_pgtable_init_table`, an array of `IO_PGTABLE_NUM_FMTS = 1` elements, so it is 0. -/
def APPLE_UAT : Nat := 0
/-- Modelled from the spec: `IO_PGTABLE_CAP_CUSTOM_ALLOCATOR` is a constant of a header
that is not under src, the capability bit by which a format "declares custom-allocator
support". -/
def IO_PGTABLE_CAP_CUSTOM_ALLOCATOR : Nat := 1
/-- The size of a page-table entry, `sizeof(arm_lpae_iopte)` for `uint64_t`. -/
def sizeof_arm_lpae_iopte : Nat := 8

/-- Modelled from the spec: `struct io_pgtable_cfg` is declared in a header that is not
under src. The fields are the ones the code reads and writes: the quirk flags, the
"requested granule set" `pgsize_bitmap`, the "input/output address width" `ias` and
`oas`, `coherent_walk`, whether the "optional custom allocator pair" `alloc` / `free`
is supplied, and the two `ttbr` values the allocation stores. -/
structure io_pgtable_cfg where
  quirks : Nat
  pgsize_bitmap : Nat
  ias : Nat
  oas : Nat
  coherent_walk : Bool
  alloc : Bool
  free : Bool
  arm_lpae_s1_ttbr : Nat
  apple_uat_ttbr : Nat
deriving DecidableEq, Repr

/-- What the allocation and the release of a page table do to memory and to the
device, in order: the calls made that take or give back a resource. -/
inductive pgtable_event where
  /-- The call `malloc(sizeof(bus_dma_segment_t), M_DEVBUF, M_WAITOK)` returned `addr`. -/
  | malloc_segs (addr : Nat)
  /-- The call `malloc(sizeof(*data), M_DEVBUF, M_WAITOK | M_ZERO)` returned `addr`. -/
  | malloc_data (addr : Nat)
  /-- The call `free(data, M_DEVBUF, sizeof(*data))`. -/
  | free_data (addr : Nat)
  /-- A successful `bus_dmamem_alloc` of `size` bytes. -/
  | bus_dmamem_alloc (size : Nat)
  /-- A successful `bus_dmamem_map` of `size` bytes at `kva`. -/
  | bus_dmamem_map (kva size : Nat)
  /-- The call `bus_dmamem_free`. -/
  | bus_dmamem_free
  /-- A successful `bus_dmamap_load` of `size` bytes at `addr`. -/
  | bus_dmamap_load (addr size : Nat)
  /-- The call `bus_dmamap_unload`. -/
  | bus_dmamap_unload
  /-- The call `bus_dmamap_destroy`. -/
  | bus_dmamap_destroy
  /-- The call `cfg->alloc(cookie, size, flags)` returned `addr`. -/
  | custom_alloc (addr size : Nat)
  /-- The call `cfg->free(cookie, pages, size)`. -/
  | custom_free (pages : Option Nat) (size : Nat)
  /-- The call `free(pages, M_DEVBUF, size)`. -/
  | free (pages : Option Nat) (size : Nat)
  /-- The call `io_pgtable_tlb_flush_all`. -/
  | tlb_flush_all
deriving DecidableEq, Repr

/-- Outcomes of the services one call of `__arm_lpae_alloc_pages` uses: the address
`malloc` returns for `segs`, what the custom allocator returns (`none` is `NULL`), the
return values of `bus_dmamem_alloc` and `bus_dmamem_map`, the address the latter stores
in `pages`, and the return value of `bus_dmamap_load`. -/
structure alloc_pages_env where
  segs : Nat
  custom : Option Nat
  dmamem_alloc_err : Nat
  dmamem_map_err : Nat
  kva : Nat
  dmamap_load_err : Nat
deriving DecidableEq, Repr

/-- The function `arm_lpae_default_alloc_pages`: the result is (the pages, `none` for
`NULL`; the events). `order` is not used. -/
def arm_lpae_default_alloc_pages (env : alloc_pages_env) (size : Nat) :
    Option Nat × List pgtable_event :=
  if env.dmamem_alloc_err ≠ 0 then (none, [.malloc_segs env.segs])
  else if env.dmamem_map_err ≠ 0 then
    (none, [.malloc_segs env.segs, .bus_dmamem_alloc size, .bus_dmamem_free])
  else
    (ptr_of env.kva, [.malloc_segs env.segs, .bus_dmamem_alloc size, .bus_dmamem_map env.kva size])

/-- The function `__arm_lpae_alloc_pages`: the result is (the pages, `none` for `NULL`;
the events). `flags & __GFP_HIGHMEM` is 0 for the two flag values the callers pass, and
`arm_lpae_default_free_pages` does nothing. -/
def __arm_lpae_alloc_pages (env : alloc_pages_env) (size : Nat) (cfg : io_pgtable_cfg) :
    Option Nat × List pgtable_event :=
  let r : Option Nat × List pgtable_event :=
    if cfg.alloc then
      match env.custom with
      | none => (none, [])
      | some addr => (some addr, [.custom_alloc addr size])
    else arm_lpae_default_alloc_pages env size
  match r.1 with
  | none => (none, r.2)
  | some pages =>
    if ¬ cfg.coherent_walk then
      if env.dmamap_load_err ≠ 0 then
        -- out_free
        (none, if cfg.free then r.2 ++ [.custom_free (some pages) size] else r.2)
      else (some pages, r.2 ++ [.bus_dmamap_load pages size])
    else (some pages, r.2)

/-- The function `__arm_lpae_free_pages`: the events of the release of `pages`. -/
def __arm_lpae_free_pages (pages : Option Nat) (size : Nat) (cfg : io_pgtable_cfg) :
    List pgtable_event :=
  (if ¬ cfg.coherent_walk then [.bus_dmamap_unload, .bus_dmamap_destroy] else [])
    ++ [if cfg.free then .custom_free pages size else .free pages size]

/-- A `struct arm_lpae_io_pgtable`: the `struct io_pgtable` it starts with (`fmt`,
`cookie`, `cfg`; the `ops` are the three functions of the page-table engine), the
geometry and the root table `pgd`. `addr` is the address of the structure. -/
structure arm_lpae_io_pgtable where
  addr : Nat
  fmt : Nat
  cookie : Nat
  cfg : io_pgtable_cfg
  pgd_bits : Nat
  start_level : Nat
  bits_per_level : Nat
  pgd : Option Nat
deriving DecidableEq, Repr

/-- The macro `ARM_LPAE_GRANULE`. -/
def ARM_LPAE_GRANULE (data : arm_lpae_io_pgtable) : Nat :=
  sizeof_arm_lpae_iopte <<< data.bits_per_level

/-- The macro `ARM_LPAE_PGD_SIZE`. -/
def ARM_LPAE_PGD_SIZE (data : arm_lpae_io_pgtable) : Nat :=
  sizeof_arm_lpae_iopte <<< data.pgd_bits

/-- Outcomes of the services the allocation of a page table uses: the address `malloc`
returns for the `struct arm_lpae_io_pgtable` (`none` is `NULL`), the outcomes of the
call of `__arm_lpae_alloc_pages` in `arm_lpae_alloc_pgtable` and of the one in
`apple_uat_alloc_pgtable`, and the physical address `getphys` finds for a kernel
address. -/
structure pgtable_env where
  malloc_data : Option Nat
  pages1 : alloc_pages_env
  pages2 : alloc_pages_env
  getphys : Nat → Nat

/-- What an allocation function returns: the table (`none` is `NULL`), the caller's
configuration afterwards, and the events. -/
structure pgtable_result where
  data : Option arm_lpae_io_pgtable
  cfg : io_pgtable_cfg
  log : List pgtable_event
deriving DecidableEq, Repr

/-- The function `arm_lpae_alloc_pgtable`. The structure comes zero-filled (`M_ZERO`),
and `pgd_bits`, `start_level` and `bits_per_level` are not assigned. -/
def arm_lpae_alloc_pgtable (env : pgtable_env) (cfg : io_pgtable_cfg) (cookie : Nat) :
    pgtable_result :=
  if cfg.quirks ≠ 0 then { data := none, cfg := cfg, log := [] }
  else if cfg.ias > MAX_IAS ∨ cfg.oas > MAX_OAS then { data := none, cfg := cfg, log := [] }
  else
    let cfg1 := { cfg with pgsize_bitmap := cfg.pgsize_bitmap &&& SUPPORTED_PAGE_SIZES }
    match env.malloc_data with
    | none => { data := none, cfg := cfg1, log := [] }
    | some addr =>
      let r := __arm_lpae_alloc_pages env.pages1 PAGE_SIZE_16K cfg1
      match r.1 with
      | none =>
        -- out_free_data
        { data := none, cfg := cfg1, log := [.malloc_data addr] ++ r.2 ++ [.free_data addr] }
      | some pgd =>
        { data := some { addr := addr, fmt := 0, cookie := cookie, cfg := cfg1,
                         pgd_bits := 0, start_level := 0, bits_per_level := 0,
                         pgd := some pgd },
          cfg := { cfg1 with arm_lpae_s1_ttbr := env.getphys pgd },
          log := [.malloc_data addr] ++ r.2 }

/-- The function `arm_lpae_free_pgtable`: the events of the release (the `free` of the
structure itself is commented out in the source). -/
def arm_lpae_free_pgtable (data : arm_lpae_io_pgtable) : List pgtable_event :=
  __arm_lpae_free_pages data.pgd (ARM_LPAE_PGD_SIZE data) data.cfg

/-- The function `apple_uat_alloc_pgtable`. -/
def apple_uat_alloc_pgtable (env : pgtable_env) (cfg : io_pgtable_cfg) (cookie : Nat) :
    pgtable_result :=
  if cfg.quirks ≠ 0 then { data := none, cfg := cfg, log := [] }
  else if cfg.ias > 48 ∨ cfg.oas > 42 then { data := none, cfg := cfg, log := [] }
  else
    let cfg1 := { cfg with pgsize_bitmap := cfg.pgsize_bitmap &&& PAGE_SIZE_16K }
    let r := arm_lpae_alloc_pgtable env cfg1 cookie
    match r.data with
    | none => r
    | some data =>
      let p := __arm_lpae_alloc_pages env.pages2 PAGE_SIZE_16K r.cfg
      match p.1 with
      | none =>
        -- out_free_data, with `data->pgd` already overwritten by `NULL`
        { data := none, cfg := r.cfg,
          log := r.log ++ p.2 ++ arm_lpae_free_pgtable { data with pgd := none } }
      | some pgd =>
        { data := some { data with pgd := some pgd },
          cfg := { r.cfg with apple_uat_ttbr := env.getphys pgd },
          log := r.log ++ p.2 }

/-- A `struct io_pgtable_init_fns`: the capability flags (`alloc` and `free` are the
functions `apple_uat_alloc_pgtable` and `arm_lpae_free_pgtable`). -/
structure io_pgtable_init_fns where
  caps : Nat
deriving DecidableEq, Repr

/-- The structure `io_pgtable_apple_uat_init_fns`: its initializer sets `alloc` and
`free` and no `caps`. -/
def io_pgtable_apple_uat_init_fns : io_pgtable_init_fns := { caps := 0 }

/-- The array `io_pgtable_init_table`, for an index below `IO_PGTABLE_NUM_FMTS`. -/
def io_pgtable_init_table (fmt : Nat) : Option io_pgtable_init_fns :=
  if fmt = APPLE_UAT then some io_pgtable_apple_uat_init_fns else none

/-- The function `check_custom_allocator` (for `fmt < IO_PGTABLE_NUM_FMTS`): 0 or
`EINVAL`. -/
def check_custom_allocator (fmt : Nat) (cfg : io_pgtable_cfg) : Int :=
  if ¬ cfg.alloc ∧ ¬ cfg.free then 0
  else if ¬ cfg.alloc ∨ ¬ cfg.free then EINVAL
  else
    match io_pgtable_init_table fmt with
    | some fns => if fns.caps &&& IO_PGTABLE_CAP_CUSTOM_ALLOCATOR ≠ 0 then 0 else EINVAL
    | none => EINVAL

/-- The function `alloc_io_pgtable_ops`: the result holds the `struct io_pgtable` the
returned `ops` belong to (`none` is `NULL`). -/
def alloc_io_pgtable_ops (env : pgtable_env) (fmt : Nat) (cfg : io_pgtable_cfg) (cookie : Nat) :
    pgtable_result :=
  if fmt ≥ IO_PGTABLE_NUM_FMTS then { data := none, cfg := cfg, log := [] }
  else if check_custom_allocator fmt cfg ≠ 0 then { data := none, cfg := cfg, log := [] }
  else
    match io_pgtable_init_table fmt with
    | none => { data := none, cfg := cfg, log := [] }
    | some _ =>
      let r := apple_uat_alloc_pgtable env cfg cookie
      match r.data with
      | none => r
      | some iop =>
        { r with data := some { iop with fmt := fmt, cookie := cookie, cfg := r.cfg } }

/-- The function `free_io_pgtable_ops`: the events of the release. -/
def free_io_pgtable_ops (ops : Option arm_lpae_io_pgtable) : List pgtable_event :=
  match ops with
  | none => []
  | some iop => [.tlb_flush_all] ++ arm_lpae_free_pgtable iop

/-- Whether the services one call of `__arm_lpae_alloc_pages` uses all succeed for a
configuration without custom allocator: the memory can be allocated and mapped, and
loaded into the DMA map when the walks are not coherent. -/
def alloc_pages_env.succeeds (env : alloc_pages_env) (cfg : io_pgtable_cfg) : Bool :=
  decide (env.dmamem_alloc_err = 0) && decide (env.dmamem_map_err = 0) && decide (env.kva ≠ 0)
    && (cfg.coherent_walk || decide (env.dmamap_load_err = 0))

/-! ## Predicates used in the statements -/

/-- The pages are resident iff the object is pinned. -/
def resident_iff_pinned (s : drm_gem_shmem_object) : Prop :=
  s.pages.isSome = true ↔ 0 < s.pages_use_count

/-- The use count is the number of outstanding pins plus the pin of the CPU mapping. -/
def pins_accounted (s : drm_gem_shmem_object) (pins : Nat) : Prop :=
  s.import_attach = false ∧
    s.pages_use_count = pins + (if 0 < s.vmap_use_count then 1 else 0)

/-! ## Concrete inputs -/

/-- A `create_env` in which every service succeeds. -/
def create_env_ok : create_env := { alloc_err := none, object_init_ret := 0, mmap_offset_ret := 0 }

/-- A `get_pages_env` in which every allocation succeeds and the page list holds the
`n` frames `base, base + 1, ..`. -/
def get_pages_env_ok (base n : Nat) : get_pages_env :=
  { mallocarray_ok := true, malloc_st_ok := true, sg_alloc_table_ok := true,
    uvm_pglistalloc := some ((List.range n).map (fun k => base + k)) }

/-- A `vmap_env` in which every service succeeds: `vmap()` returns `vaddr`. -/
def vmap_env_ok (base n vaddr : Nat) : vmap_env :=
  { get_pages := get_pages_env_ok base n, vmap := some vaddr,
    dma_buf := { uvm_pglistalloc := some ((List.range n).map (fun k => base + k)),
                 km_alloc := vaddr } }

/-- The object `drm_gem_shmem_create` returns for a request of `size` bytes. -/
def shmem_fresh (size : Nat) : drm_gem_shmem_object :=
  { size := w64 (round_up size 0x4000), import_attach := false, dma_buf_size := 0,
    pages_use_count := 0, vmap_use_count := 0, madv := 0,
    pages := none, sgt := none, vaddr := none, map_wc := false,
    uobj := [], mmap_offset := true }

/-- The 16 KiB buffer with its four frames resident (after a successful `get_pages`),
with `pages_use_count = n`. -/
def shmem_pinned (n : Nat) : drm_gem_shmem_object :=
  { (drm_gem_shmem_get_pages (get_pages_env_ok 100 4) (shmem_fresh 16384)).shmem with
    pages_use_count := n }

/-- The 16 KiB buffer with its four frames resident and mapped at `0xffffff8000000000`
(after a successful `vmap`), with `vmap_use_count = n`. -/
def shmem_mapped (n : Nat) : drm_gem_shmem_object :=
  { (drm_gem_shmem_vmap (vmap_env_ok 100 4 0xffffff8000000000)
      (shmem_fresh 16384) none).shmem with vmap_use_count := n }

/-- The pmap after `arm_lpae_map_pages` mapped one 16 KiB granule at `0x10000000` to
`0x20000000` on the empty pmap: the four `pmap_enter` calls of the inner loop. -/
def pmap_after_map_16k : pmap :=
  (pmap_enter false (pmap_enter false (pmap_enter false (pmap_enter false pmap_empty
    0x10000000 0x20000000).2 0x11000000 0x21000000).2 0x12000000 0x22000000).2
    0x13000000 0x23000000).2


/-- The 16 KiB buffer after `get_pages`, `madvise(1)`, `put_pages` and purge. -/
def shmem_purged : drm_gem_shmem_object :=
  { size := 16384, import_attach := false, dma_buf_size := 0,
    pages_use_count := 0, vmap_use_count := 0, madv := -1,
    pages := none, sgt := none, vaddr := none, map_wc := false,
    uobj := [(0, 100), (4096, 101), (8192, 102), (12288, 103)], mmap_offset := false }

/-- An imported 16 KiB buffer: the object `drm_gem_shmem_prime_import_sg_table` makes
for an exporter's one-entry table, with `import_attach` set. -/
def shmem_imported : drm_gem_shmem_object :=
  { size := 16384, import_attach := true, dma_buf_size := 16384,
    pages_use_count := 0, vmap_use_count := 0, madv := 0,
    pages := none,
    sgt := some { sgl := [{ page := 500, length := 16384, offset := 0 }], nents := 1,
                  orig_nents := 1 },
    vaddr := none, map_wc := false, uobj := [], mmap_offset := true }

/-- A Purged object has no scatter-gather table and no page user. -/
def purged_is_empty (s : drm_gem_shmem_object) : Prop :=
  s.madv < 0 → s.sgt = none ∧ s.pages_use_count = 0

/-- A configuration with the given address widths, a 16 KiB granule, no quirks, no
custom allocator and coherent walks. -/
def io_pgtable_cfg_16k (ias oas : Nat) : io_pgtable_cfg :=
  { quirks := 0, pgsize_bitmap := PAGE_SIZE_16K, ias := ias, oas := oas, coherent_walk := true,
    alloc := false, free := false, arm_lpae_s1_ttbr := 0, apple_uat_ttbr := 0 }

/-- An `alloc_pages_env` in which every service succeeds and the memory is mapped at
`kva`. -/
def alloc_pages_env_ok (kva : Nat) : alloc_pages_env :=
  { segs := kva + 0x80000, custom := none, dmamem_alloc_err := 0, dmamem_map_err := 0,
    kva := kva, dmamap_load_err := 0 }

/-- A `pgtable_env` in which all memory can be allocated; kernel addresses translate
to themselves. -/
def pgtable_env_ok : pgtable_env :=
  { malloc_data := some 0xffffff8000100000,
    pages1 := alloc_pages_env_ok 0xffffff8000200000,
    pages2 := alloc_pages_env_ok 0xffffff8000300000,
    getphys := fun va => va }

/-! ## Error pointers (include/linux/err.h) -/

/-- The conversion of a 64-bit `long` to a pointer or `unsigned long`: the same 64 bits
read without sign. -/
def long_to_ulong (x : Int) : Nat := (x % 2 ^ 64).toNat

/-- The conversion of a pointer or `unsigned long` to a `long`: the same 64 bits read
with sign. -/
def ulong_to_long (p : Nat) : Int :=
  if p % 2 ^ 64 < 2 ^ 63 then (p % 2 ^ 64 : Nat) else (p % 2 ^ 64 : Nat) - 2 ^ 64

/-- The conversion of a `long` to an `int`: the low 32 bits read with sign. -/
def long_to_int (x : Int) : Int :=
  if x % 2 ^ 32 < 2 ^ 31 then x % 2 ^ 32 else x % 2 ^ 32 - 2 ^ 32

/-- The macro `IS_ERR_VALUE`: `(x) >= (unsigned long)-ELAST`. The constant `ELAST` of
`sys/errno.h`, which is not under src, is an argument. -/
def IS_ERR_VALUE (ELAST : Int) (x : Nat) : Bool := decide (x ≥ long_to_ulong (- ELAST))

/-- The function `ERR_PTR`. -/
def ERR_PTR (error : Int) : Nat := long_to_ulong error

/-- The function `PTR_ERR`. -/
def PTR_ERR (ptr : Nat) : Int := ulong_to_long ptr

/-- The function `IS_ERR`. -/
def IS_ERR (ELAST : Int) (ptr : Nat) : Bool := IS_ERR_VALUE ELAST ptr

/-- The function `IS_ERR_OR_NULL`. -/
def IS_ERR_OR_NULL (ELAST : Int) (ptr : Nat) : Bool :=
  decide (ptr = 0) || IS_ERR_VALUE ELAST ptr

/-- The function `ERR_CAST`. -/
def ERR_CAST (ptr : Nat) : Nat := ptr

/-- The function `PTR_ERR_OR_ZERO`, which returns an `int`. -/
def PTR_ERR_OR_ZERO (ELAST : Int) (ptr : Nat) : Int :=
  if IS_ERR ELAST ptr then long_to_int (PTR_ERR ptr) else 0

/-! ## Lemmas about the buffer-object manager -/

/-- The value `round_up x 0x4000` is the least multiple of 16384 that is at least `x`. -/
theorem round_up_granule (s : Nat) :
    16384 ∣ round_up s 0x4000 ∧ s ≤ round_up s 0x4000 ∧
      (∀ m, 16384 ∣ m → s ≤ m → round_up s 0x4000 ≤ m) ∧
      round_up s 0x4000 / 16384 = (s + 16383) / 16384 := by
  unfold round_up
  refine ⟨Dvd.intro_left _ rfl, ?_, ?_, ?_⟩
  · omega
  · rintro m ⟨k, rfl⟩ h
    have : (s + 16384 - 1) / 16384 ≤ k := by omega
    have := Nat.mul_le_mul_right 16384 this
    omega
  · omega

/-- Taking the pages of one granule does not touch the scatter-gather entries. -/
theorem get_pages_granule_frame (i : Nat) : ∀ (n : Nat) (st : fill_state),
    (get_pages_granule i n st).2.sgl = st.sgl ∧ (get_pages_granule i n st).2.nents = st.nents := by
  intro n
  induction n with
  | zero => intro st; simp [get_pages_granule]
  | succ n ih =>
    intro st
    unfold get_pages_granule
    cases h : st.plist with
    | nil => simp
    | cons page rest => simpa using ih _

/-- A run of the fill loop that ends well adds one 16 KiB entry per iteration; the
counter `nents` counts them modulo `2^32`. -/
theorem get_pages_fill_entries (npages : Nat) : ∀ (fuel i : Nat) (st st1 : fill_state),
    i + fuel = npages → get_pages_fill npages fuel i st = (true, st1) →
      st1.sgl.length = st.sgl.length + fuel ∧
      (st.nents < 2 ^ 32 → st1.nents = u32 (st.nents + fuel)) ∧
        ((∀ e ∈ st.sgl, e.length = 16384) → ∀ e ∈ st1.sgl, e.length = 16384) := by
  intro fuel
  induction fuel with
  | zero =>
    intro i st st1 _ h
    simp [get_pages_fill] at h
    subst h
    refine ⟨by simp, ?_, by simp⟩
    intro hn
    unfold u32; omega
  | succ fuel ih =>
    intro i st st1 hi h
    unfold get_pages_fill at h
    have hlt : i < npages := by omega
    simp only [hlt, if_true] at h
    by_cases hg : (get_pages_granule i 4 st).1 = true
    · simp only [hg, if_true] at h
      have := ih (i + 1) _ st1 (by omega) h
      have hf := get_pages_granule_frame i 4 st
      simp only [List.length_append, List.length_singleton, hf.1, hf.2] at this
      refine ⟨by omega, ?_, ?_⟩
      · intro hn
        have h2 := this.2.1 (by unfold u32; omega)
        rw [h2]
        unfold u32; omega
      intro hall
      apply this.2.2
      intro e he
      rw [List.mem_append] at he
      rcases he with he | he
      · exact hall e he
      · simp at he; subst he; rfl
    · simp [hg] at h


/-- Below `UINT_MAX` the increment of an `unsigned int` does not wrap. -/
theorem u32_succ (n : Nat) (h : n < UINT_MAX) : u32 (n + 1) = n + 1 := by
  unfold u32
  unfold UINT_MAX at h
  omega

/-- The cases of `drm_gem_shmem_get_pages`. -/
theorem get_pages_cases (env : get_pages_env) (s : drm_gem_shmem_object) :
    (drm_gem_shmem_get_pages env s).shmem.import_attach = s.import_attach ∧
    (drm_gem_shmem_get_pages env s).shmem.vmap_use_count = s.vmap_use_count ∧
    (drm_gem_shmem_get_pages env s).shmem.madv = s.madv ∧
    (drm_gem_shmem_get_pages env s).shmem.vaddr = s.vaddr ∧
    (drm_gem_shmem_get_pages env s).shmem.size = s.size ∧
    ((0 < s.pages_use_count ∧ (drm_gem_shmem_get_pages env s).ret = 0 ∧
        (drm_gem_shmem_get_pages env s).shmem.pages_use_count = u32 (s.pages_use_count + 1) ∧
        (drm_gem_shmem_get_pages env s).shmem.pages = s.pages ∧
        (drm_gem_shmem_get_pages env s).shmem.sgt = s.sgt) ∨
     (s.pages_use_count = 0 ∧ (drm_gem_shmem_get_pages env s).ret = 0 ∧
        (drm_gem_shmem_get_pages env s).shmem.pages_use_count = 1 ∧
        (drm_gem_shmem_get_pages env s).shmem.pages.isSome = true ∧
        (drm_gem_shmem_get_pages env s).shmem.sgt.isSome = true) ∨
     (s.pages_use_count = 0 ∧ (drm_gem_shmem_get_pages env s).ret = - ENOMEM ∧
        (drm_gem_shmem_get_pages env s).shmem.pages_use_count = 0 ∧
        (drm_gem_shmem_get_pages env s).shmem.pages = s.pages ∧
        (drm_gem_shmem_get_pages env s).shmem.sgt = s.sgt)) := by
  unfold drm_gem_shmem_get_pages
  by_cases h0 : s.pages_use_count > 0
  · simp [h0]
  · have hz : s.pages_use_count = 0 := by omega
    simp only [h0, if_false]
    split_ifs <;> try (simp [hz])
    cases hp : env.uvm_pglistalloc with
    | none => simp [hz]
    | some plist =>
      simp only
      split_ifs <;> simp [hz, ENOMEM]

/-- The cases of `drm_gem_shmem_put_pages`. -/
theorem put_pages_cases (s : drm_gem_shmem_object) :
    (drm_gem_shmem_put_pages s).2.import_attach = s.import_attach ∧
    (drm_gem_shmem_put_pages s).2.vmap_use_count = s.vmap_use_count ∧
    (drm_gem_shmem_put_pages s).2.madv = s.madv ∧
    (drm_gem_shmem_put_pages s).2.vaddr = s.vaddr ∧
    (drm_gem_shmem_put_pages s).2.sgt = s.sgt ∧
    (drm_gem_shmem_put_pages s).2.size = s.size ∧
    (drm_gem_shmem_put_pages s).2.pages_use_count = s.pages_use_count - 1 ∧
    ((s.pages_use_count = 0 ∧ drm_gem_shmem_put_pages s = (true, s)) ∨
     (1 < s.pages_use_count ∧ (drm_gem_shmem_put_pages s).1 = false ∧
        (drm_gem_shmem_put_pages s).2.pages = s.pages) ∨
     (s.pages_use_count = 1 ∧ (drm_gem_shmem_put_pages s).1 = false ∧
        (drm_gem_shmem_put_pages s).2.pages = none)) := by
  unfold drm_gem_shmem_put_pages
  by_cases h0 : s.pages_use_count = 0
  · simp [h0]
  · by_cases h1 : s.pages_use_count - 1 > 0
    · simp [h0, h1]; omega
    · have : s.pages_use_count = 1 := by omega
      simp [this]


/-- The object a successful `drm_gem_shmem_create` returns. -/
theorem create_ok (cenv : create_env) (s : Nat) (shmem : drm_gem_shmem_object)
    (h : drm_gem_shmem_create cenv s = Except.ok shmem) :
    shmem = shmem_fresh s := by
  unfold drm_gem_shmem_create __drm_gem_shmem_create at h
  cases ha : cenv.alloc_err with
  | some e => simp [ha] at h
  | none =>
    simp only [ha] at h
    split_ifs at h <;> first | contradiction | (injection h with h; exact h.symm)

/-- The function `drm_gem_shmem_get_pages` keeps `resident_iff_pinned`, when the count
does not wrap. -/
theorem get_pages_keeps_resident_iff (env : get_pages_env) (s : drm_gem_shmem_object)
    (hb : s.pages_use_count < UINT_MAX)
    (h : resident_iff_pinned s) : resident_iff_pinned (drm_gem_shmem_get_pages env s).shmem := by
  unfold resident_iff_pinned at *
  obtain ⟨-, -, -, -, -, hc⟩ := get_pages_cases env s
  rcases hc with ⟨h0, -, hc, hp, -⟩ | ⟨h0, -, hc, hp, -⟩ | ⟨h0, -, hc, hp, -⟩
  · rw [hc, hp, h, u32_succ _ hb]; omega
  · rw [hc, hp]; simp
  · rw [hc, hp, h]; omega

/-- The function `drm_gem_shmem_put_pages` keeps `resident_iff_pinned`. -/
theorem put_pages_keeps_resident_iff (s : drm_gem_shmem_object)
    (h : resident_iff_pinned s) : resident_iff_pinned (drm_gem_shmem_put_pages s).2 := by
  unfold resident_iff_pinned at *
  obtain ⟨-, -, -, -, -, -, hc, hcases⟩ := put_pages_cases s
  rcases hcases with ⟨h0, he⟩ | ⟨h0, -, hp⟩ | ⟨h0, -, hp⟩
  · rw [he]; exact h
  · rw [hc, hp, h]; omega
  · rw [hc, hp]; simp [h0]

/-- Every pinning or unpinning call keeps `resident_iff_pinned`, when the count does
not wrap. -/
theorem pin_op_keeps_resident_iff (op : shmem_op) (s s1 : drm_gem_shmem_object)
    (hop : op.is_pin_op = true) (hno : op.no_overflow s = true) (happly : op.apply s = some s1)
    (h : resident_iff_pinned s) : resident_iff_pinned s1 := by
  cases op with
  | get_pages env =>
    simp only [shmem_op.apply, Option.some.injEq] at happly
    simp only [shmem_op.no_overflow, decide_eq_true_eq] at hno
    subst happly; exact get_pages_keeps_resident_iff env s hno h
  | put_pages =>
    simp only [shmem_op.apply, Option.some.injEq] at happly
    subst happly; exact put_pages_keeps_resident_iff s h
  | pin lock_ret env =>
    simp only [shmem_op.apply, Option.some.injEq, drm_gem_shmem_pin, drm_gem_shmem_pin_locked] at happly
    simp only [shmem_op.no_overflow, decide_eq_true_eq] at hno
    subst happly
    split_ifs
    · exact h
    · exact get_pages_keeps_resident_iff env s hno h
  | unpin =>
    simp only [shmem_op.apply, Option.some.injEq, drm_gem_shmem_unpin, drm_gem_shmem_unpin_locked] at happly
    subst happly; exact put_pages_keeps_resident_iff s h
  | vmap env => simp [shmem_op.is_pin_op] at hop
  | vunmap => simp [shmem_op.is_pin_op] at hop
  | madvise v => simp [shmem_op.is_pin_op] at hop
  | purge => simp [shmem_op.is_pin_op] at hop

/-- Every sequence of pinning and unpinning calls that takes no use count beyond
`UINT_MAX` keeps `resident_iff_pinned`, and is the plain sequence of these calls. -/
theorem pin_run_keeps_resident_iff : ∀ (ops : List shmem_op) (s s1 : drm_gem_shmem_object),
    (∀ op ∈ ops, op.is_pin_op = true) → shmem_run_no_overflow ops s = some s1 →
      resident_iff_pinned s → resident_iff_pinned s1 ∧ shmem_run ops s = some s1 := by
  intro ops
  induction ops with
  | nil =>
    intro s s1 _ hrun h
    simp only [shmem_run_no_overflow, Option.some.injEq] at hrun
    subst hrun; exact ⟨h, rfl⟩
  | cons op ops ih =>
    intro s s1 hops hrun h
    unfold shmem_run_no_overflow at hrun
    by_cases hno : op.no_overflow s = true
    · rw [if_pos hno] at hrun
      cases ha : op.apply s with
      | none => simp [ha] at hrun
      | some s2 =>
        simp only [ha] at hrun
        have := ih s2 s1 (fun o ho => hops o (List.mem_cons_of_mem _ ho)) hrun
          (pin_op_keeps_resident_iff op s s2 (hops op (List.mem_cons_self _ _)) hno ha h)
        refine ⟨this.1, ?_⟩
        unfold shmem_run
        simp only [ha]
        exact this.2
    · rw [if_neg hno] at hrun
      simp at hrun


/-- Successful `get_pages` calls add one to the use count each, as long as it stays
within `UINT_MAX`. -/
theorem get_pages_all_count : ∀ (envs : List get_pages_env) (s s1 : drm_gem_shmem_object),
    s.pages_use_count + envs.length ≤ UINT_MAX →
    get_pages_all envs s = some s1 → s1.pages_use_count = s.pages_use_count + envs.length := by
  intro envs
  induction envs with
  | nil => intro s s1 _ h; simp [get_pages_all] at h; subst h; simp
  | cons env envs ih =>
    intro s s1 hb h
    rw [List.length_cons] at hb
    unfold get_pages_all at h
    by_cases hr : (drm_gem_shmem_get_pages env s).ret = 0
    · simp only [hr, if_true] at h
      obtain ⟨-, -, -, -, -, hc⟩ := get_pages_cases env s
      rcases hc with ⟨-, -, hc, -⟩ | ⟨h0, -, hc, -⟩ | ⟨-, hr1, -⟩
      · rw [u32_succ _ (by omega)] at hc
        have := ih _ _ (by rw [hc]; omega) h
        rw [this, hc, List.length_cons]; omega
      · have := ih _ _ (by rw [hc]; omega) h
        rw [this, hc, h0, List.length_cons]; omega
      · rw [hr1] at hr; simp [ENOMEM] at hr
    · simp [hr] at h

/-- Calls of `put_pages` take one from the use count each, down to 0. -/
theorem put_pages_n_count : ∀ (n : Nat) (s : drm_gem_shmem_object),
    (put_pages_n n s).pages_use_count = s.pages_use_count - n := by
  intro n
  induction n with
  | zero => intro s; simp [put_pages_n]
  | succ n ih =>
    intro s
    unfold put_pages_n
    rw [ih, (put_pages_cases s).2.2.2.2.2.2.1]; omega

/-- The function `drm_gem_shmem_get_pages` keeps `pins_accounted`, a successful call
adding a pin. -/
theorem get_pages_accounted (env : get_pages_env) (s : drm_gem_shmem_object) (pins : Nat)
    (hb : s.pages_use_count < UINT_MAX) (h : pins_accounted s pins) :
    pins_accounted (drm_gem_shmem_get_pages env s).shmem
      (if (drm_gem_shmem_get_pages env s).ret = 0 then pins + 1 else pins) := by
  unfold pins_accounted at *
  obtain ⟨hi, hv, -, -, -, hc⟩ := get_pages_cases env s
  rw [hi, hv]
  refine ⟨h.1, ?_⟩
  rcases hc with ⟨-, hr, hc, -⟩ | ⟨h0, hr, hc, -⟩ | ⟨h0, hr, hc, -⟩
  · rw [hc, hr, u32_succ _ hb, h.2]; simp; omega
  · rw [hc, hr]; simp; have := h.2; split_ifs at this ⊢ <;> omega
  · rw [hc, hr]; simp [ENOMEM]; have := h.2; split_ifs at this ⊢ <;> omega

/-- The function `drm_gem_shmem_put_pages` keeps `pins_accounted` when it gives back a pin. -/
theorem put_pages_accounted (s : drm_gem_shmem_object) (pins : Nat)
    (h : pins_accounted s pins) (hp : pins ≠ 0) :
    pins_accounted (drm_gem_shmem_put_pages s).2 (pins - 1) := by
  unfold pins_accounted at *
  obtain ⟨hi, hv, -, -, -, -, hc, -⟩ := put_pages_cases s
  rw [hi, hv, hc]
  refine ⟨h.1, ?_⟩
  have := h.2
  split_ifs at this ⊢ <;> omega

/-- The function `drm_gem_shmem_vmap` keeps `pins_accounted`, whatever its outcome,
when the counts do not wrap. -/
theorem vmap_accounted (env : vmap_env) (s : drm_gem_shmem_object) (map : Option Nat) (pins : Nat)
    (hvb : s.vmap_use_count < UINT_MAX) (hb : s.pages_use_count < UINT_MAX)
    (h : pins_accounted s pins) :
    pins_accounted (drm_gem_shmem_vmap env s map).shmem pins := by
  obtain ⟨hi, hcnt⟩ := h
  have hni : ¬ (s.import_attach = true) := by simp [hi]
  unfold drm_gem_shmem_vmap pins_accounted
  rw [if_neg hni, u32_succ _ hvb]
  by_cases hv : s.vmap_use_count > 0
  · rw [if_pos hv]
    rw [if_pos hv] at hcnt
    simp only [hi, hcnt, true_and]
    simp
  · have hv0 : s.vmap_use_count = 0 := by omega
    rw [if_neg hv]
    rw [if_neg hv] at hcnt
    have hg := get_pages_cases env.get_pages { s with vmap_use_count := s.vmap_use_count + 1 }
    simp only at hg
    generalize drm_gem_shmem_get_pages env.get_pages
      { s with vmap_use_count := s.vmap_use_count + 1 } = g at hg ⊢
    obtain ⟨hgi, hgv, -, -, -, hc⟩ := hg
    by_cases hr : g.ret = 0
    · have hnr : ¬ (g.ret ≠ 0) := by simp [hr]
      rw [if_neg hnr]
      have hc1 : g.shmem.pages_use_count = pins + 1 := by
        rcases hc with ⟨-, -, hc, -⟩ | ⟨h0, -, hc, -⟩ | ⟨-, hr1, -⟩
        · rw [u32_succ _ hb] at hc; omega
        · omega
        · rw [hr1] at hr; simp [ENOMEM] at hr
      cases env.vmap with
      | none =>
        have hp := put_pages_cases { g.shmem with vaddr := none }
        simp only at hp
        generalize drm_gem_shmem_put_pages { g.shmem with vaddr := none } = q at hp ⊢
        obtain ⟨hpi, -, -, -, -, -, hpc, -⟩ := hp
        simp only [lt_irrefl, if_false]
        exact ⟨by rw [hpi, hgi, hi], by omega⟩
      | some vaddr =>
        simp only [hgv, hgi, hi, hc1, true_and]
        simp
    · rw [if_pos hr]
      simp only [lt_irrefl, if_false]
      rcases hc with ⟨h0, hr1, -⟩ | ⟨-, hr1, -⟩ | ⟨h0, -, hc, -⟩
      · exact absurd hr1 hr
      · exact absurd hr1 hr
      · exact ⟨by rw [hgi, hi], by omega⟩

/-- The function `drm_gem_shmem_vunmap` keeps `pins_accounted`. -/
theorem vunmap_accounted (s : drm_gem_shmem_object) (map : Option Nat) (pins : Nat)
    (h : pins_accounted s pins) :
    pins_accounted (drm_gem_shmem_vunmap s map).2.2 pins := by
  obtain ⟨hi, hcnt⟩ := h
  have hni : ¬ (s.import_attach = true) := by simp [hi]
  unfold drm_gem_shmem_vunmap pins_accounted
  rw [if_neg hni]
  by_cases hv0 : s.vmap_use_count = 0
  · rw [if_pos hv0]; exact ⟨hi, hcnt⟩
  · rw [if_neg hv0]
    have hpos : 0 < s.vmap_use_count := by omega
    rw [if_pos hpos] at hcnt
    by_cases hv1 : s.vmap_use_count - 1 > 0
    · rw [if_pos hv1]
      simp only [hi, true_and]
      rw [if_pos hv1]; exact hcnt
    · rw [if_neg hv1]
      have hp := put_pages_cases { s with vmap_use_count := s.vmap_use_count - 1 }
      simp only at hp
      generalize drm_gem_shmem_put_pages { s with vmap_use_count := s.vmap_use_count - 1 } = q at hp ⊢
      obtain ⟨hpi, hpv, -, -, -, -, hpc, -⟩ := hp
      simp only [hpi, hpv, hpc, hi, true_and]
      rw [if_neg hv1]; omega

/-- A call that keeps the contract and does not wrap a count keeps `pins_accounted`,
and is the call itself. -/
theorem op_checked_accounted (op : shmem_op) (s s1 : drm_gem_shmem_object) (pins pins1 : Nat)
    (hno : op.no_overflow s = true)
    (happly : op.apply_checked s pins = some (s1, pins1)) (h : pins_accounted s pins) :
    pins_accounted s1 pins1 ∧ op.apply s = some s1 := by
  cases op with
  | get_pages env =>
    simp only [shmem_op.apply_checked, Option.some.injEq, Prod.mk.injEq] at happly
    simp only [shmem_op.no_overflow, decide_eq_true_eq] at hno
    obtain ⟨rfl, rfl⟩ := happly
    exact ⟨get_pages_accounted env s pins hno h, rfl⟩
  | put_pages =>
    simp only [shmem_op.apply_checked] at happly
    split_ifs at happly with hp
    simp only [Option.some.injEq, Prod.mk.injEq] at happly
    obtain ⟨rfl, rfl⟩ := happly
    exact ⟨put_pages_accounted s pins h hp, rfl⟩
  | pin lock_ret env =>
    simp only [shmem_op.apply_checked, Option.some.injEq, Prod.mk.injEq] at happly
    simp only [shmem_op.no_overflow, decide_eq_true_eq] at hno
    obtain ⟨rfl, rfl⟩ := happly
    refine ⟨?_, rfl⟩
    unfold drm_gem_shmem_pin drm_gem_shmem_pin_locked
    by_cases hl : lock_ret = 0
    · simp only [hl, ne_eq, not_true_eq_false, if_false]
      exact get_pages_accounted env s pins hno h
    · simp only [hl, ne_eq, not_false_eq_true, if_true, if_false]
      exact h
  | unpin =>
    simp only [shmem_op.apply_checked] at happly
    split_ifs at happly with hp
    simp only [Option.some.injEq, Prod.mk.injEq] at happly
    obtain ⟨rfl, rfl⟩ := happly
    exact ⟨put_pages_accounted s pins h hp, rfl⟩
  | vmap env =>
    simp only [shmem_op.apply_checked, Option.some.injEq, Prod.mk.injEq] at happly
    simp only [shmem_op.no_overflow, Bool.and_eq_true, decide_eq_true_eq] at hno
    obtain ⟨rfl, rfl⟩ := happly
    exact ⟨vmap_accounted env s none pins hno.1 hno.2 h, rfl⟩
  | vunmap =>
    simp only [shmem_op.apply_checked, Option.some.injEq, Prod.mk.injEq] at happly
    obtain ⟨rfl, rfl⟩ := happly
    exact ⟨vunmap_accounted s none pins h, rfl⟩
  | madvise v =>
    simp only [shmem_op.apply_checked, Option.some.injEq, Prod.mk.injEq] at happly
    obtain ⟨rfl, rfl⟩ := happly
    refine ⟨?_, rfl⟩
    unfold drm_gem_shmem_madvise
    simp only
    by_cases hm : s.madv ≥ 0
    · rw [if_pos hm]; exact h
    · rw [if_neg hm]; exact h
  | purge =>
    simp only [shmem_op.apply_checked] at happly
    split_ifs at happly with hp
    unfold drm_gem_shmem_is_purgeable at hp
    simp only [Bool.and_eq_true, decide_eq_true_eq] at hp
    obtain ⟨⟨-, hc0⟩, hv0⟩ := hp
    unfold drm_gem_shmem_purge at happly
    simp only [shmem_op.apply]
    unfold drm_gem_shmem_purge
    cases hsg : s.sgt with
    | none => simp [hsg] at happly
    | some st =>
      simp only [hsg, Option.map_some', Option.some.injEq, Prod.mk.injEq] at happly ⊢
      obtain ⟨rfl, rfl⟩ := happly
      refine ⟨?_, rfl⟩
      have hp := put_pages_cases { s with sgt := none }
      simp only at hp
      generalize drm_gem_shmem_put_pages { s with sgt := none } = q at hp ⊢
      obtain ⟨hpi, hpv, -, -, -, -, hpc, -⟩ := hp
      unfold pins_accounted at h ⊢
      simp only [hpi, hpv, hpc]
      refine ⟨h.1, ?_⟩
      have := h.2
      simp only [hv0, lt_irrefl, if_false] at this ⊢
      omega

/-- A sequence of calls that keeps the contract keeps `pins_accounted`. -/
theorem run_checked_accounted : ∀ (ops : List shmem_op) (s s1 : drm_gem_shmem_object)
    (pins pins1 : Nat), shmem_run_checked ops (s, pins) = some (s1, pins1) →
      pins_accounted s pins → pins_accounted s1 pins1 ∧ shmem_run ops s = some s1 := by
  intro ops
  induction ops with
  | nil =>
    intro s s1 pins pins1 hrun h
    simp only [shmem_run_checked, Option.some.injEq, Prod.mk.injEq] at hrun
    obtain ⟨rfl, rfl⟩ := hrun
    exact ⟨h, rfl⟩
  | cons op ops ih =>
    intro s s1 pins pins1 hrun h
    unfold shmem_run_checked at hrun
    by_cases hno : op.no_overflow s = true
    · simp only [hno, if_true] at hrun
      cases ha : op.apply_checked s pins with
      | none => simp [ha] at hrun
      | some st =>
        obtain ⟨s2, pins2⟩ := st
        simp only [ha] at hrun
        have hstep := op_checked_accounted op s s2 pins pins2 hno ha h
        have := ih s2 s1 pins2 pins1 hrun hstep.1
        refine ⟨this.1, ?_⟩
        unfold shmem_run
        simp only [hstep.2]
        exact this.2
    · simp [hno] at hrun


/-- What `drm_gem_shmem_vmap` leaves as it is: the origin, `madv`, the size; and on an
imported object also the pages and their use count. -/
theorem vmap_frame (env : vmap_env) (s : drm_gem_shmem_object) (map : Option Nat) :
    (drm_gem_shmem_vmap env s map).shmem.import_attach = s.import_attach ∧
    (drm_gem_shmem_vmap env s map).shmem.madv = s.madv ∧
    (drm_gem_shmem_vmap env s map).shmem.size = s.size ∧
    (s.import_attach = true →
      (drm_gem_shmem_vmap env s map).shmem.pages_use_count = s.pages_use_count ∧
      (drm_gem_shmem_vmap env s map).shmem.pages = s.pages ∧
      (drm_gem_shmem_vmap env s map).shmem.sgt = s.sgt ∧
      (drm_gem_shmem_vmap env s map).shmem.uobj = s.uobj) := by
  unfold drm_gem_shmem_vmap
  by_cases hi : s.import_attach = true
  · rw [if_pos hi]
    simp only
    split_ifs <;> simp
  · rw [if_neg hi]
    by_cases hv : s.vmap_use_count > 0
    · rw [if_pos hv]
      simp [hi]
    · rw [if_neg hv]
      have hg := get_pages_cases env.get_pages
        { s with vmap_use_count := u32 (s.vmap_use_count + 1) }
      simp only at hg
      generalize drm_gem_shmem_get_pages env.get_pages
        { s with vmap_use_count := u32 (s.vmap_use_count + 1) } = g at hg ⊢
      obtain ⟨hgi, -, hgm, -, hgs, -⟩ := hg
      by_cases hr : g.ret ≠ 0
      · rw [if_pos hr]
        exact ⟨hgi, hgm, hgs, fun h => absurd h hi⟩
      · rw [if_neg hr]
        cases env.vmap with
        | none =>
          have hp := put_pages_cases { g.shmem with vaddr := none }
          simp only at hp
          generalize drm_gem_shmem_put_pages { g.shmem with vaddr := none } = q at hp ⊢
          obtain ⟨hpi, -, hpm, -, -, hps, -⟩ := hp
          exact ⟨by simp only [hpi, hgi], by simp only [hpm, hgm], by simp only [hps, hgs],
            fun h => absurd h hi⟩
        | some vaddr =>
          exact ⟨hgi, hgm, hgs, fun h => absurd h hi⟩

/-- What `drm_gem_shmem_vunmap` leaves as it is: the origin, `madv`, the
scatter-gather table and the size; the use count of the pages does not grow, and on
an imported object it and the pages stay. -/
theorem vunmap_frame (s : drm_gem_shmem_object) (map : Option Nat) :
    (drm_gem_shmem_vunmap s map).2.2.import_attach = s.import_attach ∧
    (drm_gem_shmem_vunmap s map).2.2.madv = s.madv ∧
    (drm_gem_shmem_vunmap s map).2.2.sgt = s.sgt ∧
    (drm_gem_shmem_vunmap s map).2.2.size = s.size ∧
    (drm_gem_shmem_vunmap s map).2.2.pages_use_count ≤ s.pages_use_count ∧
    (s.import_attach = true →
      (drm_gem_shmem_vunmap s map).2.2.pages_use_count = s.pages_use_count ∧
      (drm_gem_shmem_vunmap s map).2.2.pages = s.pages ∧
      (drm_gem_shmem_vunmap s map).2.2.uobj = s.uobj) := by
  unfold drm_gem_shmem_vunmap
  by_cases hi : s.import_attach = true
  · rw [if_pos hi]; simp
  · rw [if_neg hi]
    by_cases hv0 : s.vmap_use_count = 0
    · rw [if_pos hv0]; simp [hi]
    · rw [if_neg hv0]
      by_cases hv1 : s.vmap_use_count - 1 > 0
      · rw [if_pos hv1]; simp [hi]
      · rw [if_neg hv1]
        have hp := put_pages_cases { s with vmap_use_count := s.vmap_use_count - 1 }
        simp only at hp
        generalize drm_gem_shmem_put_pages { s with vmap_use_count := s.vmap_use_count - 1 }
          = q at hp ⊢
        obtain ⟨hpi, -, hpm, -, hpsg, hps, hpc, -⟩ := hp
        exact ⟨hpi, hpm, hpsg, hps, by simp only [hpc]; omega, fun h => absurd h hi⟩

/-- The warning of `drm_gem_shmem_put_pages` fires iff the count is 0; a positive
count goes down by one. -/
theorem put_pages_guards_zero_aux (shmem : drm_gem_shmem_object) :
    (shmem.pages_use_count = 0 → (drm_gem_shmem_put_pages shmem).1 = true) ∧
    (0 < shmem.pages_use_count →
      (drm_gem_shmem_put_pages shmem).1 = false ∧
      (drm_gem_shmem_put_pages shmem).2.pages_use_count + 1 = shmem.pages_use_count) := by
  obtain ⟨-, -, -, -, -, -, hc, hcases⟩ := put_pages_cases shmem
  constructor
  · intro h0
    rcases hcases with ⟨-, he⟩ | ⟨h1, -⟩ | ⟨h1, -⟩
    · rw [he]
    · omega
    · omega
  · intro hpos
    rcases hcases with ⟨h0, -⟩ | ⟨-, hw, -⟩ | ⟨-, hw, -⟩
    · omega
    · exact ⟨hw, by omega⟩
    · exact ⟨hw, by omega⟩

/-- A call that keeps the contract around purging keeps `purged_is_empty`. -/
theorem op_keeps_purged_is_empty (op : shmem_op) (s s1 : drm_gem_shmem_object)
    (hop : op.keeps_purge_contract s = true) (happly : op.apply s = some s1)
    (h : purged_is_empty s) : purged_is_empty s1 := by
  unfold purged_is_empty at *
  cases op with
  | get_pages env =>
    simp only [shmem_op.apply, Option.some.injEq] at happly
    simp only [shmem_op.keeps_purge_contract, decide_eq_true_eq] at hop
    subst happly
    intro hm
    rw [(get_pages_cases env s).2.2.1] at hm
    omega
  | put_pages =>
    simp only [shmem_op.apply, Option.some.injEq] at happly
    subst happly
    obtain ⟨-, -, hm, -, hs, -, hc, -⟩ := put_pages_cases s
    rw [hm, hs, hc]
    intro hneg
    have := h hneg
    exact ⟨this.1, by omega⟩
  | pin lock_ret env =>
    simp only [shmem_op.apply, Option.some.injEq, drm_gem_shmem_pin,
      drm_gem_shmem_pin_locked] at happly
    simp only [shmem_op.keeps_purge_contract, decide_eq_true_eq] at hop
    subst happly
    intro hm
    split_ifs at hm
    · simp only at hm; omega
    · simp only at hm
      rw [(get_pages_cases env s).2.2.1] at hm
      omega
  | unpin =>
    simp only [shmem_op.apply, Option.some.injEq, drm_gem_shmem_unpin,
      drm_gem_shmem_unpin_locked] at happly
    subst happly
    obtain ⟨-, -, hm, -, hs, -, hc, -⟩ := put_pages_cases s
    simp only [hm, hs, hc]
    intro hneg
    have := h hneg
    exact ⟨this.1, by omega⟩
  | vmap env =>
    simp only [shmem_op.apply, Option.some.injEq] at happly
    simp only [shmem_op.keeps_purge_contract, decide_eq_true_eq] at hop
    subst happly
    intro hm
    rw [(vmap_frame env s none).2.1] at hm
    omega
  | vunmap =>
    simp only [shmem_op.apply, Option.some.injEq] at happly
    subst happly
    obtain ⟨-, hm, hs, -, hc, -⟩ := vunmap_frame s none
    rw [hm, hs]
    intro hneg
    have := h hneg
    exact ⟨this.1, by omega⟩
  | madvise v =>
    simp only [shmem_op.apply, Option.some.injEq] at happly
    simp only [shmem_op.keeps_purge_contract, decide_eq_true_eq] at hop
    subst happly
    unfold drm_gem_shmem_madvise
    simp only
    by_cases hm : s.madv ≥ 0
    · rw [if_pos hm]
      intro hneg
      simp only at hneg
      omega
    · rw [if_neg hm]
      exact h
  | purge =>
    simp only [shmem_op.keeps_purge_contract] at hop
    unfold drm_gem_shmem_is_purgeable at hop
    simp only [Bool.and_eq_true, decide_eq_true_eq] at hop
    obtain ⟨⟨-, hc0⟩, -⟩ := hop
    simp only [shmem_op.apply] at happly
    unfold drm_gem_shmem_purge at happly
    cases hsg : s.sgt with
    | none => simp [hsg] at happly
    | some st =>
      simp only [hsg, Option.map_some', Option.some.injEq] at happly
      subst happly
      have hp := put_pages_cases { s with sgt := none }
      simp only at hp
      generalize drm_gem_shmem_put_pages { s with sgt := none } = q at hp ⊢
      obtain ⟨-, -, -, -, hs, -, hc, -⟩ := hp
      intro _
      exact ⟨hs, by simp only [hc]; omega⟩

/-- A sequence of calls that keep the contract around purging keeps
`purged_is_empty`, and is the plain sequence of these calls. -/
theorem run_keeps_purged_is_empty : ∀ (ops : List shmem_op) (s s1 : drm_gem_shmem_object),
    shmem_run_purge_contract ops s = some s1 → purged_is_empty s →
      purged_is_empty s1 ∧ shmem_run ops s = some s1 := by
  intro ops
  induction ops with
  | nil =>
    intro s s1 hrun h
    simp only [shmem_run_purge_contract, Option.some.injEq] at hrun
    subst hrun
    exact ⟨h, rfl⟩
  | cons op ops ih =>
    intro s s1 hrun h
    unfold shmem_run_purge_contract at hrun
    by_cases hop : op.keeps_purge_contract s = true
    · rw [if_pos hop] at hrun
      cases ha : op.apply s with
      | none => simp [ha] at hrun
      | some s2 =>
        simp only [ha] at hrun
        have := ih s2 s1 hrun (op_keeps_purged_is_empty op s s2 hop ha h)
        refine ⟨this.1, ?_⟩
        unfold shmem_run
        simp only [ha]
        exact this.2
    · rw [if_neg hop] at hrun
      simp at hrun

/-- With enough pages on the list, the pages of one granule are taken. -/
theorem get_pages_granule_ok (i : Nat) : ∀ (n : Nat) (st : fill_state),
    n ≤ st.plist.length →
      (get_pages_granule i n st).1 = true ∧
      (get_pages_granule i n st).2.plist.length = st.plist.length - n := by
  intro n
  induction n with
  | zero => intro st _; simp [get_pages_granule]
  | succ n ih =>
    intro st h
    unfold get_pages_granule
    cases hp : st.plist with
    | nil => rw [hp] at h; simp at h
    | cons page rest =>
      rw [hp] at h
      simp only [List.length_cons] at h ⊢
      have := ih { st with plist := rest,
                           uobj := if uvm_pagelookup st.uobj ((i * 4 + (4 - (n + 1))) * PAGE_SIZE) = none
                             then st.uobj ++ [((i * 4 + (4 - (n + 1))) * PAGE_SIZE, page)] else st.uobj,
                           pages := st.pages ++ [page] } (by simp only; omega)
      simp only at this
      exact ⟨this.1, by rw [this.2]; omega⟩

/-- With four pages on the list for every granule to go, the fill loop ends well. -/
theorem get_pages_fill_ok (npages : Nat) : ∀ (fuel i : Nat) (st : fill_state),
    4 * fuel ≤ st.plist.length → (get_pages_fill npages fuel i st).1 = true := by
  intro fuel
  induction fuel with
  | zero => intro i st _; simp [get_pages_fill]
  | succ fuel ih =>
    intro i st h
    unfold get_pages_fill
    by_cases hlt : i < npages
    · rw [if_pos hlt]
      have hg := get_pages_granule_ok i 4 st (by omega)
      simp only [hg.1, if_true]
      apply ih
      simp only [hg.2]
      omega
    · rw [if_neg hlt]

/-- A run of two sequences of calls is the run of the second after the first. -/
theorem shmem_run_append : ∀ (l1 l2 : List shmem_op) (s : drm_gem_shmem_object),
    shmem_run (l1 ++ l2) s = (shmem_run l1 s).bind (shmem_run l2) := by
  intro l1
  induction l1 with
  | nil => intro l2 s; simp [shmem_run]
  | cons op l1 ih =>
    intro l2 s
    rw [List.cons_append, shmem_run, shmem_run]
    cases op.apply s with
    | none => rfl
    | some s1 => exact ih l2 s1

/-- On the resident buffer with a positive count, `get_pages` increments the count
modulo `2^32` and returns 0. -/
theorem get_pages_pinned (env : get_pages_env) (n : Nat) (h0 : 0 < n) :
    drm_gem_shmem_get_pages env (shmem_pinned n)
      = { ret := 0, shmem := shmem_pinned (u32 (n + 1)), freed := [] } := by
  have hc : (shmem_pinned n).pages_use_count = n := rfl
  unfold drm_gem_shmem_get_pages
  simp only
  rw [if_pos (by rw [hc]; exact h0)]
  rfl

/-- On the resident buffer, `k` calls of `get_pages` add `k` to a positive count, as
long as it stays within `UINT_MAX`. -/
theorem run_get_pages_pinned (env : get_pages_env) : ∀ (k n : Nat), 0 < n → n + k ≤ UINT_MAX →
    shmem_run (List.replicate k (shmem_op.get_pages env)) (shmem_pinned n)
      = some (shmem_pinned (n + k)) := by
  intro k
  induction k with
  | zero => intro n _ _; rfl
  | succ k ih =>
    intro n h0 hb
    rw [List.replicate_succ, shmem_run]
    simp only [shmem_op.apply, get_pages_pinned env n h0]
    rw [u32_succ n (by omega), ih (n + 1) (by omega) (by omega)]
    congr 2
    omega

/-- After `UINT_MAX` calls of `get_pages` the fresh 16 KiB buffer is resident with
`pages_use_count = UINT_MAX`. -/
theorem pinned_max_reachable :
    shmem_run (List.replicate UINT_MAX (shmem_op.get_pages (get_pages_env_ok 100 4)))
      (shmem_fresh 16384) = some (shmem_pinned UINT_MAX) := by
  have hm : UINT_MAX = 4294967294 + 1 := by decide
  have hfirst : (drm_gem_shmem_get_pages (get_pages_env_ok 100 4) (shmem_fresh 16384)).shmem
      = shmem_pinned 1 := by decide
  rw [hm, List.replicate_succ, shmem_run]
  simp only [shmem_op.apply, hfirst]
  rw [run_get_pages_pinned (get_pages_env_ok 100 4) 4294967294 1 (by decide) (by decide)]

/-- On the mapped buffer with a positive count, `vmap` increments `vmap_use_count`
modulo `2^32` and returns 0 with the address of the mapping. -/
theorem vmap_mapped (env : vmap_env) (n : Nat) (h0 : 0 < n) :
    drm_gem_shmem_vmap env (shmem_mapped n) none
      = { ret := 0, map := some 0xffffff8000000000, shmem := shmem_mapped (u32 (n + 1)),
          warned := false, held := [] } := by
  have hi0 : (shmem_mapped n).import_attach = false := rfl
  have hi : ¬ ((shmem_mapped n).import_attach = true) := by rw [hi0]; decide
  have hc : (shmem_mapped n).vmap_use_count = n := rfl
  unfold drm_gem_shmem_vmap
  rw [if_neg hi, if_pos (by rw [hc]; exact h0)]
  rfl

/-- On the mapped buffer, `k` calls of `vmap` add `k` to a positive `vmap_use_count`,
as long as it stays within `UINT_MAX`. -/
theorem run_vmap_mapped (env : vmap_env) : ∀ (k n : Nat), 0 < n → n + k ≤ UINT_MAX →
    shmem_run (List.replicate k (shmem_op.vmap env)) (shmem_mapped n)
      = some (shmem_mapped (n + k)) := by
  intro k
  induction k with
  | zero => intro n _ _; rfl
  | succ k ih =>
    intro n h0 hb
    rw [List.replicate_succ, shmem_run]
    simp only [shmem_op.apply, vmap_mapped env n h0]
    rw [u32_succ n (by omega), ih (n + 1) (by omega) (by omega)]
    congr 2
    omega

/-- After `UINT_MAX` calls of `vmap` the fresh 16 KiB buffer is mapped with
`vmap_use_count = UINT_MAX`. -/
theorem mapped_max_reachable :
    shmem_run (List.replicate UINT_MAX (shmem_op.vmap (vmap_env_ok 100 4 0xffffff8000000000)))
      (shmem_fresh 16384) = some (shmem_mapped UINT_MAX) := by
  have hm : UINT_MAX = 4294967294 + 1 := by decide
  have hfirst : (drm_gem_shmem_vmap (vmap_env_ok 100 4 0xffffff8000000000)
      (shmem_fresh 16384) none).shmem = shmem_mapped 1 := by decide
  rw [hm, List.replicate_succ, shmem_run]
  simp only [shmem_op.apply, hfirst]
  rw [run_vmap_mapped (vmap_env_ok 100 4 0xffffff8000000000) 4294967294 1 (by decide)
    (by decide)]

/-! ## Lemmas about the page-table engine -/

/-- Removing a page's translation leaves unmapped pages unmapped. -/
theorem kremove_pg_none (pm : pmap) (va p : Nat) (h : pm.tr p = none) :
    (pmap_kremove_pg pm va).tr p = none := by
  unfold pmap_kremove_pg
  simp only
  split_ifs
  · rfl
  · exact h

/-- The loop of `pmap_kremove` leaves unmapped pages unmapped. -/
theorem kremove_loop_none : ∀ (n va : Nat) (pm : pmap) (p : Nat),
    pm.tr p = none → (pmap_kremove_loop n va pm).tr p = none := by
  intro n
  induction n with
  | zero => intro va pm p h; exact h
  | succ n ih =>
    intro va pm p h
    rw [pmap_kremove_loop]
    exact ih _ _ p (kremove_pg_none pm va p h)

/-- The function `pmap_kremove` leaves unmapped pages unmapped. -/
theorem kremove_none (pm : pmap) (va len p : Nat) (h : pm.tr p = none) :
    (pmap_kremove pm va len).tr p = none :=
  kremove_loop_none _ va pm p h

/-- The function `pmap_kremove` over at least one page unmaps the page of `va`. -/
theorem kremove_first (pm : pmap) (va len : Nat) (h : PAGE_SIZE ≤ len) :
    (pmap_kremove pm va len).tr (va / PAGE_SIZE) = none := by
  unfold pmap_kremove
  have hn : len >>> PAGE_SHIFT = (len >>> PAGE_SHIFT - 1) + 1 := by
    have : 1 ≤ len >>> PAGE_SHIFT := by
      rw [Nat.shiftRight_eq_div_pow]
      unfold PAGE_SIZE at h
      unfold PAGE_SHIFT
      omega
    omega
  rw [hn, pmap_kremove_loop]
  apply kremove_loop_none
  simp [pmap_kremove_pg]

/-- The loop of `__arm_lpae_unmap` leaves unmapped pages unmapped. -/
theorem unmap_loop_none (iova size total : Nat) : ∀ (fuel offset : Nat) (pm pm1 : pmap) (p : Nat),
    arm_lpae_unmap_loop iova size total fuel offset pm = some pm1 →
      pm.tr p = none → pm1.tr p = none := by
  intro fuel
  induction fuel with
  | zero => intro offset pm pm1 p h; simp [arm_lpae_unmap_loop] at h
  | succ fuel ih =>
    intro offset pm pm1 p h hp
    unfold arm_lpae_unmap_loop at h
    split_ifs at h
    · exact ih _ _ pm1 p h (kremove_none pm _ size p hp)
    · simp only [Option.some.injEq] at h
      subst h; exact hp

/-- The loop of `__arm_lpae_unmap` over a range that fits in 64 bits ends within `n + 1` iterations. -/
theorem unmap_loop_terminates (iova size n : Nat) (hfit : size * n < 2 ^ 64) :
    ∀ (fuel j : Nat) (pm : pmap), j ≤ n → n - j < fuel →
      ∃ pm1, arm_lpae_unmap_loop iova size (size * n) fuel (size * j) pm = some pm1 := by
  intro fuel
  induction fuel with
  | zero => intro j pm _ h; omega
  | succ fuel ih =>
    intro j pm hj hf
    unfold arm_lpae_unmap_loop
    by_cases hlt : size * j < size * n
    · rw [if_pos hlt]
      have hjn : j < n := by
        by_contra hge
        have : n ≤ j := by omega
        have := Nat.mul_le_mul_left size this
        omega
      have hle : size * (j + 1) ≤ size * n := Nat.mul_le_mul_left size hjn
      have hw : w64 (size * j + size) = size * (j + 1) := by
        unfold w64
        rw [Nat.mod_eq_of_lt]
        · ring
        · have : size * j + size = size * (j + 1) := by ring
          omega
      rw [hw]
      exact ih (j + 1) _ hjn (by omega)
    · rw [if_neg hlt]
      exact ⟨pm, rfl⟩

/-- The inner loop of `__arm_lpae_map` returns 0 or what `pmap_enter` failed with. -/
theorem map_inner_error (fails : Nat → Bool) (size cv cp : Nat) :
    ∀ (fuel offset k : Nat) (pm : pmap) (r : Nat × Nat × pmap),
      arm_lpae_map_inner fails size cv cp fuel offset k pm = some r → r.1 = 0 ∨ r.1 = 12 := by
  intro fuel
  induction fuel with
  | zero => intro offset k pm r h; simp [arm_lpae_map_inner] at h
  | succ fuel ih =>
    intro offset k pm r h
    rw [arm_lpae_map_inner] at h
    by_cases h1 : offset < size
    · rw [if_pos h1] at h
      simp only at h
      split_ifs at h
      · simp only [Option.some.injEq] at h
        subst h
        unfold pmap_enter
        split_ifs <;> simp
      · exact ih _ _ _ _ h
    · rw [if_neg h1] at h
      simp only [Option.some.injEq] at h
      subst h; exact Or.inl rfl

/-- The outer loop of `__arm_lpae_map` returns 0 or what `pmap_enter` failed with. -/
theorem map_outer_error (fails : Nat → Bool) (fuel0 iova paddr size total : Nat) :
    ∀ (fuel offset mapped k : Nat) (pm : pmap) (r : Nat × Nat × pmap),
      arm_lpae_map_outer fails fuel0 iova paddr size total fuel offset mapped k pm = some r →
        r.1 = 0 ∨ r.1 = 12 := by
  intro fuel
  induction fuel with
  | zero => intro offset mapped k pm r h; simp [arm_lpae_map_outer] at h
  | succ fuel ih =>
    intro offset mapped k pm r h
    rw [arm_lpae_map_outer] at h
    by_cases h1 : offset < total
    · rw [if_pos h1] at h
      cases hin : arm_lpae_map_inner fails size (w64 (iova + offset)) (w64 (paddr + offset))
          fuel0 0 k pm with
      | none => simp [hin] at h
      | some ri =>
        simp only [hin] at h
        split_ifs at h
        · simp only [Option.some.injEq] at h
          subst h
          exact map_inner_error fails size _ _ _ _ _ _ ri hin
        · exact ih _ _ _ _ _ h
    · rw [if_neg h1] at h
      simp only [Option.some.injEq] at h
      subst h; exact Or.inl rfl

/-- With the default allocator and services that succeed, `__arm_lpae_alloc_pages`
returns the mapped memory. -/
theorem alloc_pages_succeeds (env : alloc_pages_env) (size : Nat) (cfg : io_pgtable_cfg)
    (hcustom : cfg.alloc = false) (hok : env.succeeds cfg = true) :
    (__arm_lpae_alloc_pages env size cfg).1 = some env.kva := by
  unfold alloc_pages_env.succeeds at hok
  simp only [Bool.and_eq_true, Bool.or_eq_true, decide_eq_true_eq] at hok
  obtain ⟨⟨⟨ha, hm⟩, hk⟩, hl⟩ := hok
  unfold __arm_lpae_alloc_pages arm_lpae_default_alloc_pages ptr_of
  simp only [hcustom, Bool.false_eq_true, if_false, ha, hm, ne_eq, not_true_eq_false, hk]
  rcases hl with hl | hl
  · simp [hl]
  · simp only [hl, ne_eq, not_true_eq_false, if_false]
    split_ifs <;> rfl

/-- No format of `io_pgtable_init_table` declares `IO_PGTABLE_CAP_CUSTOM_ALLOCATOR`. -/
theorem init_table_no_custom_allocator (fmt : Nat) (fns : io_pgtable_init_fns)
    (h : io_pgtable_init_table fmt = some fns) :
    fns.caps &&& IO_PGTABLE_CAP_CUSTOM_ALLOCATOR = 0 := by
  unfold io_pgtable_init_table at h
  split_ifs at h
  simp only [Option.some.injEq] at h
  subst h
  decide

/-- The function `check_custom_allocator` returns 0 exactly when neither function is
supplied, for a format that does not declare `IO_PGTABLE_CAP_CUSTOM_ALLOCATOR`. -/
theorem check_custom_allocator_cases (fmt : Nat) (cfg : io_pgtable_cfg)
    (hcaps : ∀ fns, io_pgtable_init_table fmt = some fns →
      fns.caps &&& IO_PGTABLE_CAP_CUSTOM_ALLOCATOR = 0) :
    (cfg.alloc = false → cfg.free = false → check_custom_allocator fmt cfg = 0) ∧
    (cfg.alloc = true ∨ cfg.free = true → check_custom_allocator fmt cfg = EINVAL) := by
  unfold check_custom_allocator
  constructor
  · intro ha hf
    simp [ha, hf]
  · intro h
    cases ha : cfg.alloc <;> cases hf : cfg.free <;> simp [ha, hf] at h ⊢
    cases ht : io_pgtable_init_table fmt with
    | none => rfl
    | some fns => simp [hcaps fns ht]

/-- A call of `alloc_io_pgtable_ops` that fails the custom-allocator check, names a
format outside the table, sets a quirk or exceeds the widths of `apple_uat_alloc_pgtable`
returns `NULL`, leaves the configuration as it is and does nothing else. -/
theorem alloc_rejects_untouched (env : pgtable_env) (fmt : Nat) (cfg : io_pgtable_cfg)
    (cookie : Nat)
    (h : fmt ≥ IO_PGTABLE_NUM_FMTS ∨ check_custom_allocator fmt cfg ≠ 0 ∨ cfg.quirks ≠ 0 ∨
      cfg.ias > 48 ∨ cfg.oas > 42) :
    alloc_io_pgtable_ops env fmt cfg cookie = { data := none, cfg := cfg, log := [] } := by
  unfold alloc_io_pgtable_ops
  by_cases h1 : fmt ≥ IO_PGTABLE_NUM_FMTS
  · rw [if_pos h1]
  · rw [if_neg h1]
    by_cases h2 : check_custom_allocator fmt cfg ≠ 0
    · rw [if_pos h2]
    · rw [if_neg h2]
      cases ht : io_pgtable_init_table fmt with
      | none => rfl
      | some fns =>
        have hr : apple_uat_alloc_pgtable env cfg cookie = { data := none, cfg := cfg, log := [] } := by
          unfold apple_uat_alloc_pgtable
          by_cases h3 : cfg.quirks ≠ 0
          · rw [if_pos h3]
          · rw [if_neg h3]
            have h4 : cfg.ias > 48 ∨ cfg.oas > 42 := by
              rcases h with h | h | h | h | h
              · exact absurd h h1
              · exact absurd h h2
              · exact absurd h h3
              · exact Or.inl h
              · exact Or.inr h
            rw [if_pos h4]
        simp only [hr]

/-- What a successful `alloc_io_pgtable_ops` returns: a structure whose geometry fields
are 0 as `malloc` with `M_ZERO` left them, whose `pgd` is the memory of the second
`__arm_lpae_alloc_pages` call, the one in `apple_uat_alloc_pgtable`, and whose
configuration has no custom allocator; the events are the `malloc` of the structure and
those of the two `__arm_lpae_alloc_pages` calls. -/
theorem alloc_success_shape (env : pgtable_env) (fmt : Nat) (cfg : io_pgtable_cfg) (cookie : Nat)
    (d : arm_lpae_io_pgtable) (h : (alloc_io_pgtable_ops env fmt cfg cookie).data = some d) :
    d.pgd_bits = 0 ∧ d.start_level = 0 ∧ d.bits_per_level = 0 ∧
    d.cfg.alloc = false ∧ d.cfg.free = false ∧ d.cfg.coherent_walk = cfg.coherent_walk ∧
    ∃ (pgd1 : Nat) (cfg1 cfg2 : io_pgtable_cfg),
      (__arm_lpae_alloc_pages env.pages1 PAGE_SIZE_16K cfg1).1 = some pgd1 ∧
      (__arm_lpae_alloc_pages env.pages2 PAGE_SIZE_16K cfg2).1 = d.pgd ∧ d.pgd ≠ none ∧
      (alloc_io_pgtable_ops env fmt cfg cookie).log
        = [pgtable_event.malloc_data d.addr]
            ++ (__arm_lpae_alloc_pages env.pages1 PAGE_SIZE_16K cfg1).2
            ++ (__arm_lpae_alloc_pages env.pages2 PAGE_SIZE_16K cfg2).2 := by
  unfold alloc_io_pgtable_ops at h ⊢
  by_cases h1 : fmt ≥ IO_PGTABLE_NUM_FMTS
  · rw [if_pos h1] at h; simp at h
  rw [if_neg h1] at h ⊢
  by_cases h2 : check_custom_allocator fmt cfg ≠ 0
  · rw [if_pos h2] at h; simp at h
  rw [if_neg h2] at h ⊢
  have hnc : cfg.alloc = false ∧ cfg.free = false := by
    cases ha : cfg.alloc <;> cases hf : cfg.free <;> simp
    all_goals
      have hk := (check_custom_allocator_cases fmt cfg (init_table_no_custom_allocator fmt)).2
        (by simp [ha, hf])
      rw [hk] at h2
      exact h2 (by decide)
  cases ht : io_pgtable_init_table fmt with
  | none => simp [ht] at h
  | some fns =>
    simp only [ht] at h ⊢
    unfold apple_uat_alloc_pgtable at h ⊢
    by_cases h3 : cfg.quirks ≠ 0
    · rw [if_pos h3] at h; simp at h
    rw [if_neg h3] at h ⊢
    by_cases h4 : cfg.ias > 48 ∨ cfg.oas > 42
    · rw [if_pos h4] at h; simp at h
    rw [if_neg h4] at h ⊢
    simp only at h ⊢
    unfold arm_lpae_alloc_pgtable at h ⊢
    simp only at h ⊢
    rw [if_neg h3] at h ⊢
    by_cases h5 : cfg.ias > MAX_IAS ∨ cfg.oas > MAX_OAS
    · rw [if_pos h5] at h; simp at h
    rw [if_neg h5] at h ⊢
    cases hm : env.malloc_data with
    | none => simp [hm] at h
    | some addr =>
      simp only [hm] at h ⊢
      cases hp1 : (__arm_lpae_alloc_pages env.pages1 PAGE_SIZE_16K
          { cfg with pgsize_bitmap := cfg.pgsize_bitmap &&& PAGE_SIZE_16K &&& SUPPORTED_PAGE_SIZES }).1 with
      | none => simp [hp1] at h
      | some pgd1 =>
        simp only [hp1] at h ⊢
        cases hp2 : (__arm_lpae_alloc_pages env.pages2 PAGE_SIZE_16K
            { cfg with pgsize_bitmap := cfg.pgsize_bitmap &&& PAGE_SIZE_16K &&& SUPPORTED_PAGE_SIZES,
                       arm_lpae_s1_ttbr := env.getphys pgd1 }).1 with
        | none => simp [hp2] at h
        | some pgd2 =>
          simp only [hp2, Option.some.injEq] at h ⊢
          subst h
          refine ⟨rfl, rfl, rfl, hnc.1, hnc.2, rfl, pgd1, _, _, hp1, hp2, by simp, ?_⟩
          simp

/-- The inner loop of `__arm_lpae_map` over a granule below `2^63` bytes ends within
one iteration per page and one more. -/
theorem map_inner_terminates (fails : Nat → Bool) (size cv cp : Nat) (hsize : size < 2 ^ 63) :
    ∀ (fuel i k : Nat) (pm : pmap), size ≤ PAGE_SIZE * (i + fuel) →
      ∃ r, arm_lpae_map_inner fails size cv cp (fuel + 1) (PAGE_SIZE * i) k pm = some r := by
  intro fuel
  induction fuel with
  | zero =>
    intro i k pm h
    rw [arm_lpae_map_inner]
    rw [if_neg (by unfold PAGE_SIZE at h ⊢; omega)]
    exact ⟨_, rfl⟩
  | succ fuel ih =>
    intro i k pm h
    rw [arm_lpae_map_inner]
    by_cases h1 : PAGE_SIZE * i < size
    · rw [if_pos h1]
      simp only
      split_ifs
      · exact ⟨_, rfl⟩
      · have hw : w64 (PAGE_SIZE * i + PAGE_SIZE) = PAGE_SIZE * (i + 1) := by
          unfold w64
          rw [Nat.mod_eq_of_lt]
          · ring
          · unfold PAGE_SIZE at h1 ⊢; omega
        rw [hw]
        exact ih (i + 1) _ _ (by unfold PAGE_SIZE at h ⊢; omega)
    · rw [if_neg h1]
      exact ⟨_, rfl⟩

/-- The outer loop of `__arm_lpae_map` over a range that fits in 64 bits ends within
`n + 1` iterations when the inner loop ends. -/
theorem map_outer_terminates (fails : Nat → Bool) (fuel0 iova paddr size n : Nat)
    (hfit : size * n < 2 ^ 64)
    (hinner : ∀ (cv cp k : Nat) (pm : pmap),
      ∃ r, arm_lpae_map_inner fails size cv cp fuel0 0 k pm = some r) :
    ∀ (fuel j mapped k : Nat) (pm : pmap), j ≤ n → n - j < fuel →
      ∃ r, arm_lpae_map_outer fails fuel0 iova paddr size (size * n) fuel (size * j) mapped k pm
        = some r := by
  intro fuel
  induction fuel with
  | zero => intro j mapped k pm _ h; omega
  | succ fuel ih =>
    intro j mapped k pm hj hf
    rw [arm_lpae_map_outer]
    by_cases hlt : size * j < size * n
    · rw [if_pos hlt]
      obtain ⟨ri, hri⟩ := hinner (w64 (iova + size * j)) (w64 (paddr + size * j)) k pm
      simp only [hri]
      split_ifs
      · exact ⟨_, rfl⟩
      · have hjn : j < n := by
          by_contra hge
          have : n ≤ j := by omega
          have := Nat.mul_le_mul_left size this
          omega
        have hle : size * (j + 1) ≤ size * n := Nat.mul_le_mul_left size hjn
        have hw : w64 (size * j + size) = size * (j + 1) := by
          unfold w64
          rw [Nat.mod_eq_of_lt]
          · ring
          · have : size * j + size = size * (j + 1) := by ring
            omega
        rw [hw]
        exact ih (j + 1) _ _ _ hjn (by omega)
    · rw [if_neg hlt]
      exact ⟨_, rfl⟩

/-- The function `arm_lpae_map_pages` returns, given fuel for the iterations of its two
loops. -/
theorem map_pages_terminates (fails : Nat → Bool) (fuel : Nat) (pm : pmap)
    (iova paddr g n : Nat) (hg : g < 2 ^ 63) (hfit : g * n < 2 ^ 64)
    (hfuel : n < fuel) (hfuel0 : g / PAGE_SIZE + 1 < fuel) :
    ∃ r, arm_lpae_map_pages fails fuel pm iova paddr g n = some r := by
  unfold arm_lpae_map_pages __arm_lpae_map
  simp only
  have hw : w64 (g * n) = g * n := by unfold w64; exact Nat.mod_eq_of_lt hfit
  rw [hw]
  have hinner : ∀ (cv cp k : Nat) (pm : pmap),
      ∃ r, arm_lpae_map_inner fails g cv cp fuel 0 k pm = some r := by
    intro cv cp k pm
    obtain ⟨f, hf⟩ : ∃ f, fuel = f + 1 := ⟨fuel - 1, by omega⟩
    have h := map_inner_terminates fails g cv cp hg f 0 k pm (by
      have := Nat.lt_succ_self (g / PAGE_SIZE)
      have hdiv := Nat.div_add_mod g PAGE_SIZE
      have hmod := Nat.mod_lt g (show 0 < PAGE_SIZE by decide)
      have hfl : g / PAGE_SIZE + 1 ≤ f := by omega
      have := Nat.mul_le_mul_left PAGE_SIZE hfl
      rw [Nat.zero_add]
      rw [Nat.mul_add] at this
      omega)
    rw [Nat.mul_zero] at h
    rw [hf]; exact h
  have h := map_outer_terminates fails fuel (trunc_page iova) (trunc_page paddr) g n hfit hinner
    fuel 0 0 0 pm (Nat.zero_le _) (by omega)
  rw [Nat.mul_zero] at h
  exact h

/-- When the outer loop of `__arm_lpae_map` returns 0, `*mapped` is the whole size. -/
theorem map_outer_success (fails : Nat → Bool) (fuel0 iova paddr size n : Nat)
    (hfit : size * n < 2 ^ 64) :
    ∀ (fuel j k m : Nat) (pm pm1 : pmap), j ≤ n →
      arm_lpae_map_outer fails fuel0 iova paddr size (size * n) fuel (size * j) (size * j) k pm
        = some (0, m, pm1) → m = size * n := by
  intro fuel
  induction fuel with
  | zero => intro j k m pm pm1 _ h; simp [arm_lpae_map_outer] at h
  | succ fuel ih =>
    intro j k m pm pm1 hj h
    rw [arm_lpae_map_outer] at h
    by_cases hlt : size * j < size * n
    · rw [if_pos hlt] at h
      cases hin : arm_lpae_map_inner fails size (w64 (iova + size * j)) (w64 (paddr + size * j))
          fuel0 0 k pm with
      | none => simp [hin] at h
      | some ri =>
        simp only [hin] at h
        by_cases he : ri.1 ≠ 0
        · rw [if_pos he] at h
          simp only [Option.some.injEq, Prod.mk.injEq] at h
          exact absurd h.1 he
        · rw [if_neg he] at h
          have hjn : j < n := by
            by_contra hge
            have : n ≤ j := by omega
            have := Nat.mul_le_mul_left size this
            omega
          have hle : size * (j + 1) ≤ size * n := Nat.mul_le_mul_left size hjn
          have hw : w64 (size * j + size) = size * (j + 1) := by
            unfold w64
            rw [Nat.mod_eq_of_lt]
            · ring
            · have : size * j + size = size * (j + 1) := by ring
              omega
          rw [hw] at h
          exact ih (j + 1) _ m _ pm1 hjn h
    · rw [if_neg hlt] at h
      simp only [Option.some.injEq, Prod.mk.injEq] at h
      have := Nat.mul_le_mul_left size hj
      omega

/-- The function `trunc_page` does nothing to a truncated address. -/
theorem trunc_page_idem (x : Nat) : trunc_page (trunc_page x) = trunc_page x := by
  unfold trunc_page PAGE_SIZE
  omega

/-- The function `arm_lpae_unmap_pages` over at least one block of at least a page:
given fuel for its `n` iterations it returns `g * n` and leaves `iova` without
translation, whatever was mapped. -/
theorem unmap_pages_clears (fuel : Nat) (pm : pmap) (iova g n : Nat)
    (hiova : iova < 2 ^ 64) (hg : PAGE_SIZE ≤ g) (hn : 0 < n) (hfit : g * n < 2 ^ 64)
    (hfuel : n < fuel) :
    ∃ pm2, arm_lpae_unmap_pages fuel pm iova g n = some (g * n, pm2) ∧
      arm_lpae_iova_to_phys pm2 iova = 2 ^ 64 - 1 := by
  have hw : w64 (g * n) = g * n := by unfold w64; exact Nat.mod_eq_of_lt hfit
  have htr : trunc_page iova / PAGE_SIZE = iova / PAGE_SIZE := by
    unfold trunc_page PAGE_SIZE; omega
  have htlt : trunc_page iova < 2 ^ 64 := by
    unfold trunc_page PAGE_SIZE; omega
  obtain ⟨pm2, hpm2⟩ := unmap_loop_terminates (trunc_page iova) g n hfit fuel 0 pm
    (Nat.zero_le _) (by omega)
  rw [Nat.mul_zero] at hpm2
  refine ⟨pm2, ?_, ?_⟩
  · unfold arm_lpae_unmap_pages __arm_lpae_unmap
    simp only [hw, hpm2, Option.map_some']
  · have hnone : pm2.tr (iova / PAGE_SIZE) = none := by
      cases fuel with
      | zero => omega
      | succ fuel =>
        unfold arm_lpae_unmap_loop at hpm2
        have hpos : 0 < g * n := Nat.mul_pos (by unfold PAGE_SIZE at hg; omega) hn
        rw [if_pos hpos] at hpm2
        apply unmap_loop_none _ _ _ _ _ _ _ _ hpm2
        have h0 : w64 (trunc_page iova + 0) = trunc_page iova := by
          unfold w64; rw [Nat.add_zero]; exact Nat.mod_eq_of_lt htlt
        rw [h0, ← htr]
        exact kremove_first pm (trunc_page iova) g hg
    unfold arm_lpae_iova_to_phys pmap_extract
    rw [hnone]; rfl

/-! ## Claims -/

/-- C5: `madvise(obj, v)`: on a buffer that is already Purged (`madv < 0`) the state is
left unchanged and the call reports 0 ("not retained"); otherwise `madv` becomes `v`
and the call reports retained (1) iff `v` is not Purged (`0 ≤ v`), else 0. Hence a
Purged buffer is left as it is by every later sequence of madvise calls, and
`madvise(Purged)` followed by `madvise(Normal)` ends Purged. -/
theorem madvise_purged_is_final (shmem : drm_gem_shmem_object) (v : Int) :
    (shmem.madv < 0 → drm_gem_shmem_madvise shmem v = (0, shmem)) ∧
    (0 ≤ shmem.madv →
      (drm_gem_shmem_madvise shmem v).2 = { shmem with madv := v } ∧
      ((drm_gem_shmem_madvise shmem v).1 = 1 ↔ 0 ≤ v) ∧
      ((drm_gem_shmem_madvise shmem v).1 = 0 ↔ v < 0)) ∧
    (shmem.madv < 0 → ∀ vs : List Int,
      vs.foldl (fun s w => (drm_gem_shmem_madvise s w).2) shmem = shmem) ∧
    (drm_gem_shmem_madvise (drm_gem_shmem_madvise shmem (-1)).2 0).2.madv < 0 := by
  have hp : ∀ (s : drm_gem_shmem_object) (w : Int), s.madv < 0 →
      drm_gem_shmem_madvise s w = (0, s) := by
    intro s w h
    have h1 : ¬ s.madv ≥ 0 := by omega
    simp [drm_gem_shmem_madvise, h1]
  refine ⟨hp shmem v, ?_, ?_, ?_⟩
  · intro h
    have h1 : shmem.madv ≥ 0 := h
    refine ⟨by simp [drm_gem_shmem_madvise, h1], ?_, ?_⟩
    · by_cases hv : v ≥ 0 <;> simp [drm_gem_shmem_madvise, h1, hv]
    · by_cases hv : v ≥ 0 <;> simp [drm_gem_shmem_madvise, h1, hv]
      omega
  · intro h vs
    induction vs with
    | nil => rfl
    | cons w ws ih => simp only [List.foldl_cons, hp shmem w h]; exact ih
  · by_cases h : shmem.madv ≥ 0
    · have h2 : (drm_gem_shmem_madvise shmem (-1)).2.madv < 0 := by
        simp [drm_gem_shmem_madvise, h]
      rw [hp _ 0 h2]; exact h2
    · have h1 : shmem.madv < 0 := by omega
      rw [hp shmem (-1) h1, hp shmem 0 h1]; exact h1


/-- C5 at a purged buffer: `madvise(Normal)` reports 0 and leaves it as it is. -/
theorem madvise_purged_is_final_witness :
    drm_gem_shmem_madvise { shmem_fresh 16384 with madv := -1 } 0
      = (0, { shmem_fresh 16384 with madv := -1 }) :=
  (madvise_purged_is_final { shmem_fresh 16384 with madv := -1 } 0).1 (by decide)

/-- C6 fails as stated: for the request `s = 2^64 - 1`, `round_up(size, 0x4000)`
wraps around in `size_t`, and `drm_gem_shmem_create` returns a buffer of size 0, which
is below `s`. -/
theorem create_of_huge_size_wraps :
    drm_gem_shmem_create create_env_ok (2 ^ 64 - 1) = Except.ok (shmem_fresh (2 ^ 64 - 1)) ∧
    (shmem_fresh (2 ^ 64 - 1)).size = 0 ∧ 1 ≤ 2 ^ 64 - 1 ∧
    ¬ (2 ^ 64 - 1 ≤ (shmem_fresh (2 ^ 64 - 1)).size) := by
  refine ⟨rfl, by decide, by decide, by decide⟩

/-- C6 as amended: a buffer created by `drm_gem_shmem_create` for a request of `s`
bytes with `s ≤ 2^64 - 16384` (in particular `1 ≤ s`) has as size the least multiple of
16384 that is at least `s`; after its first successful `get_pages` its scatter-gather
table has exactly `size / 16384 = ceil(s / 16384)` entries, each of length 16384, and
its `unsigned int` counter `nents` is that number modulo `2^32`. -/
theorem create_rounds_and_fills_sg_table (cenv : create_env) (env : get_pages_env) (s : Nat)
    (shmem : drm_gem_shmem_object)
    (hs : s ≤ 2 ^ 64 - 16384)
    (hcreate : drm_gem_shmem_create cenv s = Except.ok shmem)
    (hget : (drm_gem_shmem_get_pages env shmem).ret = 0) :
    (16384 ∣ shmem.size ∧ s ≤ shmem.size ∧ ∀ m, 16384 ∣ m → s ≤ m → shmem.size ≤ m) ∧
    ∃ st, (drm_gem_shmem_get_pages env shmem).shmem.sgt = some st ∧
      st.nents = u32 (shmem.size / 16384) ∧ st.sgl.length = shmem.size / 16384 ∧
      shmem.size / 16384 = (s + 16383) / 16384 ∧ ∀ e ∈ st.sgl, e.length = 16384 := by
  have hr := round_up_granule s
  -- the rounding does not wrap
  have hw : w64 (round_up s 0x4000) = round_up s 0x4000 := by
    unfold w64 round_up
    omega
  -- the object `drm_gem_shmem_create` returns
  have hobj : shmem.size = round_up s 0x4000 ∧ shmem.pages_use_count = 0 := by
    rw [create_ok cenv s shmem hcreate]; exact ⟨hw, rfl⟩
  refine ⟨by rw [hobj.1]; exact ⟨hr.1, hr.2.1, hr.2.2.1⟩, ?_⟩
  have hn : shmem.size >>> 14 = shmem.size / 16384 := by
    rw [Nat.shiftRight_eq_div_pow]
  unfold drm_gem_shmem_get_pages at hget ⊢
  have h0 : ¬ shmem.pages_use_count > 0 := by omega
  simp only [h0, if_false] at hget ⊢
  split_ifs at hget ⊢ <;> try (simp [ENOMEM] at hget)
  cases hp : env.uvm_pglistalloc with
  | none => simp [hp, ENOMEM] at hget
  | some plist =>
    simp only [hp] at hget ⊢
    split_ifs at hget ⊢ with hfill
    · have hfill1 : get_pages_fill (shmem.size >>> 14) (shmem.size >>> 14) 0
          { plist := plist, pages := [], uobj := [], sgl := [], nents := 0 } =
          (true, (get_pages_fill (shmem.size >>> 14) (shmem.size >>> 14) 0
          { plist := plist, pages := [], uobj := [], sgl := [], nents := 0 }).2) := by
        rw [← hfill]
      have := get_pages_fill_entries _ _ 0 _ _ (by omega) hfill1
      refine ⟨_, rfl, ?_, ?_, ?_, ?_⟩
      · simpa [hn] using this.2.1 (by show (0 : Nat) < 2 ^ 32; decide)
      · simpa [hn] using this.1
      · rw [hobj.1]; exact hr.2.2.2
      · exact this.2.2 (by simp)
    · simp [ENOMEM] at hget

/-- C6 as amended, at a request of 50000 bytes: the size is 65536 and the table has 4
entries of 16384 bytes. -/
theorem create_rounds_and_fills_sg_table_witness :
    (shmem_fresh 50000).size = 65536 ∧
    ∃ st, (drm_gem_shmem_get_pages (get_pages_env_ok 100 16) (shmem_fresh 50000)).shmem.sgt = some st ∧
      st.nents = 4 ∧ st.sgl.length = 4 ∧ ∀ e ∈ st.sgl, e.length = 16384 := by
  have h := create_rounds_and_fills_sg_table create_env_ok (get_pages_env_ok 100 16) 50000
    (shmem_fresh 50000) (by decide) rfl (by decide)
  refine ⟨by decide, ?_⟩
  obtain ⟨st, h1, h2, h3, _, h5⟩ := h.2
  have hsz : (shmem_fresh 50000).size / 16384 = 4 := by decide
  exact ⟨st, h1, by rw [h2, hsz]; decide, by rw [h3, hsz], h5⟩

/-- C7 fails as stated: `pages_use_count` is an `unsigned int`, and the `2^32`-th
`get_pages` on a freshly created 16 KiB buffer wraps it around to 0 while the page
array stays: the buffer is resident with `pages_use_count = 0`. -/
theorem pinned_2_pow_32_times_count_zero :
    (∀ op ∈ List.replicate (2 ^ 32) (shmem_op.get_pages (get_pages_env_ok 100 4)),
      op.is_pin_op = true) ∧
    shmem_run (List.replicate (2 ^ 32) (shmem_op.get_pages (get_pages_env_ok 100 4)))
      (shmem_fresh 16384) = some (shmem_pinned 0) ∧
    (shmem_pinned 0).pages = some [100, 101, 102, 103] ∧
    (shmem_pinned 0).pages_use_count = 0 := by
  refine ⟨?_, ?_, by decide, by decide⟩
  · intro op hop
    rw [List.eq_of_mem_replicate hop]
    rfl
  · have h : (2 : Nat) ^ 32 = UINT_MAX + 1 := by decide
    have hlast : shmem_run [shmem_op.get_pages (get_pages_env_ok 100 4)] (shmem_pinned UINT_MAX)
        = some (shmem_pinned 0) := by decide
    rw [h, List.replicate_succ', shmem_run_append, pinned_max_reachable]
    exact hlast

/-- C7 as amended: in every state reached from a freshly created NativelyOwned buffer by
a sequence of `pin` / `get_pages` and `unpin` / `put_pages` calls (successful or not)
none of which is a `pin` / `get_pages` made while `pages_use_count` is `2^32 - 1`, the
page array is present iff `pages_use_count > 0` (and the state is the one the plain run
of the same calls ends in); and after two successful pins and one unpin the pages are
still resident, after the second unpin they are released (no page array,
`pages_use_count = 0`). -/
theorem pages_resident_iff_pinned :
    (∀ (cenv : create_env) (size : Nat) (shmem s : drm_gem_shmem_object) (ops : List shmem_op),
      drm_gem_shmem_create cenv size = Except.ok shmem →
      (∀ op ∈ ops, op.is_pin_op = true) → shmem_run_no_overflow ops shmem = some s →
      shmem_run ops shmem = some s ∧ (s.pages.isSome = true ↔ 0 < s.pages_use_count)) ∧
    (∀ (cenv : create_env) (size : Nat) (shmem : drm_gem_shmem_object)
      (l1 l2 : Int) (e1 e2 : get_pages_env),
      drm_gem_shmem_create cenv size = Except.ok shmem →
      (drm_gem_shmem_pin l1 e1 shmem).2.1 = 0 →
      (drm_gem_shmem_pin l2 e2 (drm_gem_shmem_pin l1 e1 shmem).2.2).2.1 = 0 →
      (drm_gem_shmem_unpin
        (drm_gem_shmem_pin l2 e2 (drm_gem_shmem_pin l1 e1 shmem).2.2).2.2).2.pages.isSome = true ∧
      (drm_gem_shmem_unpin (drm_gem_shmem_unpin
        (drm_gem_shmem_pin l2 e2 (drm_gem_shmem_pin l1 e1 shmem).2.2).2.2).2).2.pages = none ∧
      (drm_gem_shmem_unpin (drm_gem_shmem_unpin
        (drm_gem_shmem_pin l2 e2 (drm_gem_shmem_pin l1 e1 shmem).2.2).2.2).2).2.pages_use_count = 0) := by
  constructor
  · intro cenv size shmem s ops hc hops hrun
    have h0 : resident_iff_pinned shmem := by
      rw [create_ok cenv size shmem hc]; simp [resident_iff_pinned, shmem_fresh]
    have h := pin_run_keeps_resident_iff ops shmem s hops hrun h0
    exact ⟨h.2, h.1⟩
  · intro cenv size shmem l1 l2 e1 e2 hc h1 h2
    have hf := create_ok cenv size shmem hc
    -- the first pin
    have hl1 : l1 = 0 := by
      by_contra hl; simp [drm_gem_shmem_pin, hl] at h1
    have hl2 : l2 = 0 := by
      by_contra hl; simp [drm_gem_shmem_pin, hl] at h2
    subst hl1 hl2
    simp only [drm_gem_shmem_pin, drm_gem_shmem_pin_locked, ne_eq, not_true_eq_false, if_false,
      drm_gem_shmem_unpin, drm_gem_shmem_unpin_locked] at h1 h2 ⊢
    obtain ⟨-, -, -, -, -, hg1⟩ := get_pages_cases e1 shmem
    have hcnt0 : shmem.pages_use_count = 0 := by rw [hf]; rfl
    have h11 : u32 (1 + 1) = 2 := by decide
    rcases hg1 with ⟨h0, -⟩ | ⟨-, -, hc1, hp1, -⟩ | ⟨-, hr, -⟩
    · omega
    · obtain ⟨-, -, -, -, -, hg2⟩ := get_pages_cases e2 (drm_gem_shmem_get_pages e1 shmem).shmem
      rcases hg2 with ⟨-, -, hc2, hp2, -⟩ | ⟨h0, -⟩ | ⟨h0, -⟩
      · rw [hc1, h11] at hc2
        obtain ⟨-, -, -, -, -, -, hq1, hqc1⟩ :=
          put_pages_cases (drm_gem_shmem_get_pages e2 (drm_gem_shmem_get_pages e1 shmem).shmem).shmem
        rcases hqc1 with ⟨hz, -⟩ | ⟨-, -, hpp1⟩ | ⟨hz, -⟩
        · omega
        · rw [hc2] at hq1
          obtain ⟨-, -, -, -, -, -, hq2, hqc2⟩ := put_pages_cases (drm_gem_shmem_put_pages
            (drm_gem_shmem_get_pages e2 (drm_gem_shmem_get_pages e1 shmem).shmem).shmem).2
          refine ⟨by rw [hpp1, hp2, hp1], ?_, by rw [hq2, hq1]⟩
          rcases hqc2 with ⟨hz, -⟩ | ⟨hz, -⟩ | ⟨-, -, hpp2⟩
          · omega
          · omega
          · exact hpp2
        · omega
      · omega
      · omega
    · rw [hr] at h1; simp [ENOMEM] at h1

/-- C7 as amended, on a 16 KiB buffer: pinned twice and unpinned once it is resident,
unpinned again it is released. -/
theorem pages_resident_iff_pinned_witness :
    (drm_gem_shmem_unpin (drm_gem_shmem_pin 0 (get_pages_env_ok 104 4)
      (drm_gem_shmem_pin 0 (get_pages_env_ok 100 4) (shmem_fresh 16384)).2.2).2.2).2.pages.isSome
        = true ∧
    (drm_gem_shmem_unpin (drm_gem_shmem_unpin (drm_gem_shmem_pin 0 (get_pages_env_ok 104 4)
      (drm_gem_shmem_pin 0 (get_pages_env_ok 100 4) (shmem_fresh 16384)).2.2).2.2).2).2.pages
        = none ∧
    (drm_gem_shmem_unpin (drm_gem_shmem_unpin (drm_gem_shmem_pin 0 (get_pages_env_ok 104 4)
      (drm_gem_shmem_pin 0 (get_pages_env_ok 100 4) (shmem_fresh 16384)).2.2).2.2).2).2.pages_use_count
        = 0 :=
  pages_resident_iff_pinned.2 create_env_ok 16384 (shmem_fresh 16384) 0 0
    (get_pages_env_ok 100 4) (get_pages_env_ok 104 4) rfl (by decide) (by decide)

/-- C1 fails as stated: on a fresh 16 KiB buffer a successful `vmap` followed by
`put_pages` ends with `vmap_use_count = 1` and `pages_use_count = 0`. -/
theorem vmap_then_put_pages_unpins :
    (shmem_run [shmem_op.vmap (vmap_env_ok 100 4 0xffffff8000000000), shmem_op.put_pages]
      (shmem_fresh 16384)).map (fun s => (s.vmap_use_count, s.pages_use_count)) = some (1, 0) := by
  decide

/-- C1 as amended: in every state reached from a freshly created NativelyOwned buffer
by a sequence of the manager's operations (`get_pages` / `pin`, `put_pages` / `unpin`,
`vmap`, `vunmap`, `madvise`, purge), each succeeding or failing, in which the callers
keep the contract (`put_pages` / `unpin` only gives back a pin taken by an earlier
successful `get_pages` / `pin`; purge is called only when its precondition holds: the
buffer is not Normal, `pages_use_count = 0` and `vmap_use_count = 0`) and no
`get_pages`, `pin` or `vmap` is called while a use count it increments has reached
`2^32 - 1` (the counts are `unsigned int` and would wrap around),
`vmap_use_count > 0` implies `pages_use_count > 0` (and the state is the one the plain
run of the same calls ends in). -/
theorem vmap_implies_pinned_under_contract (cenv : create_env) (size : Nat)
    (shmem s : drm_gem_shmem_object) (ops : List shmem_op) (pins : Nat)
    (hcreate : drm_gem_shmem_create cenv size = Except.ok shmem)
    (hrun : shmem_run_checked ops (shmem, 0) = some (s, pins)) :
    shmem_run ops shmem = some s ∧ (0 < s.vmap_use_count → 0 < s.pages_use_count) := by
  have h0 : pins_accounted shmem 0 := by
    rw [create_ok cenv size shmem hcreate]; simp [pins_accounted, shmem_fresh]
  have h := run_checked_accounted ops shmem s 0 pins hrun h0
  refine ⟨h.2, fun hv => ?_⟩
  have := h.1.2
  simp only [hv, if_true] at this
  omega


/-- C1 as amended, on a 16 KiB buffer that is mapped, pinned and unpinned again. -/
theorem vmap_implies_pinned_under_contract_witness :
    shmem_run [shmem_op.vmap (vmap_env_ok 100 4 0xffffff8000000000),
        shmem_op.pin 0 (get_pages_env_ok 0 0), shmem_op.unpin] (shmem_fresh 16384)
      = some (drm_gem_shmem_unpin (drm_gem_shmem_pin 0 (get_pages_env_ok 0 0)
          (drm_gem_shmem_vmap (vmap_env_ok 100 4 0xffffff8000000000)
            (shmem_fresh 16384) none).shmem).2.2).2 ∧
    (0 < (drm_gem_shmem_unpin (drm_gem_shmem_pin 0 (get_pages_env_ok 0 0)
          (drm_gem_shmem_vmap (vmap_env_ok 100 4 0xffffff8000000000)
            (shmem_fresh 16384) none).shmem).2.2).2.vmap_use_count →
      0 < (drm_gem_shmem_unpin (drm_gem_shmem_pin 0 (get_pages_env_ok 0 0)
          (drm_gem_shmem_vmap (vmap_env_ok 100 4 0xffffff8000000000)
            (shmem_fresh 16384) none).shmem).2.2).2.pages_use_count) :=
  vmap_implies_pinned_under_contract create_env_ok 16384 (shmem_fresh 16384) _
    [shmem_op.vmap (vmap_env_ok 100 4 0xffffff8000000000),
      shmem_op.pin 0 (get_pages_env_ok 0 0), shmem_op.unpin] 0 rfl (by decide)

/-- C8 fails as stated: on the resident 16 KiB buffer with `pages_use_count = 2^32 - 1`
(reached by that many `get_pages` calls) one more `get_pages` returns 0 and wraps the
count around to 0; the one `put_pages` that follows finds the count 0 and leaves it, so
the count ends at 0 and not at `2^32 - 1`. -/
theorem get_put_at_uint_max_loses_count :
    shmem_run (List.replicate UINT_MAX (shmem_op.get_pages (get_pages_env_ok 100 4)))
      (shmem_fresh 16384) = some (shmem_pinned UINT_MAX) ∧
    (shmem_pinned UINT_MAX).import_attach = false ∧
    (shmem_pinned UINT_MAX).pages_use_count = 4294967295 ∧
    (get_pages_all [get_pages_env_ok 100 4] (shmem_pinned UINT_MAX)).map
        (fun s1 => (s1.pages_use_count, (put_pages_n 1 s1).pages_use_count)) = some (0, 0) := by
  exact ⟨pinned_max_reachable, by decide, by decide, by decide⟩

/-- C8 as amended: for every buffer (NativelyOwned in particular) and every `n` (`n ≥ 1`
in particular) with `pages_use_count + n ≤ 2^32 - 1`: `n` successful `get_pages` calls
followed by `n` `put_pages` calls leave `pages_use_count` equal to its value before the
first call. -/
theorem get_put_round_trip_count (envs : List get_pages_env) (shmem s1 : drm_gem_shmem_object)
    (hbound : shmem.pages_use_count + envs.length ≤ UINT_MAX)
    (hget : get_pages_all envs shmem = some s1) :
    (put_pages_n envs.length s1).pages_use_count = shmem.pages_use_count := by
  rw [put_pages_n_count, get_pages_all_count envs shmem s1 hbound hget]; omega

/-- C8 as amended, on a fresh 16 KiB buffer with `n = 3`. -/
theorem get_put_round_trip_count_witness :
    (put_pages_n 3 ((drm_gem_shmem_get_pages (get_pages_env_ok 0 0)
      (drm_gem_shmem_get_pages (get_pages_env_ok 0 0)
        (drm_gem_shmem_get_pages (get_pages_env_ok 100 4) (shmem_fresh 16384)).shmem).shmem).shmem)
      ).pages_use_count = 0 :=
  get_put_round_trip_count [get_pages_env_ok 100 4, get_pages_env_ok 0 0, get_pages_env_ok 0 0]
    (shmem_fresh 16384) _ (by decide) (by decide)

/-- C9 (the code at the failing input): `drm_gem_shmem_put_pages` never changes the
scatter-gather table; so on a fresh 16 KiB buffer (`pages_use_count = 0`, no
scatter-gather table) a successful `get_pages` followed by `put_pages` brings
`pages_use_count` back to 0 and clears the page array, but the scatter-gather table
that `get_pages` installed is still there. -/
theorem put_pages_leaves_sg_table :
    (∀ shmem : drm_gem_shmem_object, (drm_gem_shmem_put_pages shmem).2.sgt = shmem.sgt) ∧
    (shmem_fresh 16384).pages_use_count = 0 ∧ (shmem_fresh 16384).sgt = none ∧
    (drm_gem_shmem_get_pages (get_pages_env_ok 100 4) (shmem_fresh 16384)).ret = 0 ∧
    (drm_gem_shmem_put_pages
      (drm_gem_shmem_get_pages (get_pages_env_ok 100 4) (shmem_fresh 16384)).shmem).2.pages_use_count
        = 0 ∧
    (drm_gem_shmem_put_pages
      (drm_gem_shmem_get_pages (get_pages_env_ok 100 4) (shmem_fresh 16384)).shmem).2.pages = none ∧
    (drm_gem_shmem_put_pages
      (drm_gem_shmem_get_pages (get_pages_env_ok 100 4) (shmem_fresh 16384)).shmem).2.sgt
      = some { sgl := [{ page := 100, length := 16384, offset := 0 }], nents := 1, orig_nents := 1 } := by
  refine ⟨fun shmem => (put_pages_cases shmem).2.2.2.2.1, ?_⟩
  decide

/-- C10 fails as stated: a buffer pinned once, with `madv = 0`, violates the
precondition of purge, yet purge is carried out on it: it warns, and afterwards the
scatter-gather table is gone, `pages_use_count` is 0 and `madv` is -1. -/
theorem purge_of_pinned_is_carried_out :
    (drm_gem_shmem_get_pages (get_pages_env_ok 100 4) (shmem_fresh 16384)).shmem.pages_use_count = 1 ∧
    (drm_gem_shmem_get_pages (get_pages_env_ok 100 4) (shmem_fresh 16384)).shmem.madv = 0 ∧
    (drm_gem_shmem_get_pages (get_pages_env_ok 100 4) (shmem_fresh 16384)).shmem.sgt ≠ none ∧
    drm_gem_shmem_is_purgeable
      (drm_gem_shmem_get_pages (get_pages_env_ok 100 4) (shmem_fresh 16384)).shmem = false ∧
    (drm_gem_shmem_purge
      (drm_gem_shmem_get_pages (get_pages_env_ok 100 4) (shmem_fresh 16384)).shmem).map
        (fun r => (r.1, r.2.sgt, r.2.pages_use_count, r.2.madv)) = some (true, none, 0, -1) := by
  decide

/-- C10 as amended: purge on a buffer that has a scatter-gather table and violates the
precondition is reported (the warning fires) and is carried out all the same: the
table is cleared, `madv` becomes -1 (Purged), `pages_use_count` is decremented (the page
array is released when it was 1), the CPU mapping is left as it is. -/
theorem purge_warns_and_proceeds (shmem : drm_gem_shmem_object) (st : sg_table)
    (hsgt : shmem.sgt = some st) (hviol : drm_gem_shmem_is_purgeable shmem = false) :
    ∃ s1, drm_gem_shmem_purge shmem = some (true, s1) ∧ s1.sgt = none ∧ s1.madv = -1 ∧
      s1.pages_use_count = shmem.pages_use_count - 1 ∧
      s1.vmap_use_count = shmem.vmap_use_count ∧ s1.vaddr = shmem.vaddr ∧
      (shmem.pages_use_count = 1 → s1.pages = none) := by
  unfold drm_gem_shmem_purge
  simp only [hsgt, hviol]
  obtain ⟨-, hv, -, hva, hs, -, hc, hcases⟩ := put_pages_cases { shmem with sgt := none }
  refine ⟨{ (drm_gem_shmem_put_pages { shmem with sgt := none }).2 with
      madv := -1, mmap_offset := false }, by simp, ?_, rfl, ?_, ?_, ?_, ?_⟩
  · simpa using hs
  · simpa using hc
  · simpa using hv
  · simpa using hva
  · intro h1
    rcases hcases with ⟨h0, -⟩ | ⟨h0, -⟩ | ⟨-, -, hp⟩
    · simp at h0; omega
    · simp at h0; omega
    · simpa using hp

/-- C10 as amended, on a 16 KiB buffer pinned once. -/
theorem purge_warns_and_proceeds_witness :
    ∃ s1, drm_gem_shmem_purge
        (drm_gem_shmem_get_pages (get_pages_env_ok 100 4) (shmem_fresh 16384)).shmem
          = some (true, s1) ∧ s1.sgt = none ∧ s1.madv = -1 ∧ s1.pages_use_count = 0 ∧
        s1.vmap_use_count = 0 ∧ s1.vaddr = none ∧ s1.pages = none := by
  obtain ⟨s1, h1, h2, h3, h4, h5, h6, h7⟩ := purge_warns_and_proceeds
    (drm_gem_shmem_get_pages (get_pages_env_ok 100 4) (shmem_fresh 16384)).shmem
    { sgl := [{ page := 100, length := 16384, offset := 0 }], nents := 1, orig_nents := 1 }
    (by decide) (by decide)
  exact ⟨s1, h1, h2, h3, h4, h5, h6, h7 (by decide)⟩


/-- C2 (the code at the failing input): mapping one 16 KiB granule at iova
`0x10000000` to paddr `0x20000000` on the empty pmap succeeds with 16384 bytes mapped;
`iova_to_phys(0x10000100)` is `0x20000100`, but `iova_to_phys(0x10001000)`, an address
`d = 4096 < 16384` bytes into the granule, is `(paddr_t)-1` (unmapped) and not
`0x20001000`: the inner loop enters `curr_vaddr + offset*PAGE_SIZE` with `offset`
already in bytes, so the second page lands at `0x11000000`. -/
theorem map_16k_enters_wrong_pages :
    (arm_lpae_map_pages (fun _ => false) 8 pmap_empty 0x10000000 0x20000000 16384 1).map
        (fun r => (r.1, r.2.1, arm_lpae_iova_to_phys r.2.2 0x10000100,
          arm_lpae_iova_to_phys r.2.2 0x10001000, arm_lpae_iova_to_phys r.2.2 0x11000000))
      = some (0, 16384, 0x20000100, 2 ^ 64 - 1, 0x21000000) := by
  decide

/-- C3: for every 64-bit iova that has no prior mapping, every granule size `g` of at
least a page and every count `n` with `g * n` below `2^64`: after a successful
`map(iova, paddr, g, n)`, `unmap(iova, g, n)` returns `bytes_unmapped = g * n` (given
fuel for its `n` iterations) and a subsequent `iova_to_phys(iova)` reports "unmapped"
(`(paddr_t)-1`). -/
theorem map_unmap_round_trip (fails : Nat → Bool) (fuel fuel1 : Nat) (pm pm1 : pmap)
    (iova paddr g n mapped : Nat)
    (hiova : iova < 2 ^ 64) (hg : PAGE_SIZE ≤ g) (hfit : g * n < 2 ^ 64)
    (hfresh : pmap_extract pm iova = none)
    (hmap : arm_lpae_map_pages fails fuel pm iova paddr g n = some (0, mapped, pm1))
    (hfuel : n < fuel1) :
    ∃ pm2, arm_lpae_unmap_pages fuel1 pm1 iova g n = some (g * n, pm2) ∧
      arm_lpae_iova_to_phys pm2 iova = 2 ^ 64 - 1 := by
  have hw : w64 (g * n) = g * n := by unfold w64; exact Nat.mod_eq_of_lt hfit
  have htr : trunc_page iova / PAGE_SIZE = iova / PAGE_SIZE := by
    unfold trunc_page PAGE_SIZE; omega
  have htlt : trunc_page iova < 2 ^ 64 := by
    unfold trunc_page PAGE_SIZE; omega
  obtain ⟨pm2, hpm2⟩ := unmap_loop_terminates (trunc_page iova) g n hfit fuel1 0 pm1
    (Nat.zero_le _) (by omega)
  rw [Nat.mul_zero] at hpm2
  refine ⟨pm2, ?_, ?_⟩
  · unfold arm_lpae_unmap_pages __arm_lpae_unmap
    simp only [hw, hpm2, Option.map_some']
  · have hnone : pm2.tr (iova / PAGE_SIZE) = none := by
      rcases Nat.eq_zero_or_pos n with hn | hn
      · -- nothing was mapped and nothing is unmapped
        subst hn
        have hpm1 : pm1 = pm := by
          unfold arm_lpae_map_pages __arm_lpae_map at hmap
          cases fuel with
          | zero => simp [arm_lpae_map_outer] at hmap
          | succ fuel =>
            unfold arm_lpae_map_outer at hmap
            simp only [Nat.mul_zero, w64, Nat.zero_mod, lt_irrefl, if_false, Option.some.injEq,
              Prod.mk.injEq] at hmap
            exact hmap.2.2.symm
        have hpm2' : pm2 = pm1 := by
          cases fuel1 with
          | zero => omega
          | succ fuel1 =>
            unfold arm_lpae_unmap_loop at hpm2
            simp only [Nat.mul_zero, lt_irrefl, if_false, Option.some.injEq] at hpm2
            exact hpm2.symm
        rw [hpm2', hpm1]
        unfold pmap_extract at hfresh
        simpa using hfresh
      · cases fuel1 with
        | zero => omega
        | succ fuel1 =>
          unfold arm_lpae_unmap_loop at hpm2
          have hpos : 0 < g * n := Nat.mul_pos (by unfold PAGE_SIZE at hg; omega) hn
          rw [if_pos hpos] at hpm2
          apply unmap_loop_none _ _ _ _ _ _ _ _ hpm2
          have h0 : w64 (trunc_page iova + 0) = trunc_page iova := by
            unfold w64; rw [Nat.add_zero]; exact Nat.mod_eq_of_lt htlt
          rw [h0, ← htr]
          exact kremove_first pm1 (trunc_page iova) g hg
    unfold arm_lpae_iova_to_phys pmap_extract
    rw [hnone]; rfl

/-- C3 for the 16 KiB granule mapped at `0x10000000`. -/
theorem map_unmap_round_trip_witness :
    ∃ pm2, arm_lpae_unmap_pages 2 pmap_after_map_16k 0x10000000 16384 1 = some (16384 * 1, pm2) ∧
      arm_lpae_iova_to_phys pm2 0x10000000 = 2 ^ 64 - 1 :=
  map_unmap_round_trip (fun _ => false) 8 2 pmap_empty pmap_after_map_16k
    0x10000000 0x20000000 16384 1 16384 (by decide) (by decide) (by decide) rfl rfl (by decide)

/-- C4 (the code at the failing input): `arm_lpae_map_pages` never returns `EEXIST`;
and with `0x10000000` mapped to `0x20000000` (one 4 KiB page), a second map of
`0x10000000` to the conflicting paddr `0x30000000` returns 0 and
`iova_to_phys(0x10000000)` changes from `0x20000000` to `0x30000000`. -/
theorem map_over_live_mapping_replaces_it :
    (∀ (fails : Nat → Bool) (fuel : Nat) (pm : pmap) (iova paddr g n : Nat) (r : Nat × Nat × pmap),
      arm_lpae_map_pages fails fuel pm iova paddr g n = some r → (r.1 : Int) ≠ EEXIST) ∧
    ((arm_lpae_map_pages (fun _ => false) 8 pmap_empty 0x10000000 0x20000000 4096 1).bind
        (fun r1 => (arm_lpae_map_pages (fun _ => false) 8 r1.2.2 0x10000000 0x30000000 4096 1).map
          (fun r2 => (r1.1, arm_lpae_iova_to_phys r1.2.2 0x10000000,
            r2.1, arm_lpae_iova_to_phys r2.2.2 0x10000000))))
      = some (0, 0x20000000, 0, 0x30000000) := by
  constructor
  · intro fails fuel pm iova paddr g n r h
    unfold arm_lpae_map_pages __arm_lpae_map at h
    rcases map_outer_error _ _ _ _ _ _ _ _ _ _ _ _ h with h0 | h0 <;> rw [h0] <;> decide
  · decide


/-- C11 (the code at the failing input): the compiled `drm_gem_shmem_fault` returns 0
for every fault, so it never signals an access violation; the variant under
`#ifdef __linux__` returns `VM_FAULT_SIGBUS` whenever the offset is not below the size,
the page array is absent or the buffer is Purged. On the 16 KiB buffer that was
pinned, advised `DoNotNeed`, unpinned and purged, a fault at offset 0 returns 0 from the
compiled function and `VM_FAULT_SIGBUS` from the variant that is not compiled. -/
theorem fault_never_signals :
    (∀ (shmem : drm_gem_shmem_object) (offset : Nat), drm_gem_shmem_fault shmem offset = 0) ∧
    (∀ (insert_ret : Nat) (shmem : drm_gem_shmem_object) (offset : Nat),
      (shmem.size ≤ offset ∨ shmem.pages = none ∨ shmem.madv < 0) →
        drm_gem_shmem_fault_linux insert_ret shmem offset = VM_FAULT_SIGBUS) ∧
    shmem_run [shmem_op.get_pages (get_pages_env_ok 100 4), shmem_op.madvise 1,
        shmem_op.put_pages, shmem_op.purge] (shmem_fresh 16384) = some shmem_purged ∧
    drm_gem_shmem_fault shmem_purged 0 = 0 ∧ VM_FAULT_SIGBUS ≠ 0 ∧
    drm_gem_shmem_fault_linux 0 shmem_purged 0 = VM_FAULT_SIGBUS := by
  refine ⟨fun _ _ => rfl, ?_, by decide, rfl, by decide, by decide⟩
  intro insert_ret shmem offset h
  unfold drm_gem_shmem_fault_linux
  simp only
  rw [if_pos]
  rcases h with h | h | h
  · left
    rw [Nat.shiftRight_eq_div_pow, Nat.shiftRight_eq_div_pow]
    exact Nat.div_le_div_right h
  · exact Or.inr (Or.inl h)
  · exact Or.inr (Or.inr h)

/-- C13 (the code at the failing input): for every Imported buffer, when the
exporter's `dma_buf_vmap` succeeds (returns 0), `drm_gem_shmem_vmap` unmaps again with
`dma_buf_vunmap`, returns `-EIO` and hands back no mapping; so on the imported 16 KiB
buffer, with the exporter mapping it at `0xffffff8000000000` (the four frames taken for
that mapping stay held). -/
theorem import_vmap_reports_failure :
    (∀ (env : vmap_env) (shmem : drm_gem_shmem_object) (map : Option Nat),
      shmem.import_attach = true →
      (dma_buf_vmap env.dma_buf shmem.dma_buf_size map).ret = 0 →
        (drm_gem_shmem_vmap env shmem map).ret = - EIO ∧
        (drm_gem_shmem_vmap env shmem map).map = none) ∧
    dma_buf_vmap (vmap_env_ok 100 4 0xffffff8000000000).dma_buf shmem_imported.dma_buf_size none
      = { ret := 0, map := some 0xffffff8000000000, held := [100, 101, 102, 103],
          freed := [] } ∧
    drm_gem_shmem_vmap (vmap_env_ok 100 4 0xffffff8000000000) shmem_imported none
      = { ret := - EIO, map := none, shmem := shmem_imported, warned := false,
          held := [100, 101, 102, 103] } := by
  refine ⟨?_, by decide, by decide⟩
  intro env shmem map hi h0
  unfold drm_gem_shmem_vmap
  rw [if_pos hi]
  simp only [h0, if_true, true_and]
  -- the mapping the exporter made is removed again
  unfold dma_buf_vunmap
  cases (dma_buf_vmap env.dma_buf shmem.dma_buf_size map).map <;> rfl

/-- C15: `put_pages` on a buffer whose `pages_use_count` is 0 reports the contract
violation (the warning fires) and leaves the object as it is, so the count stays 0 and
the page array is not touched; for a count `k > 0` there is no warning and the count
becomes exactly `k - 1`. -/
theorem put_pages_guards_zero (shmem : drm_gem_shmem_object) :
    (shmem.pages_use_count = 0 → drm_gem_shmem_put_pages shmem = (true, shmem)) ∧
    (0 < shmem.pages_use_count →
      (drm_gem_shmem_put_pages shmem).1 = false ∧
      (drm_gem_shmem_put_pages shmem).2.pages_use_count + 1 = shmem.pages_use_count) := by
  obtain ⟨-, -, -, -, -, -, hc, hcases⟩ := put_pages_cases shmem
  constructor
  · intro h0
    rcases hcases with ⟨-, he⟩ | ⟨h1, -⟩ | ⟨h1, -⟩
    · exact he
    · omega
    · omega
  · intro hpos
    rcases hcases with ⟨h0, -⟩ | ⟨-, hw, -⟩ | ⟨-, hw, -⟩
    · omega
    · exact ⟨hw, by omega⟩
    · exact ⟨hw, by omega⟩

/-- C15 on a fresh buffer, which is not pinned. -/
theorem put_pages_guards_zero_witness :
    drm_gem_shmem_put_pages (shmem_fresh 16384) = (true, shmem_fresh 16384) :=
  (put_pages_guards_zero (shmem_fresh 16384)).1 (by decide)

/-- C16 fails as stated: `vmap_use_count` is an `unsigned int`; on the mapped 16 KiB
buffer with `vmap_use_count = 2^32 - 1` (reached by that many `vmap` calls) one more
`vmap` returns 0 and the count wraps around to 0. -/
theorem vmap_at_uint_max_wraps :
    shmem_run (List.replicate UINT_MAX (shmem_op.vmap (vmap_env_ok 100 4 0xffffff8000000000)))
      (shmem_fresh 16384) = some (shmem_mapped UINT_MAX) ∧
    (shmem_mapped UINT_MAX).import_attach = false ∧
    (shmem_mapped UINT_MAX).vmap_use_count = 4294967295 ∧
    ((drm_gem_shmem_vmap (vmap_env_ok 100 4 0xffffff8000000000) (shmem_mapped UINT_MAX) none).ret,
     (drm_gem_shmem_vmap (vmap_env_ok 100 4 0xffffff8000000000)
        (shmem_mapped UINT_MAX) none).shmem.vmap_use_count) = (0, 0) := by
  exact ⟨mapped_max_reachable, by decide, by decide, by decide⟩

/-- C16 as amended: `vmap` on a NativelyOwned buffer with
`0 < vmap_use_count < 2^32 - 1` succeeds (returns 0), returns the CPU address that is
already there, increments `vmap_use_count` by exactly one and leaves `pages_use_count`,
the stored CPU address and everything else unchanged. -/
theorem vmap_again_returns_mapping (env : vmap_env) (shmem : drm_gem_shmem_object)
    (map : Option Nat) (hnative : shmem.import_attach = false)
    (hmapped : 0 < shmem.vmap_use_count) (hbound : shmem.vmap_use_count < UINT_MAX) :
    (drm_gem_shmem_vmap env shmem map).ret = 0 ∧
    (drm_gem_shmem_vmap env shmem map).map = shmem.vaddr ∧
    (drm_gem_shmem_vmap env shmem map).shmem.vmap_use_count = shmem.vmap_use_count + 1 ∧
    (drm_gem_shmem_vmap env shmem map).shmem.pages_use_count = shmem.pages_use_count ∧
    (drm_gem_shmem_vmap env shmem map).shmem.vaddr = shmem.vaddr ∧
    (drm_gem_shmem_vmap env shmem map).shmem
      = { shmem with vmap_use_count := shmem.vmap_use_count + 1 } := by
  have hni : ¬ (shmem.import_attach = true) := by simp [hnative]
  unfold drm_gem_shmem_vmap
  rw [if_neg hni, if_pos hmapped, u32_succ _ hbound]
  exact ⟨rfl, rfl, rfl, rfl, rfl, rfl⟩

/-- C16 as amended, on a 16 KiB buffer mapped at `0xffffff8000000000`: the second `vmap`
returns that address. -/
theorem vmap_again_returns_mapping_witness :
    (drm_gem_shmem_vmap (vmap_env_ok 0 0 0)
      (drm_gem_shmem_vmap (vmap_env_ok 100 4 0xffffff8000000000) (shmem_fresh 16384) none).shmem
      none).map = some 0xffffff8000000000 := by
  have h := vmap_again_returns_mapping (vmap_env_ok 0 0 0)
    (drm_gem_shmem_vmap (vmap_env_ok 100 4 0xffffff8000000000) (shmem_fresh 16384) none).shmem
    none (by decide) (by decide) (by decide)
  rw [h.2.1]; decide

/-- C17 fails as stated: `pages_use_count` is an `unsigned int`; on the resident 16 KiB
buffer with `vmap_use_count = 0` and `pages_use_count = 2^32 - 1` (reached by that many
`get_pages` calls), a `vmap` whose `vmap()` returns `NULL` fails with `-ENOMEM` and
leaves `pages_use_count = 0`: the increment in `get_pages` wrapped the count around to
0, and the `put_pages` of the error path found it 0. -/
theorem vmap_failure_at_uint_max_loses_count :
    shmem_run (List.replicate UINT_MAX (shmem_op.get_pages (get_pages_env_ok 100 4)))
      (shmem_fresh 16384) = some (shmem_pinned UINT_MAX) ∧
    (shmem_pinned UINT_MAX).import_attach = false ∧
    ((shmem_pinned UINT_MAX).vmap_use_count, (shmem_pinned UINT_MAX).pages_use_count)
      = (0, 4294967295) ∧
    ((drm_gem_shmem_vmap { vmap_env_ok 100 4 0 with vmap := none } (shmem_pinned UINT_MAX) none).ret,
     (drm_gem_shmem_vmap { vmap_env_ok 100 4 0 with vmap := none }
        (shmem_pinned UINT_MAX) none).shmem.vmap_use_count,
     (drm_gem_shmem_vmap { vmap_env_ok 100 4 0 with vmap := none }
        (shmem_pinned UINT_MAX) none).shmem.pages_use_count) = (- ENOMEM, 0, 0) := by
  exact ⟨pinned_max_reachable, by decide, by decide, by decide⟩

/-- C17 as amended: whenever `vmap` on a NativelyOwned buffer with `vmap_use_count = 0`
and `pages_use_count < 2^32 - 1` fails (`get_pages` fails, or `vmap()` cannot create the
CPU mapping), it returns a negative error, which is `-ENOMEM`, and both
`vmap_use_count` and `pages_use_count` have the values they had before the call. -/
theorem vmap_failure_restores_counts (env : vmap_env) (shmem : drm_gem_shmem_object)
    (map : Option Nat) (hnative : shmem.import_attach = false)
    (hunmapped : shmem.vmap_use_count = 0) (hbound : shmem.pages_use_count < UINT_MAX)
    (hfail : (drm_gem_shmem_vmap env shmem map).ret ≠ 0) :
    (drm_gem_shmem_vmap env shmem map).ret < 0 ∧
    (drm_gem_shmem_vmap env shmem map).ret = - ENOMEM ∧
    (drm_gem_shmem_vmap env shmem map).shmem.vmap_use_count = shmem.vmap_use_count ∧
    (drm_gem_shmem_vmap env shmem map).shmem.pages_use_count = shmem.pages_use_count := by
  have hni : ¬ (shmem.import_attach = true) := by simp [hnative]
  have hv : ¬ (shmem.vmap_use_count > 0) := by omega
  unfold drm_gem_shmem_vmap at hfail ⊢
  rw [if_neg hni, if_neg hv] at hfail ⊢
  have hg := get_pages_cases env.get_pages
    { shmem with vmap_use_count := u32 (shmem.vmap_use_count + 1) }
  simp only at hg
  generalize drm_gem_shmem_get_pages env.get_pages
    { shmem with vmap_use_count := u32 (shmem.vmap_use_count + 1) } = g at hg hfail ⊢
  obtain ⟨-, -, -, -, -, hc⟩ := hg
  by_cases hr : g.ret ≠ 0
  · rw [if_pos hr] at hfail ⊢
    rcases hc with ⟨-, hr0, -⟩ | ⟨-, hr0, -⟩ | ⟨h0, hre, hc0, -⟩
    · exact absurd hr0 hr
    · exact absurd hr0 hr
    · refine ⟨by simp only [hre, ENOMEM]; decide, hre, hunmapped.symm, ?_⟩
      simp only [hc0, h0]
  · rw [if_neg hr] at hfail ⊢
    cases hvm : env.vmap with
    | none =>
      simp only [hvm] at hfail ⊢
      have hp := put_pages_cases { g.shmem with vaddr := none }
      simp only at hp
      generalize drm_gem_shmem_put_pages { g.shmem with vaddr := none } = q at hp ⊢
      obtain ⟨-, -, -, -, -, -, hpc, -⟩ := hp
      refine ⟨by simp only [ENOMEM]; decide, trivial, hunmapped.symm, ?_⟩
      simp only [hpc]
      rcases hc with ⟨-, -, hc1, -⟩ | ⟨h0, -, hc1, -⟩ | ⟨-, hre, -⟩
      · rw [u32_succ _ hbound] at hc1; omega
      · omega
      · have h0 : g.ret = 0 := by simpa using hr
        rw [hre] at h0
        simp [ENOMEM] at h0
    | some vaddr =>
      simp only [hvm] at hfail
      exact absurd rfl hfail

/-- C17 as amended, on a fresh 16 KiB buffer for which `vmap()` returns `NULL`. -/
theorem vmap_failure_restores_counts_witness :
    (drm_gem_shmem_vmap { vmap_env_ok 100 4 0 with vmap := none } (shmem_fresh 16384) none).ret
      = - ENOMEM ∧
    (drm_gem_shmem_vmap { vmap_env_ok 100 4 0 with vmap := none }
      (shmem_fresh 16384) none).shmem.vmap_use_count = 0 ∧
    (drm_gem_shmem_vmap { vmap_env_ok 100 4 0 with vmap := none }
      (shmem_fresh 16384) none).shmem.pages_use_count = 0 := by
  have h := vmap_failure_restores_counts { vmap_env_ok 100 4 0 with vmap := none }
    (shmem_fresh 16384) none (by decide) (by decide) (by decide) (by decide)
  exact ⟨h.2.1, h.2.2.1, h.2.2.2⟩

/-- C18 fails as stated: a 16 KiB buffer that was mapped and then unpinned with
`put_pages` has `vmap_use_count = 1` and `pages_use_count = 0`; `vunmap` on it reports
the contract violation of the nested `put_pages`, `vmap_use_count` becomes 0 and
`pages_use_count` stays 0: it is not decremented by one. -/
theorem vunmap_of_unpinned_keeps_count :
    (shmem_run [shmem_op.vmap (vmap_env_ok 100 4 0xffffff8000000000), shmem_op.put_pages]
      (shmem_fresh 16384)).map (fun s => (s.vmap_use_count, s.pages_use_count,
        (drm_gem_shmem_vunmap s none).1, (drm_gem_shmem_vunmap s none).2.2.vmap_use_count,
        (drm_gem_shmem_vunmap s none).2.2.pages_use_count)) = some (1, 0, true, 0, 0) := by
  decide

/-- C18 as amended: `vunmap` on a NativelyOwned buffer with `vmap_use_count = n`: if
`n = 0` it reports a contract violation and the object is unchanged; if `n > 1`,
`vmap_use_count` becomes `n - 1` and nothing else changes (the mapping is not removed);
if `n = 1`, `vmap_use_count` becomes 0, the CPU address is cleared and `put_pages` is
applied: a positive `pages_use_count` is decremented by exactly one without warning, a
`pages_use_count` of 0 stays 0 and the contract violation is reported. -/
theorem vunmap_by_use_count (shmem : drm_gem_shmem_object) (map : Option Nat)
    (hnative : shmem.import_attach = false) :
    (shmem.vmap_use_count = 0 → drm_gem_shmem_vunmap shmem map = (true, map, shmem)) ∧
    (1 < shmem.vmap_use_count →
      drm_gem_shmem_vunmap shmem map
        = (false, map, { shmem with vmap_use_count := shmem.vmap_use_count - 1 })) ∧
    (shmem.vmap_use_count = 1 →
      (drm_gem_shmem_vunmap shmem map).2.2.vmap_use_count = 0 ∧
      (drm_gem_shmem_vunmap shmem map).2.2.vaddr = none ∧
      (0 < shmem.pages_use_count →
        (drm_gem_shmem_vunmap shmem map).1 = false ∧
        (drm_gem_shmem_vunmap shmem map).2.2.pages_use_count + 1 = shmem.pages_use_count) ∧
      (shmem.pages_use_count = 0 →
        (drm_gem_shmem_vunmap shmem map).1 = true ∧
        (drm_gem_shmem_vunmap shmem map).2.2.pages_use_count = 0)) := by
  have hni : ¬ (shmem.import_attach = true) := by simp [hnative]
  unfold drm_gem_shmem_vunmap
  rw [if_neg hni]
  refine ⟨fun h0 => by rw [if_pos h0], fun h1 => ?_, fun h1 => ?_⟩
  · have hv0 : ¬ (shmem.vmap_use_count = 0) := by omega
    have hv1 : shmem.vmap_use_count - 1 > 0 := by omega
    rw [if_neg hv0, if_pos hv1]
  · have hv0 : ¬ (shmem.vmap_use_count = 0) := by omega
    have hv1 : ¬ (shmem.vmap_use_count - 1 > 0) := by omega
    rw [if_neg hv0, if_neg hv1]
    have hp := put_pages_guards_zero_aux { shmem with vmap_use_count := shmem.vmap_use_count - 1 }
    have hq := put_pages_cases { shmem with vmap_use_count := shmem.vmap_use_count - 1 }
    simp only at hp hq
    generalize drm_gem_shmem_put_pages { shmem with vmap_use_count := shmem.vmap_use_count - 1 }
      = q at hp hq ⊢
    obtain ⟨-, hqv, -, -, -, -, hqc, -⟩ := hq
    refine ⟨by simp only [hqv]; omega, rfl, fun hpos => ?_, fun hz => ?_⟩
    · exact hp.2 hpos
    · have := hp.1 hz
      exact ⟨this, by simp only [hqc]; omega⟩

/-- C18 as amended, on a 16 KiB buffer mapped once: `vunmap` clears the mapping and
gives back the pin. -/
theorem vunmap_by_use_count_witness :
    (drm_gem_shmem_vunmap (drm_gem_shmem_vmap (vmap_env_ok 100 4 0xffffff8000000000)
      (shmem_fresh 16384) none).shmem none).2.2.vmap_use_count = 0 ∧
    (drm_gem_shmem_vunmap (drm_gem_shmem_vmap (vmap_env_ok 100 4 0xffffff8000000000)
      (shmem_fresh 16384) none).shmem none).2.2.vaddr = none ∧
    (drm_gem_shmem_vunmap (drm_gem_shmem_vmap (vmap_env_ok 100 4 0xffffff8000000000)
      (shmem_fresh 16384) none).shmem none).2.2.pages_use_count + 1 = 1 := by
  have h := (vunmap_by_use_count (drm_gem_shmem_vmap (vmap_env_ok 100 4 0xffffff8000000000)
    (shmem_fresh 16384) none).shmem none (by decide)).2.2 (by decide)
  exact ⟨h.1, h.2.1, (h.2.2.1 (by decide)).2⟩

/-- C12 fails as stated: on a pinned 16 KiB buffer `madvise` with the value -1 makes the
buffer Purged (`madv < 0`) while the scatter-gather table is there and
`pages_use_count = 1`. -/
theorem madvise_purged_keeps_backing :
    (shmem_run [shmem_op.get_pages (get_pages_env_ok 100 4), shmem_op.madvise (-1)]
      (shmem_fresh 16384)).map (fun s => (decide (s.madv < 0), s.sgt.isSome, s.pages_use_count))
      = some (true, true, 1) := by
  decide

/-- C12 as amended: in every state reached from a freshly created buffer by a sequence
of the manager's operations in which the callers keep the contract around purging
(`madvise` does not ask for Purged itself, purge is called only when its precondition
holds, and `get_pages`, `pin` and `vmap` are not called on a Purged buffer), Purged
(`madv < 0`) implies that the buffer has no scatter-gather table and that
`pages_use_count = 0` (and the state is the one the plain run of the same calls ends
in). -/
theorem purged_has_no_backing_under_contract (cenv : create_env) (size : Nat)
    (shmem s : drm_gem_shmem_object) (ops : List shmem_op)
    (hcreate : drm_gem_shmem_create cenv size = Except.ok shmem)
    (hrun : shmem_run_purge_contract ops shmem = some s) :
    shmem_run ops shmem = some s ∧ (s.madv < 0 → s.sgt = none ∧ s.pages_use_count = 0) := by
  have h0 : purged_is_empty shmem := by
    rw [create_ok cenv size shmem hcreate]
    intro h
    simp [shmem_fresh] at h
  have h := run_keeps_purged_is_empty ops shmem s hrun h0
  exact ⟨h.2, h.1⟩

/-- C12 as amended, on the 16 KiB buffer that is pinned, advised `DoNotNeed`, unpinned
and purged. -/
theorem purged_has_no_backing_under_contract_witness :
    shmem_run [shmem_op.get_pages (get_pages_env_ok 100 4), shmem_op.madvise 1,
        shmem_op.put_pages, shmem_op.purge] (shmem_fresh 16384) = some shmem_purged ∧
    (shmem_purged.madv < 0 → shmem_purged.sgt = none ∧ shmem_purged.pages_use_count = 0) :=
  purged_has_no_backing_under_contract create_env_ok 16384 (shmem_fresh 16384) shmem_purged
    [shmem_op.get_pages (get_pages_env_ok 100 4), shmem_op.madvise 1,
      shmem_op.put_pages, shmem_op.purge] rfl (by decide)

/-- C14: whenever `get_pages` fails, with a page source that delivers the frames it is
asked for (a successful `uvm_pglistalloc` for `size` bytes puts `size / PAGE_SIZE`
frames on the list), it fails with `-ENOMEM`, `pages_use_count` is 0 afterwards, and no
frame is held by or attached to the buffer: the call failed at an allocation before the
page list, or `uvm_pglistalloc` itself failed, so no frame was obtained, nothing is
given back and the object is as before but for the count. -/
theorem get_pages_failure_holds_no_frame (env : get_pages_env) (shmem : drm_gem_shmem_object)
    (hsupply : ∀ plist, env.uvm_pglistalloc = some plist → shmem.size / PAGE_SIZE ≤ plist.length)
    (hfail : (drm_gem_shmem_get_pages env shmem).ret ≠ 0) :
    (drm_gem_shmem_get_pages env shmem).ret = - ENOMEM ∧
    (drm_gem_shmem_get_pages env shmem).shmem.pages_use_count = 0 ∧
    (drm_gem_shmem_get_pages env shmem).shmem = { shmem with pages_use_count := 0 } ∧
    (drm_gem_shmem_get_pages env shmem).freed = [] ∧
    (env.mallocarray_ok = false ∨ env.malloc_st_ok = false ∨ env.sg_alloc_table_ok = false ∨
      env.uvm_pglistalloc = none) := by
  unfold drm_gem_shmem_get_pages at hfail ⊢
  by_cases h0 : shmem.pages_use_count > 0
  · rw [if_pos h0] at hfail
    exact absurd rfl hfail
  · rw [if_neg h0] at hfail ⊢
    by_cases h1 : env.mallocarray_ok = true
    · by_cases h2 : env.malloc_st_ok = true
      · by_cases h3 : env.sg_alloc_table_ok = true
        · cases h4 : env.uvm_pglistalloc with
          | none => simp [h1, h2, h3]
          | some plist =>
            -- the page list is long enough for the loop, which therefore ends well
            have hlen := hsupply plist h4
            have hfill := get_pages_fill_ok (shmem.size >>> 14) (shmem.size >>> 14) 0
              { plist := plist, pages := [], uobj := [], sgl := [], nents := 0 } (by
                simp only
                rw [Nat.shiftRight_eq_div_pow]
                unfold PAGE_SIZE at hlen
                omega)
            simp only [h1, h2, h3, h4, not_true_eq_false, if_false, hfill, if_true] at hfail
            exact absurd rfl hfail
        · simp [h1, h2, h3]
      · simp [h1, h2]
    · simp [h1]

/-- C14 on a fresh 16 KiB buffer for which `sg_alloc_table` fails. -/
theorem get_pages_failure_holds_no_frame_witness :
    (drm_gem_shmem_get_pages { get_pages_env_ok 100 4 with sg_alloc_table_ok := false }
      (shmem_fresh 16384)).ret = - ENOMEM ∧
    (drm_gem_shmem_get_pages { get_pages_env_ok 100 4 with sg_alloc_table_ok := false }
      (shmem_fresh 16384)).shmem = { shmem_fresh 16384 with pages_use_count := 0 } := by
  have h := get_pages_failure_holds_no_frame
    { get_pages_env_ok 100 4 with sg_alloc_table_ok := false } (shmem_fresh 16384)
    (by intro plist hp; injection hp with hp; subst hp; decide) (by decide)
  exact ⟨h.1, h.2.2.1⟩

/-- C20 fails as stated: the configuration with 48-bit input and output widths, a
16 KiB granule, no quirks and no custom allocator is rejected although all table memory
can be allocated; `apple_uat_alloc_pgtable` returns `NULL` at its width check before
any allocation. -/
theorem alloc_48_bit_output_rejected :
    (alloc_io_pgtable_ops pgtable_env_ok APPLE_UAT (io_pgtable_cfg_16k 48 48) 7).data = none ∧
    (alloc_io_pgtable_ops pgtable_env_ok APPLE_UAT (io_pgtable_cfg_16k 48 48) 7).log = [] ∧
    pgtable_env_ok.malloc_data ≠ none ∧
    pgtable_env_ok.pages1.succeeds (io_pgtable_cfg_16k 48 48) = true ∧
    pgtable_env_ok.pages2.succeeds (io_pgtable_cfg_16k 48 48) = true := by
  decide

/-- C20 as amended: `alloc_io_pgtable_ops` rejects a configuration, before allocating
anything and without changing it, whenever its input address width exceeds 48 bits or
its output address width exceeds 42 bits; and for the registered format a configuration
with input width at most 48, output width at most 42, no quirks and no custom allocator
is accepted whenever the table memory can be allocated. -/
theorem alloc_checks_widths_48_and_42 :
    (∀ (env : pgtable_env) (fmt : Nat) (cfg : io_pgtable_cfg) (cookie : Nat),
      cfg.ias > 48 ∨ cfg.oas > 42 →
        (alloc_io_pgtable_ops env fmt cfg cookie).data = none ∧
        (alloc_io_pgtable_ops env fmt cfg cookie).cfg = cfg ∧
        (alloc_io_pgtable_ops env fmt cfg cookie).log = []) ∧
    (∀ (env : pgtable_env) (cfg : io_pgtable_cfg) (cookie : Nat),
      cfg.ias ≤ 48 → cfg.oas ≤ 42 → cfg.quirks = 0 → cfg.alloc = false → cfg.free = false →
      env.malloc_data ≠ none → env.pages1.succeeds cfg = true → env.pages2.succeeds cfg = true →
        (alloc_io_pgtable_ops env APPLE_UAT cfg cookie).data ≠ none) := by
  constructor
  · intro env fmt cfg cookie hw
    unfold alloc_io_pgtable_ops
    split_ifs
    · exact ⟨rfl, rfl, rfl⟩
    · exact ⟨rfl, rfl, rfl⟩
    · split
      · exact ⟨rfl, rfl, rfl⟩
      · have hr : apple_uat_alloc_pgtable env cfg cookie = { data := none, cfg := cfg, log := [] } := by
          unfold apple_uat_alloc_pgtable
          split_ifs
          · rfl
          · rfl
        simp only [hr]
        exact ⟨trivial, trivial, trivial⟩
  · intro env cfg cookie hi ho hq ha hf hm h1 h2
    obtain ⟨addr, hma⟩ := Option.ne_none_iff_exists'.mp hm
    have hc1 : ∀ b : Nat, ({ cfg with pgsize_bitmap := b } : io_pgtable_cfg).alloc = false := fun _ => ha
    have hs : ∀ (e : alloc_pages_env) (c c2 : io_pgtable_cfg), c2.coherent_walk = c.coherent_walk →
        e.succeeds c = true → e.succeeds c2 = true := by
      intro e c c2 hcw hs
      unfold alloc_pages_env.succeeds at hs ⊢
      rw [hcw]; exact hs
    have hw : ¬ (cfg.ias > 48 ∨ cfg.oas > 42) := by omega
    have hw2 : ¬ (cfg.ias > MAX_IAS ∨ cfg.oas > MAX_OAS) := by
      unfold MAX_IAS MAX_OAS; omega
    have hk : check_custom_allocator APPLE_UAT cfg = 0 := by
      unfold check_custom_allocator
      simp [ha, hf]
    unfold alloc_io_pgtable_ops
    rw [if_neg (by decide), hk, if_neg (by simp)]
    have ht : io_pgtable_init_table APPLE_UAT = some io_pgtable_apple_uat_init_fns := by
      unfold io_pgtable_init_table; simp
    simp only [ht]
    have hd : ∃ d c l, apple_uat_alloc_pgtable env cfg cookie = { data := some d, cfg := c, log := l } := by
      unfold apple_uat_alloc_pgtable
      rw [if_neg (by simp [hq]), if_neg hw]
      simp only
      unfold arm_lpae_alloc_pgtable
      simp only
      rw [if_neg (by simp [hq]), if_neg hw2]
      simp only [hma]
      have e1 := alloc_pages_succeeds env.pages1 PAGE_SIZE_16K
        { cfg with pgsize_bitmap := cfg.pgsize_bitmap &&& PAGE_SIZE_16K &&& SUPPORTED_PAGE_SIZES }
        ha (hs _ cfg _ rfl h1)
      simp only [e1]
      have e2 := alloc_pages_succeeds env.pages2 PAGE_SIZE_16K
        { cfg with pgsize_bitmap := cfg.pgsize_bitmap &&& PAGE_SIZE_16K &&& SUPPORTED_PAGE_SIZES,
                   arm_lpae_s1_ttbr := env.getphys env.pages1.kva }
        ha (hs _ cfg _ rfl h2)
      simp only [e2]
      exact ⟨_, _, _, rfl⟩
    obtain ⟨d, c, l, hd⟩ := hd
    rw [hd]
    simp

/-- C20 as amended, on a configuration with a 48-bit input and a 42-bit output width and
one with a 43-bit output width. -/
theorem alloc_checks_widths_48_and_42_witness :
    (alloc_io_pgtable_ops pgtable_env_ok APPLE_UAT (io_pgtable_cfg_16k 48 43) 7).data = none ∧
    (alloc_io_pgtable_ops pgtable_env_ok APPLE_UAT (io_pgtable_cfg_16k 48 42) 7).data ≠ none :=
  ⟨(alloc_checks_widths_48_and_42.1 pgtable_env_ok APPLE_UAT (io_pgtable_cfg_16k 48 43) 7
      (Or.inr (by decide))).1,
   alloc_checks_widths_48_and_42.2 pgtable_env_ok (io_pgtable_cfg_16k 48 42) 7
      (by decide) (by decide) rfl rfl rfl (by decide) (by decide) (by decide)⟩

/-- C21: `alloc_io_pgtable_ops` returns `NULL` whenever the configuration supplies a
custom allocator or free function and the selected format does not declare
`IO_PGTABLE_CAP_CUSTOM_ALLOCATOR` (no format of the table declares it), and whenever
only one of the two functions is supplied; for a configuration that supplies neither,
`check_custom_allocator` returns 0. -/
theorem custom_allocator_is_rejected :
    (∀ (env : pgtable_env) (fmt : Nat) (cfg : io_pgtable_cfg) (cookie : Nat),
      (cfg.alloc = true ∨ cfg.free = true) →
      (∀ fns, io_pgtable_init_table fmt = some fns →
        fns.caps &&& IO_PGTABLE_CAP_CUSTOM_ALLOCATOR = 0) →
        (alloc_io_pgtable_ops env fmt cfg cookie).data = none) ∧
    (∀ (fmt : Nat) (fns : io_pgtable_init_fns), io_pgtable_init_table fmt = some fns →
        fns.caps &&& IO_PGTABLE_CAP_CUSTOM_ALLOCATOR = 0) ∧
    (∀ (env : pgtable_env) (fmt : Nat) (cfg : io_pgtable_cfg) (cookie : Nat),
      cfg.alloc ≠ cfg.free → (alloc_io_pgtable_ops env fmt cfg cookie).data = none) ∧
    (∀ (fmt : Nat) (cfg : io_pgtable_cfg),
      cfg.alloc = false → cfg.free = false → check_custom_allocator fmt cfg = 0) := by
  refine ⟨?_, init_table_no_custom_allocator, ?_, ?_⟩
  · intro env fmt cfg cookie hc hcaps
    have hk := (check_custom_allocator_cases fmt cfg hcaps).2 hc
    rw [alloc_rejects_untouched env fmt cfg cookie (Or.inr (Or.inl (by rw [hk]; decide)))]
  · intro env fmt cfg cookie hne
    have hc : cfg.alloc = true ∨ cfg.free = true := by
      cases ha : cfg.alloc <;> cases hf : cfg.free <;> simp [ha, hf] at hne ⊢
    have hk := (check_custom_allocator_cases fmt cfg (init_table_no_custom_allocator fmt)).2 hc
    rw [alloc_rejects_untouched env fmt cfg cookie (Or.inr (Or.inl (by rw [hk]; decide)))]
  · intro fmt cfg ha hf
    exact (check_custom_allocator_cases fmt cfg (init_table_no_custom_allocator fmt)).1 ha hf

/-- C21 on the configuration with 48-bit input and 42-bit output width: with a custom
allocator pair it is rejected, and so with the allocator alone; without either it is
accepted. -/
theorem custom_allocator_is_rejected_witness :
    (alloc_io_pgtable_ops pgtable_env_ok APPLE_UAT
      { io_pgtable_cfg_16k 48 42 with alloc := true, free := true } 7).data = none ∧
    (alloc_io_pgtable_ops pgtable_env_ok APPLE_UAT
      { io_pgtable_cfg_16k 48 42 with alloc := true } 7).data = none ∧
    check_custom_allocator APPLE_UAT (io_pgtable_cfg_16k 48 42) = 0 ∧
    (alloc_io_pgtable_ops pgtable_env_ok APPLE_UAT (io_pgtable_cfg_16k 48 42) 7).data ≠ none :=
  ⟨custom_allocator_is_rejected.1 pgtable_env_ok APPLE_UAT
      { io_pgtable_cfg_16k 48 42 with alloc := true, free := true } 7 (Or.inl rfl)
      (custom_allocator_is_rejected.2.1 APPLE_UAT),
   custom_allocator_is_rejected.2.2.1 pgtable_env_ok APPLE_UAT
      { io_pgtable_cfg_16k 48 42 with alloc := true } 7 (by decide),
   custom_allocator_is_rejected.2.2.2 APPLE_UAT (io_pgtable_cfg_16k 48 42) rfl rfl,
   by decide⟩

/-- C22: whenever `alloc_io_pgtable_ops` rejects a request because the format is not in
the table, the input width exceeds 48 or the output width exceeds 42 bits, a quirk bit
is set (the format supports none), or a custom allocator or free function is supplied
(the format supports none), it returns `NULL`, the configuration is exactly the one
passed in, and nothing has been allocated (no event at all has taken place). -/
theorem invalid_configuration_changes_nothing (env : pgtable_env) (fmt : Nat)
    (cfg : io_pgtable_cfg) (cookie : Nat)
    (hinvalid : fmt ≥ IO_PGTABLE_NUM_FMTS ∨ cfg.ias > 48 ∨ cfg.oas > 42 ∨ cfg.quirks ≠ 0 ∨
      cfg.alloc = true ∨ cfg.free = true) :
    (alloc_io_pgtable_ops env fmt cfg cookie).data = none ∧
    (alloc_io_pgtable_ops env fmt cfg cookie).cfg = cfg ∧
    (alloc_io_pgtable_ops env fmt cfg cookie).log = [] := by
  have h : fmt ≥ IO_PGTABLE_NUM_FMTS ∨ check_custom_allocator fmt cfg ≠ 0 ∨ cfg.quirks ≠ 0 ∨
      cfg.ias > 48 ∨ cfg.oas > 42 := by
    rcases hinvalid with h | h | h | h | h
    · exact Or.inl h
    · exact Or.inr (Or.inr (Or.inr (Or.inl h)))
    · exact Or.inr (Or.inr (Or.inr (Or.inr h)))
    · exact Or.inr (Or.inr (Or.inl h))
    · have hk := (check_custom_allocator_cases fmt cfg (init_table_no_custom_allocator fmt)).2 h
      exact Or.inr (Or.inl (by rw [hk]; decide))
  rw [alloc_rejects_untouched env fmt cfg cookie h]
  exact ⟨rfl, rfl, rfl⟩

/-- C22 on a configuration with a 49-bit input width, whose page-size bitmap also holds
the unsupported 64 KiB size: it comes back as it was. -/
theorem invalid_configuration_changes_nothing_witness :
    (alloc_io_pgtable_ops pgtable_env_ok APPLE_UAT
      { io_pgtable_cfg_16k 49 42 with pgsize_bitmap := 0x14000 } 7).data = none ∧
    (alloc_io_pgtable_ops pgtable_env_ok APPLE_UAT
      { io_pgtable_cfg_16k 49 42 with pgsize_bitmap := 0x14000 } 7).cfg
        = { io_pgtable_cfg_16k 49 42 with pgsize_bitmap := 0x14000 } ∧
    (alloc_io_pgtable_ops pgtable_env_ok APPLE_UAT
      { io_pgtable_cfg_16k 49 42 with pgsize_bitmap := 0x14000 } 7).log = [] :=
  invalid_configuration_changes_nothing pgtable_env_ok APPLE_UAT
    { io_pgtable_cfg_16k 49 42 with pgsize_bitmap := 0x14000 } 7 (Or.inr (Or.inl (by decide)))

/-- C26 (the code at the failing input): for every successful `alloc_io_pgtable_ops`,
two root tables of 16384 bytes are allocated with `__arm_lpae_alloc_pages`, and the
`free_io_pgtable_ops` that follows gives back one thing only: after the flush it calls
`free(pages, M_DEVBUF, size)` on the second table with the size
`ARM_LPAE_PGD_SIZE(data) = 8`. So with every service succeeding for the configuration
with 48-bit input and 42-bit output width: both tables are obtained with
`bus_dmamem_alloc` and `bus_dmamem_map`, the first, at `0xffffff8000200000`, is never
released, and the second is passed to `free` with size 8. -/
theorem free_releases_one_table_of_two :
    (∀ (env : pgtable_env) (fmt : Nat) (cfg : io_pgtable_cfg) (cookie : Nat)
      (d : arm_lpae_io_pgtable),
      (alloc_io_pgtable_ops env fmt cfg cookie).data = some d →
        (∃ (pgd1 : Nat) (cfg1 cfg2 : io_pgtable_cfg),
          (__arm_lpae_alloc_pages env.pages1 PAGE_SIZE_16K cfg1).1 = some pgd1 ∧
          (__arm_lpae_alloc_pages env.pages2 PAGE_SIZE_16K cfg2).1 = d.pgd ∧ d.pgd ≠ none ∧
          (alloc_io_pgtable_ops env fmt cfg cookie).log
            = [pgtable_event.malloc_data d.addr]
                ++ (__arm_lpae_alloc_pages env.pages1 PAGE_SIZE_16K cfg1).2
                ++ (__arm_lpae_alloc_pages env.pages2 PAGE_SIZE_16K cfg2).2) ∧
        free_io_pgtable_ops (some d)
          = [pgtable_event.tlb_flush_all]
              ++ (if d.cfg.coherent_walk = true then []
                  else [pgtable_event.bus_dmamap_unload, pgtable_event.bus_dmamap_destroy])
              ++ [pgtable_event.free d.pgd 8]) ∧
    (alloc_io_pgtable_ops pgtable_env_ok APPLE_UAT (io_pgtable_cfg_16k 48 42) 7).log
      = [pgtable_event.malloc_data 0xffffff8000100000,
         pgtable_event.malloc_segs 0xffffff8000280000,
         pgtable_event.bus_dmamem_alloc 16384,
         pgtable_event.bus_dmamem_map 0xffffff8000200000 16384,
         pgtable_event.malloc_segs 0xffffff8000380000,
         pgtable_event.bus_dmamem_alloc 16384,
         pgtable_event.bus_dmamem_map 0xffffff8000300000 16384] ∧
    free_io_pgtable_ops
        (alloc_io_pgtable_ops pgtable_env_ok APPLE_UAT (io_pgtable_cfg_16k 48 42) 7).data
      = [pgtable_event.tlb_flush_all, pgtable_event.free (some 0xffffff8000300000) 8] := by
  refine ⟨?_, by decide, by decide⟩
  intro env fmt cfg cookie d h
  obtain ⟨hb, -, -, -, hf, -, hex⟩ := alloc_success_shape env fmt cfg cookie d h
  refine ⟨hex, ?_⟩
  unfold free_io_pgtable_ops arm_lpae_free_pgtable __arm_lpae_free_pages ARM_LPAE_PGD_SIZE
  simp only [hb, hf, sizeof_arm_lpae_iopte]
  cases d.cfg.coherent_walk <;> simp

/-- C27 (the code at the failing input): after every successful
`alloc_io_pgtable_ops`, `bits_per_level`, `pgd_bits` and `start_level` are 0, as
`malloc` with `M_ZERO` left them, so `ARM_LPAE_GRANULE` is 8 and not 16384: so for the
configuration with a 16 KiB granule, 48-bit input and 42-bit output width. -/
theorem alloc_leaves_geometry_zero :
    (∀ (env : pgtable_env) (fmt : Nat) (cfg : io_pgtable_cfg) (cookie : Nat)
      (d : arm_lpae_io_pgtable),
      (alloc_io_pgtable_ops env fmt cfg cookie).data = some d →
        d.bits_per_level = 0 ∧ d.pgd_bits = 0 ∧ d.start_level = 0 ∧ ARM_LPAE_GRANULE d = 8) ∧
    (alloc_io_pgtable_ops pgtable_env_ok APPLE_UAT (io_pgtable_cfg_16k 48 42) 7).data.map
        (fun d => (d.cfg.pgsize_bitmap, d.bits_per_level, ARM_LPAE_GRANULE d))
      = some (16384, 0, 8) ∧
    sizeof_arm_lpae_iopte <<< 11 = 16384 := by
  refine ⟨?_, by decide, by decide⟩
  intro env fmt cfg cookie d h
  obtain ⟨hp, hs, hb, -⟩ := alloc_success_shape env fmt cfg cookie d h
  refine ⟨hb, hp, hs, ?_⟩
  unfold ARM_LPAE_GRANULE
  rw [hb]
  decide

/-- C23 (the code at the failing input): a successful `map` returns
`bytes_mapped = g * n`, and `map` returns given fuel for its loops; but when
`pmap_enter` fails inside a granule, the pages of that granule entered before are
installed and not counted. Mapping one 16 KiB granule at `0x10000000` on the empty pmap
with the second `pmap_enter` failing returns `ENOMEM` (12) with `bytes_mapped = 0`,
while `iova_to_phys(0x10000000)`, unmapped before, is now `0x20000000`. -/
theorem map_failure_leaves_uncounted_pages :
    (∀ (fails : Nat → Bool) (fuel : Nat) (pm pm1 : pmap) (iova paddr g n m : Nat),
      g * n < 2 ^ 64 →
      arm_lpae_map_pages fails fuel pm iova paddr g n = some (0, m, pm1) → m = g * n) ∧
    (∀ (fails : Nat → Bool) (fuel : Nat) (pm : pmap) (iova paddr g n : Nat),
      g < 2 ^ 63 → g * n < 2 ^ 64 → n < fuel → g / PAGE_SIZE + 1 < fuel →
      ∃ r, arm_lpae_map_pages fails fuel pm iova paddr g n = some r) ∧
    arm_lpae_iova_to_phys pmap_empty 0x10000000 = 2 ^ 64 - 1 ∧
    (arm_lpae_map_pages (fun k => decide (k = 1)) 8 pmap_empty 0x10000000 0x20000000 16384 1).map
        (fun r => (r.1, r.2.1, arm_lpae_iova_to_phys r.2.2 0x10000000))
      = some (12, 0, 0x20000000) := by
  refine ⟨?_, ?_, by decide, by decide⟩
  · intro fails fuel pm pm1 iova paddr g n m hfit h
    unfold arm_lpae_map_pages __arm_lpae_map at h
    simp only at h
    have hw : w64 (g * n) = g * n := by unfold w64; exact Nat.mod_eq_of_lt hfit
    rw [hw] at h
    have h0 := map_outer_success fails fuel (trunc_page iova) (trunc_page paddr) g n hfit
      fuel 0 0 m pm pm1 (Nat.zero_le _)
    rw [Nat.mul_zero] at h0
    exact h0 h
  · intro fails fuel pm iova paddr g n hg hfit hfuel hfuel0
    exact map_pages_terminates fails fuel pm iova paddr g n hg hfit hfuel hfuel0

/-- C24 (the code at the failing input): `arm_lpae_unmap_pages` returns `g * n`
whatever is mapped, given fuel for its `n` iterations; on the empty pmap, where nothing
is mapped, `unmap(0x10000000, 4096, 1)` returns 4096 and not 0. -/
theorem unmap_returns_requested_size :
    (∀ (fuel : Nat) (pm : pmap) (iova g n : Nat), g * n < 2 ^ 64 → n < fuel →
      ∃ pm2, arm_lpae_unmap_pages fuel pm iova g n = some (g * n, pm2)) ∧
    arm_lpae_iova_to_phys pmap_empty 0x10000000 = 2 ^ 64 - 1 ∧
    (arm_lpae_unmap_pages 2 pmap_empty 0x10000000 4096 1).map (fun r => r.1) = some 4096 := by
  refine ⟨?_, by decide, by decide⟩
  intro fuel pm iova g n hfit hfuel
  have hw : w64 (g * n) = g * n := by unfold w64; exact Nat.mod_eq_of_lt hfit
  obtain ⟨pm2, hpm2⟩ := unmap_loop_terminates (trunc_page iova) g n hfit fuel 0 pm
    (Nat.zero_le _) (by omega)
  rw [Nat.mul_zero] at hpm2
  refine ⟨pm2, ?_⟩
  unfold arm_lpae_unmap_pages __arm_lpae_unmap
  simp only [hw, hpm2, Option.map_some']

/-- C25 (the code at the failing input): `unmap` of at least one block of at least a
page returns `g * n` and leaves `iova` unmapped, whatever block size the mapping there
was made with. After one 16 KiB granule was mapped at `0x10000000`,
`unmap(0x10000000, 4096, 1)` returns 4096 and `iova_to_phys(0x10000000)` changes from
`0x20000000` to `(paddr_t)-1`; and after one 4 KiB block was mapped there,
`unmap(0x10000000, 16384, 1)` returns 16384 and removes it. -/
theorem unmap_with_other_granule_unmaps :
    (∀ (fuel : Nat) (pm : pmap) (iova g n : Nat),
      iova < 2 ^ 64 → PAGE_SIZE ≤ g → 0 < n → g * n < 2 ^ 64 → n < fuel →
      ∃ pm2, arm_lpae_unmap_pages fuel pm iova g n = some (g * n, pm2) ∧
        arm_lpae_iova_to_phys pm2 iova = 2 ^ 64 - 1) ∧
    (arm_lpae_map_pages (fun _ => false) 8 pmap_empty 0x10000000 0x20000000 16384 1).bind
        (fun r1 => (arm_lpae_unmap_pages 2 r1.2.2 0x10000000 4096 1).map
          (fun r2 => (r1.1, arm_lpae_iova_to_phys r1.2.2 0x10000000,
            r2.1, arm_lpae_iova_to_phys r2.2 0x10000000)))
      = some (0, 0x20000000, 4096, 2 ^ 64 - 1) ∧
    (arm_lpae_map_pages (fun _ => false) 8 pmap_empty 0x10000000 0x20000000 4096 1).bind
        (fun r1 => (arm_lpae_unmap_pages 2 r1.2.2 0x10000000 16384 1).map
          (fun r2 => (r1.1, arm_lpae_iova_to_phys r1.2.2 0x10000000,
            r2.1, arm_lpae_iova_to_phys r2.2 0x10000000)))
      = some (0, 0x20000000, 16384, 2 ^ 64 - 1) := by
  refine ⟨?_, by decide, by decide⟩
  intro fuel pm iova g n hiova hg hn hfit hfuel
  exact unmap_pages_clears fuel pm iova g n hiova hg hn hfit hfuel

/-- C28: `map` and `unmap` truncate their addresses to a page boundary before use. For
every `iova`, `paddr`, `g` and `n`, `arm_lpae_map_pages` returns the same value and
`bytes_mapped` and leaves the same pmap as with `trunc_page(iova)` and
`trunc_page(paddr)`, and `arm_lpae_unmap_pages` the same as with `trunc_page(iova)`;
and both return, given fuel for their loops. -/
theorem map_unmap_truncate_addresses (fails : Nat → Bool) (fuel : Nat) (pm : pmap)
    (iova paddr g n : Nat) :
    arm_lpae_map_pages fails fuel pm iova paddr g n
      = arm_lpae_map_pages fails fuel pm (trunc_page iova) (trunc_page paddr) g n ∧
    arm_lpae_unmap_pages fuel pm iova g n
      = arm_lpae_unmap_pages fuel pm (trunc_page iova) g n ∧
    (g < 2 ^ 63 → g * n < 2 ^ 64 → n < fuel → g / PAGE_SIZE + 1 < fuel →
      (∃ r, arm_lpae_map_pages fails fuel pm iova paddr g n = some r) ∧
      (∃ r, arm_lpae_unmap_pages fuel pm iova g n = some r)) := by
  refine ⟨?_, ?_, ?_⟩
  · unfold arm_lpae_map_pages __arm_lpae_map
    simp only [trunc_page_idem]
  · unfold arm_lpae_unmap_pages __arm_lpae_unmap
    simp only [trunc_page_idem]
  · intro hg hfit hfuel hfuel0
    refine ⟨map_pages_terminates fails fuel pm iova paddr g n hg hfit hfuel hfuel0, ?_⟩
    obtain ⟨pm2, hpm2⟩ := unmap_loop_terminates (trunc_page iova) g n hfit fuel 0 pm
      (Nat.zero_le _) (by omega)
    rw [Nat.mul_zero] at hpm2
    have hw : w64 (g * n) = g * n := by unfold w64; exact Nat.mod_eq_of_lt hfit
    unfold arm_lpae_unmap_pages __arm_lpae_unmap
    simp only [hw, hpm2, Option.map_some']
    exact ⟨_, rfl⟩

/-- C28 on the addresses `0x10000123` and `0x20000456`, which are not page-aligned: the
call behaves as on `0x10000000` and `0x20000000`, returns 0 with 4096 bytes mapped, and
`iova_to_phys(0x10000123)` is `0x20000123`. -/
theorem map_unmap_truncate_addresses_witness :
    arm_lpae_map_pages (fun _ => false) 8 pmap_empty 0x10000123 0x20000456 4096 1
      = arm_lpae_map_pages (fun _ => false) 8 pmap_empty 0x10000000 0x20000000 4096 1 ∧
    (arm_lpae_map_pages (fun _ => false) 8 pmap_empty 0x10000123 0x20000456 4096 1).map
        (fun r => (r.1, r.2.1, arm_lpae_iova_to_phys r.2.2 0x10000123))
      = some (0, 4096, 0x20000123) :=
  ⟨(map_unmap_truncate_addresses (fun _ => false) 8 pmap_empty 0x10000123 0x20000456 4096 1).1,
   by decide⟩

/-- C29 (the code at the failing input): mapping one 16 KiB granule at `0x10000000` to
`0x20000000` on the empty pmap returns 0, and `iova_to_phys(0x11000000)`, an address
outside the range from `0x10000000` to `0x10004000`, changes from `(paddr_t)-1`
(unmapped) to `0x21000000`, and so 32 MiB and 48 MiB above `iova`: the inner loop
enters `curr_vaddr + offset*PAGE_SIZE` with `offset` already in bytes. -/
theorem map_16k_changes_pages_outside_range :
    trunc_page 0x10000000 = 0x10000000 ∧
    ¬ (0x11000000 < trunc_page 0x10000000 + 16384 * 1) ∧
    (arm_lpae_iova_to_phys pmap_empty 0x11000000, arm_lpae_iova_to_phys pmap_empty 0x12000000,
      arm_lpae_iova_to_phys pmap_empty 0x13000000) = (2 ^ 64 - 1, 2 ^ 64 - 1, 2 ^ 64 - 1) ∧
    (arm_lpae_map_pages (fun _ => false) 8 pmap_empty 0x10000000 0x20000000 16384 1).map
        (fun r => (r.1, arm_lpae_iova_to_phys r.2.2 0x11000000,
          arm_lpae_iova_to_phys r.2.2 0x12000000, arm_lpae_iova_to_phys r.2.2 0x13000000))
      = some (0, 0x21000000, 0x22000000, 0x23000000) := by
  decide

/-- C30: for every value `ELAST` from 1 up to the largest `int` and every 64-bit `long`
`x`: `PTR_ERR(ERR_PTR(x)) = x`; `IS_ERR(ERR_PTR(x))` holds exactly when
`-ELAST <= x <= -1`; `IS_ERR(NULL)` is false; `IS_ERR_OR_NULL(p)` holds exactly when `p`
is `NULL` or `IS_ERR(p)`; and `PTR_ERR_OR_ZERO(ERR_PTR(x))` is `x` when
`-ELAST <= x <= -1` and 0 otherwise. -/
theorem err_ptr_round_trip (ELAST x : Int) (p : Nat)
    (hpos : 0 < ELAST) (hint : ELAST < 2 ^ 31)
    (hlo : - 2 ^ 63 ≤ x) (hhi : x < 2 ^ 63) :
    PTR_ERR (ERR_PTR x) = x ∧
    (IS_ERR ELAST (ERR_PTR x) = true ↔ - ELAST ≤ x ∧ x ≤ -1) ∧
    IS_ERR ELAST 0 = false ∧
    (IS_ERR_OR_NULL ELAST p = true ↔ p = 0 ∨ IS_ERR ELAST p = true) ∧
    PTR_ERR_OR_ZERO ELAST (ERR_PTR x) = (if - ELAST ≤ x ∧ x ≤ -1 then x else 0) := by
  have h1 : PTR_ERR (ERR_PTR x) = x := by
    unfold PTR_ERR ERR_PTR ulong_to_long long_to_ulong
    split_ifs <;> omega
  have h2 : IS_ERR ELAST (ERR_PTR x) = true ↔ - ELAST ≤ x ∧ x ≤ -1 := by
    unfold IS_ERR IS_ERR_VALUE ERR_PTR long_to_ulong
    rw [decide_eq_true_eq]
    omega
  refine ⟨h1, h2, ?_, ?_, ?_⟩
  · unfold IS_ERR IS_ERR_VALUE long_to_ulong
    rw [decide_eq_false_iff_not]
    omega
  · unfold IS_ERR_OR_NULL IS_ERR
    rw [Bool.or_eq_true, decide_eq_true_eq]
  · unfold PTR_ERR_OR_ZERO
    by_cases hr : - ELAST ≤ x ∧ x ≤ -1
    · rw [if_pos (h2.mpr hr), if_pos hr, h1]
      unfold long_to_int
      split_ifs <;> omega
    · rw [if_neg hr]
      have : ¬ (IS_ERR ELAST (ERR_PTR x) = true) := fun h => hr (h2.mp h)
      rw [if_neg this]

/-- C30 for `ELAST = 95` and `x = -12` (`-ENOMEM`), with the pointer `NULL`. -/
theorem err_ptr_round_trip_witness :
    PTR_ERR (ERR_PTR (-12)) = -12 ∧
    (IS_ERR 95 (ERR_PTR (-12)) = true ↔ - (95 : Int) ≤ -12 ∧ (-12 : Int) ≤ -1) ∧
    IS_ERR 95 0 = false ∧
    (IS_ERR_OR_NULL 95 0 = true ↔ 0 = 0 ∨ IS_ERR 95 0 = true) ∧
    PTR_ERR_OR_ZERO 95 (ERR_PTR (-12))
      = (if - (95 : Int) ≤ -12 ∧ (-12 : Int) ≤ -1 then -12 else 0) :=
  err_ptr_round_trip 95 (-12) 0 (by decide) (by decide) (by decide) (by decide)

end DrmCore
